import Mathlib

/-!
# Weather-Website: cache, staged weather fetch, OpenWeather helper and proxy

A shallow embedding of `api.js`, of `getWeather`, `geocode`, `loadByCoords`, `renderDaily` and
`renderAQI` with their helpers in `app.js`, of the Netlify function `openweather-proxy.js`,
and of the user records and the avatar upload of `profile.js`.

* JavaScript values that flow through the code untouched (response bodies, cached values)
  are `Json` values; `null` and `undefined` are both `Json.null`.
* Browser builtins that the repository does not implement (`new URL`, number printing,
  `location.origin`) are fields of a `Platform` record; every theorem holds for all
  platforms unless it names a concrete one.
* An asynchronous function is a pure function of its inputs, of the clock readings it makes
  and of the outcomes of the requests it issues; it returns what its promise settles to,
  the new cache, and the list of observable events in program order. A callback that runs
  after the promise has settled is a second function, applied to the cache of that later
  moment and to the value that an object it captured has at that moment.
* `app.js` both imports `getKey` from `api.js` and declares a function of that name; the
  model lets `getWeather` run the declaration of `app.js` (`App.getKey`). The two checks agree
  whenever a usable key is configured.
* Numbers are finite: a coordinate is a rational, as every finite double is. Arithmetic on
  them is exact.
* Whether a rendering call throws depends on the page and on `fmt` of `utils.js`, which are
  not among the sources; where it matters this is an input (`Page`, `hasWeatherUI`, the
  presence of an element).
* `utils.js`, which holds `cache`, is not among the sources; `Cache.get` and `Cache.set`
  follow the contract the specification gives for it.
-/

namespace Weather

/-! ## JavaScript values -/

/-- A parsed JSON value; `Json.null` also stands for `undefined`. -/
inductive Json where
  | null
  | bool (b : Bool)
  | num (n : ℚ)
  | str (s : String)
  | arr (items : List Json)
  | obj (fields : List (String × Json))

namespace Json

/-- JavaScript truthiness (`if (v)`): `null`, `false`, `0` and `''` are falsy. -/
def truthy : Json → Bool
  | null => false
  | bool b => b
  | num n => decide (n ≠ 0)
  | str s => decide (s ≠ "")
  | arr _ => true
  | obj _ => true

/-- Property write on an object: an existing field keeps its position. -/
def setField (k : String) (v : Json) : List (String × Json) → List (String × Json)
  | [] => [(k, v)]
  | (k', v') :: rest => if k' = k then (k, v) :: rest else (k', v') :: setField k v rest

/-- Property read `o.k`; a missing field reads as `undefined`. -/
def getField (k : String) : Json → Json
  | obj fields => (fields.lookup k).getD null
  | _ => null

/-- The object spread `{ ...w, k: v }`. -/
def spreadWith (w : Json) (k : String) (v : Json) : Json :=
  match w with
  | obj fields => obj (setField k v fields)
  | _ => obj [(k, v)]

end Json

/-- Truthiness of a value that is a string or `undefined`. -/
def truthyStr : Option String → Bool
  | none => false
  | some s => decide (s ≠ "")

/-- The errors the code can reject with. -/
inductive JsError where
  /-- The value of `new Error(msg)`. -/
  | error (msg : String)
  /-- The value `new URL(..)` throws on an unparsable input. -/
  | invalidURL
  /-- The value `fetch` rejects with when the network fails. -/
  | networkError
  /-- The value `fetch` rejects with when the timeout aborts it. -/
  | aborted
  /-- The value `r.json()` rejects with on a body that is not JSON. -/
  | badJson
  deriving DecidableEq, Repr

/-! ## URLs and `URLSearchParams` -/

/-- The list of name-value pairs of a `URLSearchParams` object. -/
abbrev SearchParams := List (String × String)

namespace SearchParams

/-- The method `URLSearchParams.set`: the first pair named `k` takes the value, the other
pairs named `k` are removed, and a new pair is appended when there is none. -/
def set (k v : String) : SearchParams → SearchParams
  | [] => [(k, v)]
  | (k', v') :: rest =>
    if k' = k then (k, v) :: rest.filter (fun p => p.1 ≠ k) else (k', v') :: set k v rest

/-- The method `URLSearchParams.get`: the first value named `k`. -/
def get (k : String) (q : SearchParams) : Option String :=
  (q.find? (fun p => p.1 = k)).map Prod.snd

/-- The method `URLSearchParams.delete`: removes every pair named `k`. -/
def delete (k : String) (q : SearchParams) : SearchParams :=
  q.filter (fun p => p.1 ≠ k)

end SearchParams

/-- The components of a parsed `URL` object that the code reads or writes. -/
structure URL where
  protocol : String
  username : String
  password : String
  host : String
  pathname : String
  searchParams : SearchParams
  hash : String
  deriving DecidableEq, Repr

/-- The getter `URL.origin`. -/
def URL.origin (u : URL) : String := u.protocol ++ "//" ++ u.host

/-- The browser and runtime builtins the code calls. -/
structure Platform where
  /-- The constructor `new URL(s)`; `none` when it throws. -/
  parseURL : String → Option URL
  /-- The constructor `new URL(s, base)`; `none` when it throws. -/
  resolveURL : String → String → Option URL
  /-- The value of `location.origin`. -/
  locationOrigin : String
  /-- The conversion `String(x)` of a finite number. -/
  numToString : ℚ → String

/-! ## Configuration, events and fetch outcomes -/

/-- The object `window.CONFIG`. -/
structure Config where
  OPENWEATHER_KEY : Option String
  PROXY_URL : Option String
  deriving DecidableEq, Repr

/-- The expression `window.CONFIG?.OPENWEATHER_KEY`. -/
def configKey (cfg : Option Config) : Option String := cfg.bind Config.OPENWEATHER_KEY

/-- The expression `window.CONFIG?.PROXY_URL`. -/
def configProxy (cfg : Option Config) : Option String := cfg.bind Config.PROXY_URL

/-- What a run does that the outside can observe. -/
inductive Event where
  /-- A call `fetch(url.toString(), ..)`, with the timeout in milliseconds that guards it
  when there is one. -/
  | fetch (url : URL) (timeout : Option Nat)
  /-- A call `cache.set(key, value, ttl)`. -/
  | cacheSet (key : String) (value : Json) (ttl : Nat)
  /-- A call `setStatus(msg, type)`. -/
  | setStatus (msg : String) (type : String)
  /-- A call `renderAQI(w)`. -/
  | renderAQI (w : Json)

/-- Whether an event is a network request. -/
def Event.isFetch : Event → Bool
  | .fetch _ _ => true
  | _ => false

/-- Whether an event is a cache write. -/
def Event.isCacheSet : Event → Bool
  | .cacheSet _ _ _ => true
  | _ => false

/-- Whether an event is a call of the air-quality renderer. -/
def Event.isRenderAQI : Event → Bool
  | .renderAQI _ => true
  | _ => false

/-- How one `fetch` ends: with a response of some status whose body parses to JSON or does
not, with a network failure, or aborted by its timeout. -/
inductive FetchOutcome where
  | response (status : Nat) (json : Option Json)
  | networkError
  | timeout

/-- A `Response` object: its status and what `r.json()` gives (`none` when it rejects). -/
structure Response where
  status : Nat
  json : Option Json

/-- The getter `Response.ok`: the status is in the range 200 to 299. -/
def Response.ok (r : Response) : Bool := decide (200 ≤ r.status ∧ r.status ≤ 299)

/-- What the promise returned by `fetch` settles to. -/
def FetchOutcome.settle : FetchOutcome → Except JsError Response
  | .response status json => .ok ⟨status, json⟩
  | .networkError => .error .networkError
  | .timeout => .error .aborted

/-- The method `r.json()`. -/
def Response.parse (r : Response) : Except JsError Json :=
  match r.json with
  | some j => .ok j
  | none => .error .badJson

/-! ## Number formatting -/

/-- Three decimal digits, zero padded. -/
def pad3 (r : Nat) : String :=
  if r < 10 then "00" ++ Nat.repr r else if r < 100 then "0" ++ Nat.repr r else Nat.repr r

/-- The method `x.toFixed(3)` of a finite number `x`: the sign, then the integer `n` nearest
to `|x| * 1000` (the larger one on a tie) printed with a point before its last three digits;
a number of magnitude `10^21` or more is printed by `String(x)` instead. -/
def toFixed3 (P : Platform) (x : ℚ) : String :=
  let s := if x.num < 0 then "-" else ""
  if 10 ^ 21 * x.den ≤ x.num.natAbs then s ++ P.numToString |x|
  else
    let n := (2000 * x.num.natAbs + x.den) / (2 * x.den)
    s ++ Nat.repr (n / 1000) ++ "." ++ pad3 (n % 1000)

/-- The number a text of decimal digits denotes. -/
def decimalValue : List Char → Nat
  | [] => 0
  | c :: l => (c.toNat - 48) * 10 ^ l.length + decimalValue l

/-- The value `x` rounded to thousandths, as the specification words the cache key: the
number of thousandths nearest to `|x|`, the larger one on a tie. -/
def thousandths (x : ℚ) : Nat := ⌊|x| * 1000 + 1 / 2⌋₊

/-! ## The TTL cache (`cache` of `utils.js`) -/

/-- A stored value with its absolute expiry time in milliseconds. -/
structure CacheEntry where
  value : Json
  expiresAt : Nat

/-- The process-wide cache: a map from key to entry, as an association list. -/
abbrev Cache := List (String × CacheEntry)

namespace Cache

/-- The entry stored under a key, expired or not. -/
def entry (c : Cache) (key : String) : Option CacheEntry :=
  (c.find? (fun p => p.1 = key)).map Prod.snd

/-- Modelled from the spec: `cache.get` of `utils.js`, which is not among the sources.
"Returns the stored value if present and not expired; otherwise reports absent. Side effect:
if expired, the entry is removed"; an entry is expired "once the current time passes"
`expiresAt`. The result is the value read and the cache after the read. -/
def get (c : Cache) (now : Nat) (key : String) : Option Json × Cache :=
  match c.entry key with
  | none => (none, c)
  | some e =>
    if e.expiresAt < now then (none, c.filter (fun p => p.1 ≠ key)) else (some e.value, c)

/-- Modelled from the spec: `cache.set` of `utils.js`, which is not among the sources.
"Stores/overwrites the entry for `key`, with `expiresAt = now + ttlMillis`." -/
def set (c : Cache) (now : Nat) (key : String) (value : Json) (ttl : Nat) : Cache :=
  (key, ⟨value, now + ttl⟩) :: c.filter (fun p => p.1 ≠ key)

end Cache

/-! ## `api.js` -/

/-- What a synchronous stretch of code did: its result and its events in order. -/
structure Step (α : Type) where
  result : Except JsError α
  events : List Event

/-- The message `getKey` shows when no key is configured. -/
def missingKeyStatus : String :=
  "Missing OpenWeather API key. Create `config.js` with window.CONFIG = \x7b OPENWEATHER_KEY: \"YOUR_KEY\" \x7d"

/-- The error `new Error('Missing API key')`. -/
def missingKey : JsError := .error "Missing API key"

namespace Api

/-- The default of `const { timeout = 5000 } = options` in `fetchWithTimeout`. -/
def timeoutOf (options : Option Nat) : Nat := options.getD 5000

/-- The function `fetchWithTimeout(resource, options)`: one `fetch` guarded by the timeout.
The result names the URL whose response the returned promise waits for. -/
def fetchWithTimeout (url : URL) (options : Option Nat) : Step URL :=
  ⟨.ok url, [.fetch url (some (timeoutOf options))]⟩

/-- The function `getKey` of `api.js`. `globalSetStatus` tells whether a global function
`setStatus` exists (`typeof setStatus === 'function'`). The key it returns is `undefined`
when only the proxy is configured. -/
def getKey (globalSetStatus : Bool) (cfg : Option Config) : Step (Option String) :=
  let key := configKey cfg
  let proxy := configProxy cfg
  if !truthyStr key && !truthyStr proxy then
    ⟨.error missingKey, if globalSetStatus then [.setStatus missingKeyStatus "error"] else []⟩
  else ⟨.ok key, []⟩

/-- The loop `for (const k of Object.keys(params || {}))` that copies every parameter whose
value is neither `undefined` nor `null` into the search parameters. A parameter object is the
list of its keys with the string of each value, `none` for `undefined` and `null`. -/
def setParams (params : List (String × Option String)) (q : SearchParams) : SearchParams :=
  params.foldl (fun acc p => match p.2 with
    | some v => SearchParams.set p.1 v acc
    | none => acc) q

/-- The function `owFetch(path, params, options)` up to the point where `fetch` is called:
the URL it requests, or the error it rejects with before any request. -/
def owFetch (P : Platform) (globalSetStatus : Bool) (cfg : Option Config) (path : String)
    (params : List (String × Option String)) (options : Option Nat) : Step URL :=
  let proxy := configProxy cfg
  if truthyStr proxy then
    match P.resolveURL (proxy.getD "") P.locationOrigin with
    | none => ⟨.error .invalidURL, []⟩
    | some proxyUrl =>
      let q := setParams params (SearchParams.set "path" path proxyUrl.searchParams)
      fetchWithTimeout { proxyUrl with searchParams := q } options
  else
    let k := getKey globalSetStatus cfg
    match k.result with
    | .error e => ⟨.error e, k.events⟩
    | .ok key =>
      match P.parseURL ("https://api.openweathermap.org" ++ path) with
      | none => ⟨.error .invalidURL, k.events⟩
      | some url =>
        let q := SearchParams.set "appid" (key.getD "undefined") (setParams params url.searchParams)
        let f := fetchWithTimeout { url with searchParams := q } options
        ⟨f.result, k.events ++ f.events⟩

end Api

/-! ## `app.js`: `getKey`, `getWeather` and the deferred air-quality update -/

/-- The message `getWeather` shows on a 401 from the current-conditions request. -/
def unauthorizedStatus : String := "OpenWeather API key invalid or unauthorized"

/-- The error `new Error('Weather API (current)')`. -/
def currentFailed : JsError := .error "Weather API (current)"

/-- The clock readings (`Date.now()`, in milliseconds) of one `getWeather` call: at its
`cache.get` and at its `cache.set`. -/
structure Clock where
  atGet : Nat
  atSet : Nat

/-- How the three requests of one `getWeather` call end. -/
structure Net where
  current : FetchOutcome
  forecast : FetchOutcome
  air : FetchOutcome

/-- The chain `owFetch(..).then(r => r.ok ? r.json() : null).catch(() => null)`: the parsed
body of a successful response, and `null` for every other way the request can end. -/
def optionalJson (request : Step URL) (o : FetchOutcome) : Json :=
  match request.result with
  | .error _ => .null
  | .ok _ =>
    match o.settle with
    | .error _ => .null
    | .ok r =>
      if r.ok then
        match r.parse with
        | .ok j => j
        | .error _ => .null
      else .null

/-- The object literal `{ current, forecast, air }`. -/
def mkPayload (current forecast air : Json) : Json :=
  .obj [("current", current), ("forecast", forecast), ("air", air)]

/-- The callback `getWeather` leaves registered on `airP` when it returns: the cache key, the
value of the object `payload` at the return, and the air-quality request it started. -/
structure Pending where
  ckey : String
  payload : Json
  request : Step URL

/-- The callback `air => { .. }` of `airP.then`, run when the air-quality request has ended
with outcome `o`, on the cache `c` of that moment, the clock reading `now`. The callback
spreads the object `payload` itself, which is the object `getWeather` returned: `live` is the
value of that object when the callback runs, `pd.payload` as long as no holder has assigned
to it, and with the new field after an assignment such as `w.forecast = ..` in
`loadByCoords`. It gives the cache afterwards and the events in order. -/
def Pending.settle (pd : Pending) (live : Json) (c : Cache) (now : Nat) (o : FetchOutcome) :
    Cache × List Event :=
  let air := optionalJson pd.request o
  let updated := live.spreadWith "air" air
  (c.set now pd.ckey updated (3 * 60 * 1000),
    [.cacheSet pd.ckey updated (3 * 60 * 1000), .renderAQI updated])

/-- One call of `getWeather` up to the moment its promise settles. -/
structure Run where
  /-- The value the promise resolves to, or the error it rejects with. -/
  result : Except JsError Json
  /-- The cache at that moment. -/
  cache : Cache
  /-- The events up to that moment, in order. -/
  events : List Event
  /-- The callback left on `airP`, if any. -/
  pending : Option Pending

namespace App

/-- The function `getKey` declared in `app.js` (lines 23 to 30); it looks at
`OPENWEATHER_KEY` only. `app.js` also imports a `getKey` from `api.js` (line 3), so the module
declares the name twice, which a JavaScript engine refuses when it loads the module, and the
source does not settle which of the two checks `getWeather` runs. The model runs this one.
With a usable key (non-empty and not the placeholder) both checks pass without an event and
give the key; they differ only in configurations without a usable key. -/
def getKey (cfg : Option Config) : Step String :=
  let key := configKey cfg
  if !truthyStr key || key == some "YOUR_NEW_KEY_HERE" then
    ⟨.error missingKey, [.setStatus missingKeyStatus "error"]⟩
  else ⟨.ok (key.getD ""), []⟩

/-- The cache key of `getWeather`. -/
def weatherKey (P : Platform) (lat lon : ℚ) : String :=
  "weather2:" ++ toFixed3 P lat ++ "," ++ toFixed3 P lon

/-- The parameter object `{ lat, lon }`. -/
def coordParams (P : Platform) (lat lon : ℚ) : List (String × Option String) :=
  [("lat", some (P.numToString lat)), ("lon", some (P.numToString lon))]

/-- The async function `getWeather(lat, lon)` for finite coordinates, one call running alone:
`c` is the cache when it starts, `clk` the clock readings of its two cache operations, `net`
the outcomes of the requests it issues. -/
def getWeather (P : Platform) (globalSetStatus : Bool) (cfg : Option Config) (c : Cache)
    (clk : Clock) (net : Net) (lat lon : ℚ) : Run :=
  let k := getKey cfg
  match k.result with
  | .error e => ⟨.error e, c, k.events, none⟩
  | .ok _ =>
    let ckey := weatherKey P lat lon
    let (cached, c1) := c.get clk.atGet ckey
    match cached.filter Json.truthy with
    | some v => ⟨.ok v, c1, [], none⟩
    | none =>
      let params := coordParams P lat lon
      let sCur := Api.owFetch P globalSetStatus cfg "/data/2.5/weather" params (some 6000)
      match sCur.result with
      | .error e => ⟨.error e, c1, sCur.events, none⟩
      | .ok _ =>
        match net.current.settle with
        | .error e => ⟨.error e, c1, sCur.events, none⟩
        | .ok currentRes =>
          if !currentRes.ok then
            ⟨.error currentFailed, c1,
              sCur.events ++
                (if currentRes.status = 401 then [.setStatus unauthorizedStatus "error"] else []),
              none⟩
          else
            match currentRes.parse with
            | .error e => ⟨.error e, c1, sCur.events, none⟩
            | .ok current =>
              let sFc := Api.owFetch P globalSetStatus cfg "/data/2.5/forecast" params (some 8000)
              let sAir :=
                Api.owFetch P globalSetStatus cfg "/data/2.5/air_pollution" params (some 5000)
              let payload := mkPayload current (optionalJson sFc net.forecast) .null
              ⟨.ok payload, c1.set clk.atSet ckey payload (3 * 60 * 1000),
                sCur.events ++ sFc.events ++ sAir.events ++
                  [.cacheSet ckey payload (3 * 60 * 1000)],
                some ⟨ckey, payload, sAir⟩⟩

end App

/-! ## `netlify/functions/openweather-proxy.js` -/

namespace Proxy

/-- How the upstream `fetch` of the handler ends: a response (status, `content-type` header,
body text) or a thrown error with the string `String(err)`. -/
inductive Upstream where
  | response (status : Nat) (contentType : Option String) (text : String)
  | throws (err : String)

/-- A body the handler returns: upstream text, or `JSON.stringify` of an object of strings. -/
inductive Body where
  | text (s : String)
  | json (fields : List (String × String))
  deriving DecidableEq, Repr

/-- The object the handler returns. -/
structure Reply where
  statusCode : Nat
  contentType : Option String
  body : Body
  deriving DecidableEq, Repr

/-- The expression `qs.get('path') || '/data/2.5/weather'`. -/
def pathOf (qs : SearchParams) : String :=
  match SearchParams.get "path" qs with
  | some p => if p ≠ "" then p else "/data/2.5/weather"
  | none => "/data/2.5/weather"

/-- The URL the handler builds for the key `key` from `event.queryStringParameters`, given as
the list of its entries (`none` when the event has none); `none` when `new URL` throws. -/
def upstreamURL (P : Platform) (key : String) (qsp : Option (List (String × String))) :
    Option URL :=
  let qs : SearchParams := qsp.getD []
  let path := pathOf qs
  let qs := SearchParams.delete "path" qs
  match P.parseURL ("https://api.openweathermap.org" ++ path) with
  | none => none
  | some url =>
    let q := qs.foldl (fun acc p => SearchParams.set p.1 p.2 acc) url.searchParams
    some { url with searchParams := SearchParams.set "appid" key q }

/-- The function `exports.handler(event)` with `process.env.OPENWEATHER_KEY = envKey`. -/
def handler (P : Platform) (envKey : Option String) (qsp : Option (List (String × String)))
    (up : Upstream) : Step Reply :=
  if !truthyStr envKey then
    ⟨.ok ⟨500, none, .json [("error", "Server missing OPENWEATHER_KEY")]⟩, []⟩
  else
    match upstreamURL P (envKey.getD "") qsp with
    | none => ⟨.error .invalidURL, []⟩
    | some url =>
      match up with
      | .response status contentType text =>
        ⟨.ok ⟨status, some (if truthyStr contentType then contentType.getD "" else "application/json"),
          .text text⟩, [.fetch url none]⟩
      | .throws err =>
        ⟨.ok ⟨502, none, .json [("error", "Bad gateway"), ("detail", err)]⟩, [.fetch url none]⟩

end Proxy

/-! ## A reference platform

A concrete platform for evaluating the code on examples. Its URL parser covers absolute
`http:` and `https:` URLs and root-relative references written with letters, digits and the
punctuation `- . _ / : @ ? & = #`, without escapes, dot segments or upper-case hosts; on these
it gives the components the URL standard gives. -/

namespace Ref

/-- Splits a list at every occurrence of a separator. -/
def splitAt (sep : Char) : List Char → List (List Char)
  | [] => [[]]
  | c :: cs =>
    match splitAt sep cs with
    | [] => [[c]]
    | w :: ws => if c = sep then [] :: w :: ws else (c :: w) :: ws

/-- The pairs of a query string: pieces between `&`, each cut at its first `=`. -/
def parseQuery (q : List Char) : SearchParams :=
  ((splitAt '&' q).filter (fun w => w ≠ [])).map (fun w =>
    (String.mk (w.takeWhile (fun c => c ≠ '=')), String.mk ((w.dropWhile (fun c => c ≠ '=')).drop 1)))

/-- The part of an authority after its last `@`, and the part before it. -/
def splitUserinfo (a : List Char) : List Char × List Char :=
  match (splitAt '@' a).reverse with
  | [] => ([], a)
  | h :: rest => (List.intercalate ['@'] rest.reverse, h)

/-- Parses what follows `scheme://`. -/
def parseAfterScheme (protocol : String) (rest : List Char) : Option URL :=
  let beforeHash := rest.takeWhile (fun c => c ≠ '#')
  let frag := rest.dropWhile (fun c => c ≠ '#')
  let hier := beforeHash.takeWhile (fun c => c ≠ '?')
  let query := (beforeHash.dropWhile (fun c => c ≠ '?')).drop 1
  let authority := hier.takeWhile (fun c => c ≠ '/')
  let path := hier.dropWhile (fun c => c ≠ '/')
  let (userinfo, host) := splitUserinfo authority
  if host = [] then none
  else some {
    protocol := protocol
    username := String.mk (userinfo.takeWhile (fun c => c ≠ ':'))
    password := String.mk ((userinfo.dropWhile (fun c => c ≠ ':')).drop 1)
    host := String.mk host
    pathname := if path = [] then "/" else String.mk path
    searchParams := parseQuery query
    hash := if frag.length ≤ 1 then "" else String.mk frag }

/-- The constructor `new URL(s)` on the inputs described above. -/
def parseURL (s : String) : Option URL :=
  if "https://".data.isPrefixOf s.data then parseAfterScheme "https:" (s.data.drop 8)
  else if "http://".data.isPrefixOf s.data then parseAfterScheme "http:" (s.data.drop 7)
  else none

/-- The constructor `new URL(s, base)` for an absolute `s` or one that starts with `/`. -/
def resolveURL (s base : String) : Option URL :=
  match parseURL s with
  | some u => some u
  | none =>
    match parseURL base with
    | none => none
    | some b => if "/".data.isPrefixOf s.data then parseURL (b.protocol ++ "//" ++ b.host ++ s) else none

/-- The fractional digits of `r / den`, at most `fuel` of them, without trailing zeros. -/
def fracDigits : Nat → Nat → Nat → List Char
  | 0, _, _ => []
  | fuel + 1, r, den =>
    if r = 0 then [] else Nat.digitChar (r * 10 / den) :: fracDigits fuel (r * 10 % den) den

/-- The conversion `String(x)` for a number with a short decimal expansion. -/
def numToString (x : ℚ) : String :=
  let s := if x.num < 0 then "-" else ""
  let frac := fracDigits 20 (x.num.natAbs % x.den) x.den
  s ++ Nat.repr (x.num.natAbs / x.den) ++ (if frac = [] then "" else "." ++ String.mk frac)

/-- The reference platform, served from `https://weather.example`. -/
def platform : Platform :=
  { parseURL := parseURL
    resolveURL := resolveURL
    locationOrigin := "https://weather.example"
    numToString := numToString }

end Ref

/-! ## `app.js`: `geocode` -/

namespace App

/-- The cache key of `geocode`. -/
def geocodeKey (city : String) : String := "geocode:" ++ city

/-- The parameter object `{ q: city, limit: 5 }`. -/
def geocodeParams (P : Platform) (city : String) : List (String × Option String) :=
  [("q", some city), ("limit", some (P.numToString 5))]

/-- The async function `geocode(city)`, for one call running alone: `c` is the cache when it
starts, `clk` the clock readings of its two cache operations, `o` the outcome of the request
it issues. It leaves no callback. -/
def geocode (P : Platform) (globalSetStatus : Bool) (cfg : Option Config) (c : Cache)
    (clk : Clock) (o : FetchOutcome) (city : String) : Run :=
  let ckey := geocodeKey city
  let (cached, c1) := c.get clk.atGet ckey
  match cached.filter Json.truthy with
  | some v => ⟨.ok v, c1, [], none⟩
  | none =>
    let s := Api.owFetch P globalSetStatus cfg "/geo/1.0/direct" (geocodeParams P city) none
    match s.result with
    | .error e => ⟨.error e, c1, s.events, none⟩
    | .ok _ =>
      match o.settle with
      | .error e => ⟨.error e, c1, s.events, none⟩
      | .ok r =>
        if !r.ok then ⟨.error (.error "Geocoding error"), c1, s.events, none⟩
        else
          match r.parse with
          | .error e => ⟨.error e, c1, s.events, none⟩
          | .ok data =>
            ⟨.ok data, c1.set clk.atSet ckey data (24 * 60 * 60 * 1000),
              s.events ++ [.cacheSet ckey data (24 * 60 * 60 * 1000)], none⟩

end App

/-! ## `app.js`: `setStatus` and `loadByCoords` -/

/-- The element `#status`: its text and its `class` attribute. -/
structure StatusBox where
  textContent : String
  className : Option String
  deriving DecidableEq, Repr

/-- The function `setStatus(msg, type)` acting on the status element; `none` is a page
without that element, on which the function does nothing. -/
def setStatus (box : Option StatusBox) (msg type : String) : Option StatusBox :=
  match box with
  | none => none
  | some _ => some ⟨msg, if msg = "" then none else some ("status " ++ type)⟩

/-- What one `loadByCoords` call does that the outside can observe: the events of
`getWeather` and `owFetch`, its own rendering calls, and `console.error(e)`, whose argument
is `none` when the error was thrown by a rendering call. -/
inductive PageEvent where
  | core (e : Event)
  | renderCurrent (place : Option String) (w : Json)
  | renderHourly (w : Json)
  | renderDaily (w : Json)
  | consoleError (e : Option JsError)

/-- The event of `getWeather` or `owFetch` inside a page event, if it is one. -/
def PageEvent.core? : PageEvent → Option Event
  | .core e => some e
  | _ => none

/-- The network requests among page events, in order. -/
def requestsOf (l : List PageEvent) : List Event :=
  (l.filterMap PageEvent.core?).filter Event.isFetch

/-- The path of the URL a request event fetches. -/
def Event.fetchedPath? : Event → Option String
  | .fetch url _ => some url.pathname
  | _ => none

/-- The status element after the `setStatus` calls among the events, in order. -/
def statusAfter (box : Option StatusBox) (l : List PageEvent) : Option StatusBox :=
  l.foldl (fun b ev => match ev with
    | .core (.setStatus msg type) => setStatus b msg type
    | _ => b) box

/-- Whether each rendering call returns normally (`true`) or throws. The answer depends on
the elements of the page and on `fmt` of `utils.js`, neither of which is among the sources. -/
structure Page where
  renderCurrent : Option String → Json → Bool
  renderHourly : Json → Bool
  renderDaily : Json → Bool
  renderAQI : Json → Bool

/-- The message `loadByCoords` shows when anything in its `try` block throws. -/
def loadFailedStatus : String := "Failed to retrieve data. Check API key or network."

/-- One call of `loadByCoords` up to the moment its promise settles. -/
structure Load where
  /-- The events up to that moment, in order. -/
  events : List PageEvent
  /-- The cache at that moment. -/
  cache : Cache
  /-- The callback `getWeather` left on `airP`, if any. -/
  pending : Option Pending
  /-- The payload `w` for which the `setTimeout` callback was scheduled, if it was. -/
  retry : Option Json

namespace App

/-- The `catch` block of `loadByCoords`. -/
def loadFailed (e : Option JsError) : List PageEvent :=
  [.consoleError e, .core (.setStatus loadFailedStatus "error")]

/-- The statements of `loadByCoords` after `await getWeather(lat, lon)` has given `w`: the
events they cause and whether the timer callback was scheduled. -/
def renderLoaded (page : Page) (place : Option String) (w : Json) :
    List PageEvent × Option Json :=
  if !page.renderCurrent place w then ([.renderCurrent place w] ++ loadFailed none, none)
  else if (w.getField "forecast").truthy then
    if !page.renderHourly w then
      ([.renderCurrent place w, .renderHourly w] ++ loadFailed none, none)
    else if !page.renderDaily w then
      ([.renderCurrent place w, .renderHourly w, .renderDaily w] ++ loadFailed none, none)
    else if !page.renderAQI w then
      ([.renderCurrent place w, .renderHourly w, .renderDaily w, .core (.renderAQI w)] ++
        loadFailed none, none)
    else
      ([.renderCurrent place w, .renderHourly w, .renderDaily w, .core (.renderAQI w),
        .core (.setStatus "" "info")], none)
  else if !page.renderAQI w then
    ([.renderCurrent place w, .core (.renderAQI w)] ++ loadFailed none, some w)
  else
    ([.renderCurrent place w, .core (.renderAQI w), .core (.setStatus "" "info")], some w)

/-- The async function `loadByCoords(lat, lon, placeOverride)`, one call running alone. -/
def loadByCoords (P : Platform) (globalSetStatus : Bool) (cfg : Option Config) (page : Page)
    (c : Cache) (clk : Clock) (net : Net) (lat lon : ℚ) (place : Option String) : Load :=
  let r := getWeather P globalSetStatus cfg c clk net lat lon
  let before : List PageEvent := [.core (.setStatus "Loading…" "info")] ++ r.events.map .core
  match r.result with
  | .error e => ⟨before ++ loadFailed (some e), r.cache, r.pending, none⟩
  | .ok w =>
    let rest := renderLoaded page place w
    ⟨before ++ rest.1, r.cache, r.pending, rest.2⟩

/-- The callback `loadByCoords` hands to `setTimeout` when `w.forecast` is falsy: it requests
the forecast itself and, on a success status with a JSON body, assigns the body to
`w.forecast` and renders. `o` is the outcome of its request and `w` an object, as every
payload `getWeather` stores or returns is. Only the events are given; the assignment is
visible to every holder of the object `w`. -/
def retryForecast (P : Platform) (globalSetStatus : Bool) (cfg : Option Config) (page : Page)
    (lat lon : ℚ) (w : Json) (o : FetchOutcome) : List PageEvent :=
  let s := Api.owFetch P globalSetStatus cfg "/data/2.5/forecast" (coordParams P lat lon)
    (some 8000)
  let requested : List PageEvent := s.events.map .core
  match s.result with
  | .error _ => requested
  | .ok _ =>
    match o.settle with
    | .error _ => requested
    | .ok r =>
      if !r.ok then requested
      else
        match r.parse with
        | .error _ => requested
        | .ok forecast =>
          let w2 := w.spreadWith "forecast" forecast
          if !page.renderHourly w2 then requested ++ [.renderHourly w2]
          else requested ++ [.renderHourly w2, .renderDaily w2]

/-- The object `w` once the timer callback of `loadByCoords` has run with outcome `o` of its
request: on a success status with a JSON body the callback has assigned the body to
`w.forecast` (line 345), before it renders; in every other case `w` is as it was. -/
def afterRetry (P : Platform) (globalSetStatus : Bool) (cfg : Option Config) (lat lon : ℚ)
    (w : Json) (o : FetchOutcome) : Json :=
  let s := Api.owFetch P globalSetStatus cfg "/data/2.5/forecast" (coordParams P lat lon)
    (some 8000)
  match s.result with
  | .error _ => w
  | .ok _ =>
    match o.settle with
    | .error _ => w
    | .ok r =>
      if !r.ok then w
      else
        match r.parse with
        | .error _ => w
        | .ok forecast => w.spreadWith "forecast" forecast

/-- The events of the timer callback of a `loadByCoords` call, none when no callback was
scheduled. -/
def timerEvents (P : Platform) (globalSetStatus : Bool) (cfg : Option Config) (page : Page)
    (lat lon : ℚ) (l : Load) (o : FetchOutcome) : List PageEvent :=
  match l.retry with
  | none => []
  | some w => retryForecast P globalSetStatus cfg page lat lon w o

end App

/-! ## `app.js`: `renderAQI` -/

/-- The element access `v?.[0]`: the first element of an array, the first character of a
string, the property `0` of an object, and `undefined` otherwise. -/
def Json.first : Json → Json
  | .arr (x :: _) => x
  | .str s =>
    match s.data with
    | [] => .null
    | ch :: _ => .str (String.mk [ch])
  | .obj fields => (fields.lookup "0").getD .null
  | _ => .null

/-- The expression `w?.air?.list?.[0]?.main?.aqi`. -/
def aqiOf (w : Json) : Json :=
  ((((w.getField "air").getField "list").first).getField "main").getField "aqi"

/-- The object literal `map` of `renderAQI`, by property name: label and class. -/
def aqiTable (name : String) : Option (String × String) :=
  if name = "1" then some ("Good", "good")
  else if name = "2" then some ("Moderate", "moderate")
  else if name = "3" then some ("Unhealthy (sensitive)", "unhealthy")
  else if name = "4" then some ("Unhealthy", "unhealthy")
  else if name = "5" then some ("Very unhealthy", "unhealthy")
  else none

/-- The lookup `map[aqi]` for a truthy `aqi`; `none` is `undefined`. The property name is
`String(aqi)`: a number names the row of its own value (the numeral `n` is printed for the
number `n` and for no other), a string names itself, an array of one element names what
that element names, and no other value prints as one of `1` to `5`. -/
def aqiRow : Json → Option (String × String)
  | .num n =>
    if n = 1 then aqiTable "1"
    else if n = 2 then aqiTable "2"
    else if n = 3 then aqiTable "3"
    else if n = 4 then aqiTable "4"
    else if n = 5 then aqiTable "5"
    else none
  | .str s => aqiTable s
  | .arr [x] => aqiRow x
  | _ => none

/-- What `renderAQI` puts into the element `#aqi`: the text `No data`, or the markup
`<span>Index: <b>aqi</b></span> <span class="badge cls">label</span>`. -/
inductive AqiView where
  | noData
  | badge (aqi : Json) (label cls : String)

/-- How a call of `renderAQI` ends: it returns at once on a page without weather widgets, it
throws a `TypeError`, or it fills the element. -/
inductive AqiResult where
  | skipped
  | threw
  | shown (view : AqiView)

/-- The function `renderAQI(w)`. `hasWeatherUI` is the constant `HAS_WEATHER_UI`, `aqiBox`
tells whether the page has the element `#aqi`. -/
def renderAQI (hasWeatherUI aqiBox : Bool) (w : Json) : AqiResult :=
  if !hasWeatherUI then .skipped
  else if !aqiBox then .threw
  else
    let aqi := aqiOf w
    if !aqi.truthy then .shown .noData
    else
      match aqiRow aqi with
      | none => .threw
      | some (label, cls) => .shown (.badge aqi label cls)

/-! ## `profile.js`: user records and the avatar upload -/

/-- A user record: the fields of an object of the `users` array in `localStorage`. -/
abbrev User := List (String × Json)

/-- The comparison `a === b` of two values that are strings or came out of `JSON.parse`:
by value for primitives, never equal for two arrays or objects. -/
def Json.strictEq : Json → Json → Bool
  | .null, .null => true
  | .bool a, .bool b => a == b
  | .num a, .num b => decide (a = b)
  | .str a, .str b => a == b
  | _, _ => false

/-- The property read `u.k` on a record. -/
def User.field (u : User) (k : String) : Json := (u.lookup k).getD .null

/-- The object spread `{ ...a, ...b }`. -/
def User.merge (a b : User) : User :=
  b.foldl (fun acc p => Json.setField p.1 p.2 acc) a

/-- The function `approxBytesFromDataUrl`: `Math.round((dataUrl.length * 3) / 4)`. A data URL
is ASCII, so its length in code units is its number of characters. -/
def approxBytesFromDataUrl (dataUrl : String) : Nat := (dataUrl.length * 3 + 2) / 4

/-- The function `loadUser(email)` on the stored array `users`. -/
def loadUser (users : List User) (email : String) : Option User :=
  users.find? (fun u => (u.field "email").strictEq (.str email))

/-- The function `saveUser(updated)`: the stored array afterwards. -/
def saveUser (users : List User) (updated : User) : List User :=
  match users.findIdx? (fun u => (u.field "email").strictEq (updated.field "email")) with
  | some idx => users.modify (fun u => u.merge updated) idx
  | none => users ++ [updated]

/-- The file picked in `#avatarFile`, as far as the handler looks at it: whether its type
starts with `image/`, the data URL `dataUrlFromFile` reads from it (`none` when the reader
fails), and what `resizeImageFile` gives for it (`none` when it rejects). -/
structure AvatarFile where
  isImage : Bool
  dataUrl : Option String
  resized : Option String

/-- How one run of the `change` handler of `bindAvatarUpload` ends. -/
inductive AvatarOutcome where
  /-- No file was picked. -/
  | noFile
  /-- The file is not an image. -/
  | notImage
  /-- Reading the file failed; the handler rejects. -/
  | readFailed
  /-- The final guard found the data URL too large. -/
  | tooLarge
  /-- The data URL was stored as the user's `avatar`. -/
  | saved (dataUrl : String)
  deriving DecidableEq, Repr

/-- The `change` handler of `bindAvatarUpload(curEmail)`: the stored users afterwards and
how the run ended. -/
def avatarUpload (users : List User) (curEmail : String) (file : Option AvatarFile) :
    List User × AvatarOutcome :=
  match file with
  | none => (users, .noFile)
  | some f =>
    if !f.isImage then (users, .notImage)
    else
      match f.dataUrl with
      | none => (users, .readFailed)
      | some original =>
        let dataUrl :=
          if 4 * (300 * 1024) < original.length * 3 then f.resized.getD original else original
        if 600 * 1024 < approxBytesFromDataUrl dataUrl then (users, .tooLarge)
        else
          let user := (loadUser users curEmail).getD [("email", .str curEmail)]
          (saveUser users (Json.setField "avatar" (.str dataUrl) user), .saved dataUrl)

/-- A data URL of 2000000 characters, as read from a large image file. -/
def Ref.largeOriginal : String :=
  "data:image/png;base64," ++ String.mk (List.replicate 1999978 'A')

/-- A JPEG data URL of 500000 characters, as a resize of a tall image can give. -/
def Ref.largeResized : String :=
  "data:image/jpeg;base64," ++ String.mk (List.replicate 499977 'A')

/-! ## `app.js`: `renderDaily` -/

/-- The parts of the built-in `Date` and of number conversion that `renderDaily` relies on. -/
structure Calendar where
  /-- The text `new Date(ms).toISOString().slice(0, 10)` for a valid time value `ms`: the UTC
  calendar date `YYYY-MM-DD` for the years 0000 to 9999. -/
  isoDate : Int → String
  /-- The conversion of a value that is neither a number nor a boolean to a number, `none`
  for `NaN`. -/
  toNumber : Json → Option ℚ

/-- The time value of `new Date(item.dt * 1000)` in milliseconds, computed exactly; `none`
is an invalid date. A product of magnitude above 8.64e15 is invalid, any other is cut to an
integer. -/
def timeValue (C : Calendar) (item : Json) : Option Int :=
  let dt : Option ℚ :=
    match item.getField "dt" with
    | .num n => some n
    | .bool b => some (if b then 1 else 0)
    | other => C.toNumber other
  match dt with
  | none => none
  | some n =>
    if n.num.natAbs * 1000 ≤ 8640000000000000 * n.den then some (Int.tdiv (n.num * 1000) n.den)
    else none

/-- The method `getUTCHours` of a valid date. -/
def utcHours (ms : Int) : Nat := (Int.emod (Int.fdiv ms 3600000) 24).toNat

/-- The expression `Math.abs(hour - 13)`. -/
def hourGap (hour : Nat) : Nat := Int.natAbs ((hour : Int) - 13)

/-- A value `{ hour, item }` of the map `byDate`. -/
structure DayPick where
  hour : Nat
  item : Json

/-- The map `byDate`: its entries in insertion order. -/
abbrev DayMap := List (String × DayPick)

namespace DayMap

/-- The method `byDate.get(key)`. -/
def get (key : String) (m : DayMap) : Option DayPick :=
  (m.find? (fun q => q.1 = key)).map Prod.snd

/-- The method `byDate.set(key, v)`: an existing key keeps its place. -/
def set (key : String) (v : DayPick) : DayMap → DayMap
  | [] => [(key, v)]
  | (k, p) :: rest => if k = key then (key, v) :: rest else (k, p) :: set key v rest

end DayMap

/-- The body of the loop of `renderDaily` for one item; `none` when `toISOString` throws
on an invalid date. -/
def groupStep (C : Calendar) (m : DayMap) (item : Json) : Option DayMap :=
  match timeValue C item with
  | none => none
  | some ms =>
    let key := C.isoDate ms
    let hour := utcHours ms
    match m.get key with
    | none => some (m.set key ⟨hour, item⟩)
    | some prev =>
      if hourGap hour < hourGap prev.hour then some (m.set key ⟨hour, item⟩) else some m

/-- The loop `for (const item of list)` of `renderDaily`, from the map `m` on. -/
def groupAll (C : Calendar) : DayMap → List Json → Option DayMap
  | m, [] => some m
  | m, item :: rest =>
    match groupStep C m item with
    | none => none
    | some m2 => groupAll C m2 rest

/-- The items that `for (const item of (w.forecast?.list ?? []))` iterates over; `none` when
reading the list or starting the iteration throws. -/
def forecastItems (w : Json) : Option (List Json) :=
  match w with
  | .null => none
  | _ =>
    match (w.getField "forecast").getField "list" with
    | .null => some []
    | .arr items => some items
    | .str s => some (s.data.map (fun ch => .str (String.mk [ch])))
    | _ => none

/-- How a call of `renderDaily` ends: it returns at once on a page without weather widgets,
it throws, or it reaches the loop that builds one tile per item of `items`, in that order. -/
inductive DailyResult where
  | skipped
  | threw
  | tiles (items : List Json)

/-- The function `renderDaily(w)`. `hasWeatherUI` is the constant `HAS_WEATHER_UI`,
`dailyRoot` tells whether the page has the element `#daily`. -/
def renderDaily (C : Calendar) (hasWeatherUI dailyRoot : Bool) (w : Json) : DailyResult :=
  if !hasWeatherUI then .skipped
  else if !dailyRoot then .threw
  else
    match forecastItems w with
    | none => .threw
    | some list =>
      match groupAll C [] list with
      | none => .threw
      | some byDate => .tiles ((byDate.map (fun q => q.2.item)).take 7)

/-! ## Midday representatives, as the specification words them -/

namespace Midday

/-- The date of a sample. -/
def dateOf (C : Calendar) (item : Json) : String :=
  match timeValue C item with
  | some ms => C.isoDate ms
  | none => ""

/-- The distance `|UTC hour - 13|` of a sample. -/
def gapOf (C : Calendar) (item : Json) : Nat :=
  match timeValue C item with
  | some ms => hourGap (utcHours ms)
  | none => 0

/-- The distinct dates of a list, in order of first appearance. -/
def dates : List String → List String
  | [] => []
  | d :: rest => d :: (dates rest).filter (fun x => x ≠ d)

/-- The first sample in list order that attains the minimum of `|UTC hour - 13|` among the
samples of the date. -/
def representative (C : Calendar) (date : String) (list : List Json) : Option Json :=
  (list.filter (fun s => dateOf C s = date)).find? (fun s =>
    (list.filter (fun t => dateOf C t = date)).all (fun t => gapOf C s ≤ gapOf C t))

/-- The samples to render: the representatives of the first seven dates. -/
def rendered (C : Calendar) (list : List Json) : List Json :=
  ((dates (list.map (dateOf C))).take 7).filterMap (fun d => representative C d list)

end Midday

/-! ## A reference calendar -/

namespace Ref

/-- Digits of a number, zero padded on the left to a width. -/
def padLeft (width n : Nat) : String :=
  String.mk (List.replicate (width - (Nat.repr n).length) '0') ++ Nat.repr n

/-- The civil date (year, month, day) of a day number counted from 1970-01-01. -/
def civil (days : Int) : Int × Nat × Nat :=
  let z := days + 719468
  let era := Int.fdiv z 146097
  let doe := (z - era * 146097).toNat
  let yoe := (doe - doe / 1460 + doe / 36524 - doe / 146096) / 365
  let doy := doe - (365 * yoe + yoe / 4 - yoe / 100)
  let mp := (5 * doy + 2) / 153
  let d := doy - (153 * mp + 2) / 5 + 1
  let m := if mp < 10 then mp + 3 else mp - 9
  ((yoe : Int) + era * 400 + (if m ≤ 2 then 1 else 0), m, d)

/-- The first ten characters of the ISO timestamp of a time value: `YYYY-MM-DD` for the years
0000 to 9999, and a sign, six digits of the year, a dash and the month otherwise. -/
def isoDate (ms : Int) : String :=
  let (y, m, d) := civil (Int.fdiv ms 86400000)
  if 0 ≤ y ∧ y ≤ 9999 then padLeft 4 y.toNat ++ "-" ++ padLeft 2 m ++ "-" ++ padLeft 2 d
  else (if y < 0 then "-" else "+") ++ padLeft 6 y.natAbs ++ "-" ++ padLeft 2 m

/-- The reference calendar; it converts no value other than numbers and booleans. -/
def calendar : Calendar :=
  { isoDate := isoDate
    toNumber := fun _ => none }

end Ref

/-! ## `app.js`: `Auth.register`; `profile.js`: saving the profile form -/

/-- What `localStorage` holds under the keys `users` and `session`, parsed: the array of
user records, and the session object (`none` while the key is absent). -/
structure Storage where
  users : List User
  session : Option User

/-- The builtins of the account code whose result rests on tables of the platform:
`String.prototype.toLowerCase`, and the SHA-256 digest in hexadecimal digits that `sha256`
computes with `window.crypto.subtle` (`none` on a page without it). -/
structure Builtins where
  toLowerCase : String → String
  subtle : Option (String → String)

/-- The characters `String.prototype.trim` strips and `\s` matches: the white space and
the line terminators of ECMAScript. -/
def isWhiteSpace (c : Char) : Bool :=
  [0x09, 0x0A, 0x0B, 0x0C, 0x0D, 0x20, 0xA0, 0x1680, 0x2028, 0x2029, 0x202F, 0x205F, 0x3000,
    0xFEFF].contains c.toNat || (0x2000 ≤ c.toNat && c.toNat ≤ 0x200A)

/-- The method `String.prototype.trim`. -/
def trim (s : String) : String :=
  ⟨((s.data.dropWhile isWhiteSpace).reverse.dropWhile isWhiteSpace).reverse⟩

/-- The property `length` of a string: its number of UTF-16 code units. -/
def jsLength (s : String) : Nat :=
  (s.data.map (fun c => if c.toNat < 0x10000 then 1 else 2)).sum

/-- The test `/^[^\s@]+@[^\s@]+\.[^\s@]+$/.test(email)` of `saveProfileHandler`: a
non-empty run of characters other than white space and `@`, one `@`, and a run of such
characters with a dot that is neither its first nor its last character. -/
def emailPattern (email : String) : Bool :=
  match email.data.span (fun c => !isWhiteSpace c && c != '@') with
  | (name, '@' :: host) =>
    !name.isEmpty && host.all (fun c => !isWhiteSpace c && c != '@') &&
      (host.drop 1).dropLast.contains '.'
  | _ => false

/-- The function `sha256(text)` of `app.js`. -/
def sha256 (b : Builtins) (text : String) : String :=
  match b.subtle with
  | some digest => digest text
  | none => "plain:" ++ text

/-- The error `Auth.register` throws for an email that is taken. -/
def userExists : JsError := .error "User already exists"

/-- The method `Auth.register` called with `name`, `email` and `password` at time `now` on a
storage `st`: the storage afterwards and the error it rejects with, if any. -/
def Auth.register (b : Builtins) (now : Nat) (st : Storage) (name email password : String) :
    Storage × Option JsError :=
  let email := b.toLowerCase (trim email)
  if st.users.any (fun u => (u.field "email").strictEq (.str email)) then (st, some userExists)
  else
    let hash := sha256 b password
    (⟨st.users ++ [[("name", .str name), ("email", .str email), ("hash", .str hash),
        ("createdAt", .num now)]],
      some [("email", .str email), ("name", .str name)]⟩, none)

/-- The function `saveSession(sess)` of `profile.js` for an object `sess`. -/
def saveSession (st : Storage) (sess : User) : Storage :=
  { st with session := some sess }

/-- The `submit` handler of `saveProfileHandler(curEmail)` for the values typed into the
fields `name` and `email`: the storage afterwards and whether the profile was saved
(`false` when the fields are turned down). -/
def saveProfileHandler (b : Builtins) (st : Storage) (curEmail nameValue emailValue : String) :
    Storage × Bool :=
  let name := trim nameValue
  let email := b.toLowerCase (trim emailValue)
  if jsLength name < 2 || !emailPattern email then (st, false)
  else
    let user := (loadUser st.users curEmail).getD [("email", .str email)]
    let user := Json.setField "email" (.str email) (Json.setField "name" (.str name) user)
    (saveSession { st with users := saveUser st.users user }
      [("email", .str email), ("name", .str name)], true)

/-- No two records of the stored array share an email, compared as the code compares
emails, with `===`. -/
def emailsDistinct (users : List User) : Prop :=
  users.Pairwise (fun u v => (u.field "email").strictEq (v.field "email") = false)

instance emailsDistinct.decidable (users : List User) : Decidable (emailsDistinct users) := by
  unfold emailsDistinct
  infer_instance

/-- Lower-casing of the letters `A` to `Z`, which is what `toLowerCase` does on ASCII text. -/
def Ref.toLowerCase (s : String) : String := ⟨s.data.map Char.toLower⟩

/-- The builtins of a page without `crypto.subtle`, on ASCII text. -/
def Ref.builtins : Builtins := ⟨Ref.toLowerCase, none⟩

/-- Two accounts as `Auth.register` writes them on a page without `crypto.subtle`, with the
session of the first. -/
def Ref.accounts : Storage :=
  ⟨[[("name", .str "Ann"), ("email", .str "ann@x.org"), ("hash", .str "plain:a"),
      ("createdAt", .num 1)],
    [("name", .str "Bob"), ("email", .str "bob@x.org"), ("hash", .str "plain:b"),
      ("createdAt", .num 2)]],
    some [("email", .str "ann@x.org"), ("name", .str "Ann")]⟩

/-! ## What a loop of `set` calls leaves behind -/

/-- The entries of a parameter object whose value is neither `undefined` nor `null`. -/
def Api.definedParams (params : List (String × Option String)) : List (String × String) :=
  params.filterMap (fun p => p.2.map (fun v => (p.1, v)))

/-- The value of the last pair named `k` in a list of pairs. -/
def SearchParams.lastValue (k : String) : List (String × String) → Option String
  | [] => none
  | p :: rest =>
    match lastValue k rest with
    | some v => some v
    | none => if p.1 = k then some p.2 else none

/-! ## Facts about the cache -/

/-- Removing the entries of one key leaves the entry of every other key. -/
theorem Cache.entry_filter_ne (c : Cache) (key k : String) (h : k ≠ key) :
    Cache.entry (c.filter (fun p => p.1 ≠ key)) k = Cache.entry c k := by
  unfold Cache.entry
  induction c with
  | nil => rfl
  | cons p rest ih =>
    by_cases hp : p.1 = key
    · have hk : ¬ p.1 = k := fun e => h (e ▸ hp)
      rw [List.filter_cons_of_neg (by simpa using hp),
        List.find?_cons_of_neg _ (by simpa using hk)]
      exact ih
    · rw [List.filter_cons_of_pos (by simpa using hp)]
      by_cases hk : p.1 = k
      · rw [List.find?_cons_of_pos _ (by simpa using hk),
          List.find?_cons_of_pos _ (by simpa using hk)]
      · rw [List.find?_cons_of_neg _ (by simpa using hk),
          List.find?_cons_of_neg _ (by simpa using hk)]
        exact ih

/-- Removing the entries of a key leaves none under it. -/
theorem Cache.entry_filter_self (c : Cache) (key : String) :
    Cache.entry (c.filter (fun p => p.1 ≠ key)) key = none := by
  unfold Cache.entry
  induction c with
  | nil => rfl
  | cons p rest ih =>
    by_cases hp : p.1 = key
    · rw [List.filter_cons_of_neg (by simpa using hp)]
      exact ih
    · rw [List.filter_cons_of_pos (by simpa using hp),
        List.find?_cons_of_neg _ (by simpa using hp)]
      exact ih

/-- A lookup at time `now` changes no later read: the entry it may evict is expired. -/
theorem Cache.get_get (c : Cache) (now : Nat) (key k : String) (t : Nat) (ht : now ≤ t) :
    ((c.get now key).2.get t k).1 = (c.get t k).1 := by
  unfold Cache.get
  cases he : c.entry key with
  | none => simp
  | some e =>
    by_cases hx : e.expiresAt < now
    · simp only [hx, if_true]
      by_cases hk : k = key
      · subst hk
        have hx2 : e.expiresAt < t := lt_of_lt_of_le hx ht
        rw [Cache.entry_filter_self, he]
        simp [hx2]
      · rw [Cache.entry_filter_ne c key k hk]
        cases c.entry k with
        | none => rfl
        | some e2 => by_cases h2 : e2.expiresAt < t <;> simp [h2]
    · simp [hx]

/-- A lookup leaves the cache as it is unless the entry under the key is expired. -/
theorem Cache.get_snd_eq (c : Cache) (now : Nat) (key : String)
    (h : ∀ e, c.entry key = some e → now ≤ e.expiresAt) : (c.get now key).2 = c := by
  unfold Cache.get
  cases he : c.entry key with
  | none => rfl
  | some e => simp [not_lt.mpr (h e he)]

/-- Right after `cache.set` the entry under the key is the one written. -/
theorem Cache.entry_set (c : Cache) (now : Nat) (key : String) (v : Json) (ttl : Nat) :
    Cache.entry (c.set now key v ttl) key = some ⟨v, now + ttl⟩ := by
  simp [Cache.set, Cache.entry]

/-! ## `getWeather`: the path of one call -/

/-- The key check of `getWeather` passes exactly for a non-empty key other than the
placeholder. -/
theorem App.getKey_ok (cfg : Option Config) (k : String) (hk : configKey cfg = some k)
    (hne : k ≠ "") (hph : k ≠ "YOUR_NEW_KEY_HERE") : App.getKey cfg = ⟨.ok k, []⟩ := by
  simp [App.getKey, hk, truthyStr, hne, hph]

/-- A call of `owFetch` that gets as far as a URL issues exactly one request, for that URL;
a call that rejects first issues none. -/
theorem Api.owFetch_events (P : Platform) (gss : Bool) (cfg : Option Config) (path : String)
    (params : List (String × Option String)) (options : Option Nat) :
    (∀ u, (Api.owFetch P gss cfg path params options).result = .ok u →
      (Api.owFetch P gss cfg path params options).events =
        [.fetch u (some (Api.timeoutOf options))]) ∧
    (∀ e, (Api.owFetch P gss cfg path params options).result = .error e →
      ∀ ev ∈ (Api.owFetch P gss cfg path params options).events, ev.isFetch = false) := by
  unfold Api.owFetch
  by_cases hp : truthyStr (configProxy cfg) = true
  · simp only [hp, if_true]
    cases P.resolveURL ((configProxy cfg).getD "") P.locationOrigin with
    | none => simp
    | some pu => simp [Api.fetchWithTimeout]
  · simp only [hp]
    by_cases hk : truthyStr (configKey cfg) = true
    · have hg : Api.getKey gss cfg = ⟨.ok (configKey cfg), []⟩ := by
        simp [Api.getKey, hk]
      rw [hg]
      cases P.parseURL ("https://api.openweathermap.org" ++ path) with
      | none => simp
      | some url => simp [Api.fetchWithTimeout]
    · have hg : Api.getKey gss cfg =
          ⟨.error missingKey, if gss then [.setStatus missingKeyStatus "error"] else []⟩ := by
        simp [Api.getKey, hk, hp]
      rw [hg]
      cases gss <;> simp [Event.isFetch]

/-- The run of `getWeather` on a cache miss whose current-conditions request is answered with
a success status and a JSON body. -/
theorem App.getWeather_of_current_ok (P : Platform) (gss : Bool) (cfg : Option Config)
    (c : Cache) (clk : Clock) (net : Net) (lat lon : ℚ) (k : String) (u : URL) (status : Nat)
    (cur : Json)
    (hk : configKey cfg = some k) (hne : k ≠ "") (hph : k ≠ "YOUR_NEW_KEY_HERE")
    (hmiss : (c.get clk.atGet (App.weatherKey P lat lon)).1.filter Json.truthy = none)
    (hreq : (Api.owFetch P gss cfg "/data/2.5/weather" (App.coordParams P lat lon)
      (some 6000)).result = .ok u)
    (hcur : net.current = .response status (some cur))
    (hok : 200 ≤ status ∧ status ≤ 299) :
    App.getWeather P gss cfg c clk net lat lon =
      ⟨.ok (mkPayload cur (optionalJson (Api.owFetch P gss cfg "/data/2.5/forecast"
          (App.coordParams P lat lon) (some 8000)) net.forecast) .null),
        (c.get clk.atGet (App.weatherKey P lat lon)).2.set clk.atSet (App.weatherKey P lat lon)
          (mkPayload cur (optionalJson (Api.owFetch P gss cfg "/data/2.5/forecast"
            (App.coordParams P lat lon) (some 8000)) net.forecast) .null) (3 * 60 * 1000),
        [.fetch u (some 6000)] ++
          (Api.owFetch P gss cfg "/data/2.5/forecast" (App.coordParams P lat lon)
            (some 8000)).events ++
          (Api.owFetch P gss cfg "/data/2.5/air_pollution" (App.coordParams P lat lon)
            (some 5000)).events ++
          [.cacheSet (App.weatherKey P lat lon)
            (mkPayload cur (optionalJson (Api.owFetch P gss cfg "/data/2.5/forecast"
              (App.coordParams P lat lon) (some 8000)) net.forecast) .null) (3 * 60 * 1000)],
        some ⟨App.weatherKey P lat lon,
          mkPayload cur (optionalJson (Api.owFetch P gss cfg "/data/2.5/forecast"
            (App.coordParams P lat lon) (some 8000)) net.forecast) .null,
          Api.owFetch P gss cfg "/data/2.5/air_pollution" (App.coordParams P lat lon)
            (some 5000)⟩⟩ := by
  have hev := (Api.owFetch_events P gss cfg "/data/2.5/weather" (App.coordParams P lat lon)
    (some 6000)).1 u hreq
  unfold App.getWeather
  rw [App.getKey_ok cfg k hk hne hph]
  simp only [hmiss, hreq, hcur, hev, FetchOutcome.settle, Response.ok, Response.parse, hok]
  simp [Api.timeoutOf]

/-- The run of `getWeather` on a cache miss whose current-conditions request is answered with
a status outside 200 to 299. -/
theorem App.getWeather_of_current_not_ok (P : Platform) (gss : Bool) (cfg : Option Config)
    (c : Cache) (clk : Clock) (net : Net) (lat lon : ℚ) (k : String) (u : URL) (status : Nat)
    (body : Option Json)
    (hk : configKey cfg = some k) (hne : k ≠ "") (hph : k ≠ "YOUR_NEW_KEY_HERE")
    (hmiss : (c.get clk.atGet (App.weatherKey P lat lon)).1.filter Json.truthy = none)
    (hreq : (Api.owFetch P gss cfg "/data/2.5/weather" (App.coordParams P lat lon)
      (some 6000)).result = .ok u)
    (hcur : net.current = .response status body)
    (hbad : ¬ (200 ≤ status ∧ status ≤ 299)) :
    App.getWeather P gss cfg c clk net lat lon =
      ⟨.error currentFailed, (c.get clk.atGet (App.weatherKey P lat lon)).2,
        [.fetch u (some 6000)] ++
          (if status = 401 then [.setStatus unauthorizedStatus "error"] else []),
        none⟩ := by
  have hev := (Api.owFetch_events P gss cfg "/data/2.5/weather" (App.coordParams P lat lon)
    (some 6000)).1 u hreq
  unfold App.getWeather
  rw [App.getKey_ok cfg k hk hne hph]
  simp only [hmiss, hreq, hcur, hev, FetchOutcome.settle, Response.ok, hbad]
  simp [Api.timeoutOf]

/-! ## Properties of `getWeather` -/

/-- C1: with an API key configured (non-empty and not the placeholder), if the cache holds an
unexpired entry under the key `getWeather` computes for `(lat, lon)` whose value is truthy (as
every object, so every stored payload, is), then `getWeather(lat, lon)` resolves to exactly
that value, with no event at all (no request, no cache write), the cache as it was and no
callback left behind. -/
theorem getWeather_cache_hit (P : Platform) (gss : Bool) (cfg : Option Config) (c : Cache)
    (clk : Clock) (net : Net) (lat lon : ℚ) (k : String) (e : CacheEntry)
    (hk : configKey cfg = some k) (hne : k ≠ "") (hph : k ≠ "YOUR_NEW_KEY_HERE")
    (he : c.entry (App.weatherKey P lat lon) = some e) (hlive : clk.atGet ≤ e.expiresAt)
    (hv : e.value.truthy = true) :
    (App.getWeather P gss cfg c clk net lat lon).result = .ok e.value ∧
    (App.getWeather P gss cfg c clk net lat lon).events = [] ∧
    (App.getWeather P gss cfg c clk net lat lon).cache = c ∧
    (App.getWeather P gss cfg c clk net lat lon).pending = none := by
  unfold App.getWeather
  rw [App.getKey_ok cfg k hk hne hph]
  simp [Cache.get, he, not_lt.mpr hlive, hv, Option.filter]

/-- A cache hit on the reference platform. -/
theorem getWeather_cache_hit_witness :
    (App.getWeather Ref.platform false (some ⟨some "k", none⟩)
      [("weather2:51.000,0.000", ⟨mkPayload (.str "sunny") .null .null, 100⟩)] ⟨50, 60⟩
      ⟨.timeout, .timeout, .timeout⟩ 51 0).result = .ok (mkPayload (.str "sunny") .null .null) :=
  (getWeather_cache_hit Ref.platform false (some ⟨some "k", none⟩)
    [("weather2:51.000,0.000", ⟨mkPayload (.str "sunny") .null .null, 100⟩)] ⟨50, 60⟩
    ⟨.timeout, .timeout, .timeout⟩ 51 0 "k" ⟨mkPayload (.str "sunny") .null .null, 100⟩
    rfl (by decide) (by decide) rfl (by decide) rfl).1

/-- C2: on a cache miss whose current-conditions request is answered with a success status
and a body that parses to `cur`, the payload `getWeather` resolves to has `current = cur` and
`air = null`, however the air-quality request ends. -/
theorem getWeather_miss_payload (P : Platform) (gss : Bool) (cfg : Option Config) (c : Cache)
    (clk : Clock) (forecast : FetchOutcome) (lat lon : ℚ) (k : String) (u : URL) (status : Nat)
    (cur : Json)
    (hk : configKey cfg = some k) (hne : k ≠ "") (hph : k ≠ "YOUR_NEW_KEY_HERE")
    (hmiss : (c.get clk.atGet (App.weatherKey P lat lon)).1.filter Json.truthy = none)
    (hreq : (Api.owFetch P gss cfg "/data/2.5/weather" (App.coordParams P lat lon)
      (some 6000)).result = .ok u)
    (hok : 200 ≤ status ∧ status ≤ 299) :
    ∃ fc : Json, ∀ air : FetchOutcome,
      (App.getWeather P gss cfg c clk ⟨.response status (some cur), forecast, air⟩
        lat lon).result = .ok (mkPayload cur fc .null) ∧
      (mkPayload cur fc .null).getField "current" = cur ∧
      (mkPayload cur fc .null).getField "air" = .null := by
  refine ⟨optionalJson (Api.owFetch P gss cfg "/data/2.5/forecast"
    (App.coordParams P lat lon) (some 8000)) forecast, fun air => ⟨?_, ?_, ?_⟩⟩
  · rw [App.getWeather_of_current_ok P gss cfg c clk _ lat lon k u status cur hk hne hph hmiss
      hreq rfl hok]
  · simp [mkPayload, Json.getField, List.lookup]
  · simp [mkPayload, Json.getField, List.lookup]

/-- A successful miss on the reference platform. -/
theorem getWeather_miss_payload_witness :
    ∃ fc : Json, ∀ air : FetchOutcome,
      (App.getWeather Ref.platform false (some ⟨some "k", none⟩) [] ⟨50, 60⟩
        ⟨.response 200 (some (.str "sunny")), .timeout, air⟩ 51 0).result =
          .ok (mkPayload (.str "sunny") fc .null) ∧
      (mkPayload (.str "sunny") fc .null).getField "current" = .str "sunny" ∧
      (mkPayload (.str "sunny") fc .null).getField "air" = .null :=
  getWeather_miss_payload Ref.platform false (some ⟨some "k", none⟩) [] ⟨50, 60⟩ .timeout 51 0
    "k" ⟨"https:", "", "", "api.openweathermap.org", "/data/2.5/weather",
      [("lat", "51"), ("lon", "0"), ("appid", "k")], ""⟩ 200 (.str "sunny")
    rfl (by decide) (by decide) rfl rfl (by decide)

/-- C3: on a cache miss whose current-conditions request is answered with any status outside
200 to 299, `getWeather` rejects, the only request it issues is the current-conditions one
(neither forecast nor air quality), it leaves no callback, writes nothing to the cache, and
the cache is as the lookup left it: identical when no expired entry sat under the key, and
otherwise without that expired entry, so that every read from then on gives what it would
have given. -/
theorem getWeather_current_failure (P : Platform) (gss : Bool) (cfg : Option Config)
    (c : Cache) (clk : Clock) (net : Net) (lat lon : ℚ) (k : String) (u : URL) (status : Nat)
    (body : Option Json)
    (hk : configKey cfg = some k) (hne : k ≠ "") (hph : k ≠ "YOUR_NEW_KEY_HERE")
    (hmiss : (c.get clk.atGet (App.weatherKey P lat lon)).1.filter Json.truthy = none)
    (hreq : (Api.owFetch P gss cfg "/data/2.5/weather" (App.coordParams P lat lon)
      (some 6000)).result = .ok u)
    (hcur : net.current = .response status body)
    (hbad : ¬ (200 ≤ status ∧ status ≤ 299)) :
    (App.getWeather P gss cfg c clk net lat lon).result = .error currentFailed ∧
    (App.getWeather P gss cfg c clk net lat lon).events.filter Event.isFetch =
      [.fetch u (some 6000)] ∧
    (App.getWeather P gss cfg c clk net lat lon).events.filter Event.isCacheSet = [] ∧
    (App.getWeather P gss cfg c clk net lat lon).pending = none ∧
    (App.getWeather P gss cfg c clk net lat lon).cache =
      (c.get clk.atGet (App.weatherKey P lat lon)).2 ∧
    ((∀ e, c.entry (App.weatherKey P lat lon) = some e → clk.atGet ≤ e.expiresAt) →
      (App.getWeather P gss cfg c clk net lat lon).cache = c) ∧
    (∀ key t, clk.atGet ≤ t →
      ((App.getWeather P gss cfg c clk net lat lon).cache.get t key).1 = (c.get t key).1) := by
  rw [App.getWeather_of_current_not_ok P gss cfg c clk net lat lon k u status body hk hne hph
    hmiss hreq hcur hbad]
  refine ⟨rfl, ?_, ?_, rfl, rfl, ?_, ?_⟩
  · by_cases h : status = 401 <;> simp [h, Event.isFetch]
  · by_cases h : status = 401 <;> simp [h, Event.isCacheSet]
  · intro h
    exact Cache.get_snd_eq c clk.atGet _ h
  · intro key t ht
    exact Cache.get_get c clk.atGet _ key t ht

/-- A 404 from the current-conditions request on the reference platform. -/
theorem getWeather_current_failure_witness :
    (App.getWeather Ref.platform false (some ⟨some "k", none⟩) [] ⟨50, 60⟩
      ⟨.response 404 none, .timeout, .timeout⟩ 51 0).result = .error currentFailed :=
  (getWeather_current_failure Ref.platform false (some ⟨some "k", none⟩) [] ⟨50, 60⟩
    ⟨.response 404 none, .timeout, .timeout⟩ 51 0
    "k" ⟨"https:", "", "", "api.openweathermap.org", "/data/2.5/weather",
      [("lat", "51"), ("lon", "0"), ("appid", "k")], ""⟩ 404 none
    rfl (by decide) (by decide) rfl rfl rfl (by decide)).1

/-- C4, as the code has it: on a cache miss, `getWeather` rejects with one and the same error,
`new Error('Weather API (current)')`, for every status outside 200 to 299 of the
current-conditions response, 401 included; what is specific to 401 is only the call
`setStatus('OpenWeather API key invalid or unauthorized', 'error')` made before rejecting. -/
theorem getWeather_same_error_for_every_status (P : Platform) (gss : Bool)
    (cfg : Option Config) (c : Cache) (clk : Clock) (net : Net) (lat lon : ℚ) (k : String)
    (u : URL) (status : Nat) (body : Option Json)
    (hk : configKey cfg = some k) (hne : k ≠ "") (hph : k ≠ "YOUR_NEW_KEY_HERE")
    (hmiss : (c.get clk.atGet (App.weatherKey P lat lon)).1.filter Json.truthy = none)
    (hreq : (Api.owFetch P gss cfg "/data/2.5/weather" (App.coordParams P lat lon)
      (some 6000)).result = .ok u)
    (hcur : net.current = .response status body)
    (hbad : ¬ (200 ≤ status ∧ status ≤ 299)) :
    (App.getWeather P gss cfg c clk net lat lon).result =
      .error (.error "Weather API (current)") ∧
    (App.getWeather P gss cfg c clk net lat lon).events =
      [.fetch u (some 6000)] ++
        (if status = 401 then [.setStatus "OpenWeather API key invalid or unauthorized" "error"]
          else []) := by
  rw [App.getWeather_of_current_not_ok P gss cfg c clk net lat lon k u status body hk hne hph
    hmiss hreq hcur hbad]
  exact ⟨rfl, rfl⟩

/-- A 401 from the current-conditions request on the reference platform. -/
theorem getWeather_same_error_for_every_status_witness :
    (App.getWeather Ref.platform false (some ⟨some "k", none⟩) [] ⟨50, 60⟩
      ⟨.response 401 none, .timeout, .timeout⟩ 51 0).events =
      [.fetch ⟨"https:", "", "", "api.openweathermap.org", "/data/2.5/weather",
          [("lat", "51"), ("lon", "0"), ("appid", "k")], ""⟩ (some 6000)] ++
        (if 401 = 401 then [.setStatus "OpenWeather API key invalid or unauthorized" "error"]
          else []) :=
  (getWeather_same_error_for_every_status Ref.platform false (some ⟨some "k", none⟩) []
    ⟨50, 60⟩ ⟨.response 401 none, .timeout, .timeout⟩ 51 0
    "k" ⟨"https:", "", "", "api.openweathermap.org", "/data/2.5/weather",
      [("lat", "51"), ("lon", "0"), ("appid", "k")], ""⟩ 401 none
    rfl (by decide) (by decide) rfl rfl rfl (by decide)).2

/-- The error `getWeather` rejects with on a 401 is the error it rejects with on a 500: the
two are not distinct. -/
theorem getWeather_unauthorized_error_not_distinct :
    ¬ ((App.getWeather Ref.platform false (some ⟨some "k", none⟩) [] ⟨50, 60⟩
        ⟨.response 401 none, .timeout, .timeout⟩ 51 0).result ≠
      (App.getWeather Ref.platform false (some ⟨some "k", none⟩) [] ⟨50, 60⟩
        ⟨.response 500 none, .timeout, .timeout⟩ 51 0).result) :=
  fun h => h rfl

/-- C5: on a cache miss whose current-conditions request succeeds with body `cur` and whose
forecast request fails (a status outside 200 to 299, a body that is not JSON, a network
error, a timeout, or an error thrown by `owFetch` before the request),
`getWeather` resolves to the payload with `current = cur` and `forecast = null`, and that
payload is what it writes to the cache: the write is among its events, the entry under the
key holds it, and a read at that moment returns it. -/
theorem getWeather_forecast_failure (P : Platform) (gss : Bool) (cfg : Option Config)
    (c : Cache) (clk : Clock) (net : Net) (lat lon : ℚ) (k : String) (u : URL) (status : Nat)
    (cur : Json)
    (hk : configKey cfg = some k) (hne : k ≠ "") (hph : k ≠ "YOUR_NEW_KEY_HERE")
    (hmiss : (c.get clk.atGet (App.weatherKey P lat lon)).1.filter Json.truthy = none)
    (hreq : (Api.owFetch P gss cfg "/data/2.5/weather" (App.coordParams P lat lon)
      (some 6000)).result = .ok u)
    (hcur : net.current = .response status (some cur))
    (hok : 200 ≤ status ∧ status ≤ 299)
    (hfc : (∃ s b, net.forecast = .response s b ∧ ¬ (200 ≤ s ∧ s ≤ 299)) ∨
      (∃ s, net.forecast = .response s none) ∨
      net.forecast = .networkError ∨ net.forecast = .timeout ∨
      (∃ e, (Api.owFetch P gss cfg "/data/2.5/forecast" (App.coordParams P lat lon)
        (some 8000)).result = .error e)) :
    (App.getWeather P gss cfg c clk net lat lon).result = .ok (mkPayload cur .null .null) ∧
    (mkPayload cur .null .null).getField "current" = cur ∧
    (mkPayload cur .null .null).getField "forecast" = .null ∧
    Event.cacheSet (App.weatherKey P lat lon) (mkPayload cur .null .null) 180000 ∈
      (App.getWeather P gss cfg c clk net lat lon).events ∧
    (App.getWeather P gss cfg c clk net lat lon).cache.entry (App.weatherKey P lat lon) =
      some ⟨mkPayload cur .null .null, clk.atSet + 180000⟩ ∧
    ((App.getWeather P gss cfg c clk net lat lon).cache.get clk.atSet
      (App.weatherKey P lat lon)).1 = some (mkPayload cur .null .null) := by
  have hnull : optionalJson (Api.owFetch P gss cfg "/data/2.5/forecast"
      (App.coordParams P lat lon) (some 8000)) net.forecast = .null := by
    unfold optionalJson
    cases hr : (Api.owFetch P gss cfg "/data/2.5/forecast" (App.coordParams P lat lon)
      (some 8000)).result with
    | error e => rfl
    | ok v =>
      rcases hfc with ⟨s, b, h, hs⟩ | ⟨s, h⟩ | h | h | ⟨e, h⟩
      · simp [h, FetchOutcome.settle, Response.ok, hs]
      · simp [h, FetchOutcome.settle, Response.parse]
      · simp [h, FetchOutcome.settle]
      · simp [h, FetchOutcome.settle]
      · rw [hr] at h
        cases h
  rw [App.getWeather_of_current_ok P gss cfg c clk net lat lon k u status cur hk hne hph hmiss
    hreq hcur hok, hnull]
  refine ⟨rfl, ?_, ?_, ?_, ?_, ?_⟩
  · simp [mkPayload, Json.getField, List.lookup]
  · simp [mkPayload, Json.getField, List.lookup]
  · simp
  · exact Cache.entry_set _ _ _ _ _
  · simp [Cache.get, Cache.entry_set]

/-- A 503 from the forecast request on the reference platform. -/
theorem getWeather_forecast_failure_witness :
    (App.getWeather Ref.platform false (some ⟨some "k", none⟩) [] ⟨50, 60⟩
      ⟨.response 200 (some (.str "sunny")), .response 503 none, .timeout⟩ 51 0).result =
      .ok (mkPayload (.str "sunny") .null .null) :=
  (getWeather_forecast_failure Ref.platform false (some ⟨some "k", none⟩) [] ⟨50, 60⟩
    ⟨.response 200 (some (.str "sunny")), .response 503 none, .timeout⟩ 51 0
    "k" ⟨"https:", "", "", "api.openweathermap.org", "/data/2.5/weather",
      [("lat", "51"), ("lon", "0"), ("appid", "k")], ""⟩ 200 (.str "sunny")
    rfl (by decide) (by decide) rfl rfl rfl (by decide)
    (Or.inl ⟨503, none, rfl, by decide⟩)).1

/-- Reading a field right after the spread that sets it gives the value set. -/
theorem Json.getField_spreadWith (w : Json) (k : String) (v : Json) :
    (w.spreadWith k v).getField k = v := by
  have hone : (([(k, v)] : List (String × Json)).lookup k).getD Json.null = v := by
    simp [List.lookup]
  cases w with
  | obj fields =>
    show ((Json.setField k v fields).lookup k).getD Json.null = v
    induction fields with
    | nil => exact hone
    | cons p rest ih =>
      obtain ⟨k0, v0⟩ := p
      by_cases h0 : k0 = k
      · subst h0
        simp [Json.setField, List.lookup]
      · have hb : (k == k0) = false := by simpa using fun h : k = k0 => h0 h.symm
        simpa [Json.setField, h0, List.lookup, hb] using ih
  | null => exact hone
  | bool b => exact hone
  | num n => exact hone
  | str s => exact hone
  | arr items => exact hone

/-- C6, as the code has it: when `getWeather` has resolved to `{ current, forecast, air: null }`
on a cache miss and the air-quality request it started is answered with a success status and
body `a`, the callback it left behind spreads the returned object as it is at that moment,
`live`: it overwrites the entry under the same key with `{ ...live, air: a }` and the TTL
180000 ms of the first write, counted from the moment of the callback, and calls `renderAQI`
exactly once, with that payload. As long as the object holds the returned `current` and any
`forecast` `f` (the one returned, or one assigned since), that payload is
`{ current, forecast: f, air: a }`. -/
theorem getWeather_air_success (P : Platform) (gss : Bool) (cfg : Option Config) (c : Cache)
    (clk : Clock) (net : Net) (lat lon : ℚ) (k : String) (u ua : URL) (status sa : Nat)
    (cur a : Json)
    (hk : configKey cfg = some k) (hne : k ≠ "") (hph : k ≠ "YOUR_NEW_KEY_HERE")
    (hmiss : (c.get clk.atGet (App.weatherKey P lat lon)).1.filter Json.truthy = none)
    (hreq : (Api.owFetch P gss cfg "/data/2.5/weather" (App.coordParams P lat lon)
      (some 6000)).result = .ok u)
    (hcur : net.current = .response status (some cur))
    (hok : 200 ≤ status ∧ status ≤ 299)
    (hareq : (Api.owFetch P gss cfg "/data/2.5/air_pollution" (App.coordParams P lat lon)
      (some 5000)).result = .ok ua)
    (hair : net.air = .response sa (some a))
    (haok : 200 ≤ sa ∧ sa ≤ 299) :
    ∃ (pd : Pending) (fc : Json),
      (App.getWeather P gss cfg c clk net lat lon).result = .ok (mkPayload cur fc .null) ∧
      (App.getWeather P gss cfg c clk net lat lon).pending = some pd ∧
      pd.payload = mkPayload cur fc .null ∧
      Event.cacheSet (App.weatherKey P lat lon) (mkPayload cur fc .null) 180000 ∈
        (App.getWeather P gss cfg c clk net lat lon).events ∧
      ∀ (live : Json) (c2 : Cache) (now : Nat),
        (pd.settle live c2 now net.air).2 =
          [.cacheSet (App.weatherKey P lat lon) (live.spreadWith "air" a) 180000,
            .renderAQI (live.spreadWith "air" a)] ∧
        (pd.settle live c2 now net.air).1 =
          c2.set now (App.weatherKey P lat lon) (live.spreadWith "air" a) 180000 ∧
        (pd.settle live c2 now net.air).1.entry (App.weatherKey P lat lon) =
          some ⟨live.spreadWith "air" a, now + 180000⟩ ∧
        ((pd.settle live c2 now net.air).2.filter Event.isRenderAQI).length = 1 ∧
        (live.spreadWith "air" a).getField "air" = a ∧
        ∀ f, live = mkPayload cur f .null → live.spreadWith "air" a = mkPayload cur f a := by
  rw [App.getWeather_of_current_ok P gss cfg c clk net lat lon k u status cur hk hne hph hmiss
    hreq hcur hok]
  refine ⟨_, _, rfl, rfl, rfl, by simp, fun live c2 now => ?_⟩
  have hval : optionalJson (Api.owFetch P gss cfg "/data/2.5/air_pollution"
      (App.coordParams P lat lon) (some 5000)) net.air = a := by
    simp [optionalJson, hareq, hair, FetchOutcome.settle, Response.ok, Response.parse, haok]
  simp only [Pending.settle, hval]
  refine ⟨trivial, trivial, ?_, ?_, Json.getField_spreadWith live "air" a, ?_⟩
  · exact Cache.entry_set _ _ _ _ _
  · simp [Event.isRenderAQI]
  · rintro f rfl
    rfl

/-- An air-quality response that arrives after the return, on the reference platform: the
callback writes and renders the object of that moment with `air` set to the body. -/
theorem getWeather_air_success_witness :
    ∃ (pd : Pending) (fc : Json),
      (App.getWeather Ref.platform false (some ⟨some "k", none⟩) [] ⟨50, 60⟩
        ⟨.response 200 (some (.str "sunny")), .timeout, .response 200 (some (.num 2))⟩
        51 0).result = .ok (mkPayload (.str "sunny") fc .null) ∧
      (App.getWeather Ref.platform false (some ⟨some "k", none⟩) [] ⟨50, 60⟩
        ⟨.response 200 (some (.str "sunny")), .timeout, .response 200 (some (.num 2))⟩
        51 0).pending = some pd ∧
      ∀ (live : Json) (c2 : Cache) (now : Nat),
        (pd.settle live c2 now (Net.air ⟨.response 200 (some (.str "sunny")), .timeout,
            .response 200 (some (.num 2))⟩)).2 =
          [.cacheSet (App.weatherKey Ref.platform 51 0) (live.spreadWith "air" (.num 2))
              180000,
            .renderAQI (live.spreadWith "air" (.num 2))] :=
  match getWeather_air_success Ref.platform false (some ⟨some "k", none⟩) [] ⟨50, 60⟩
    ⟨.response 200 (some (.str "sunny")), .timeout, .response 200 (some (.num 2))⟩ 51 0
    "k" ⟨"https:", "", "", "api.openweathermap.org", "/data/2.5/weather",
      [("lat", "51"), ("lon", "0"), ("appid", "k")], ""⟩
    ⟨"https:", "", "", "api.openweathermap.org", "/data/2.5/air_pollution",
      [("lat", "51"), ("lon", "0"), ("appid", "k")], ""⟩ 200 200 (.str "sunny") (.num 2)
    rfl (by decide) (by decide) rfl rfl rfl (by decide) rfl rfl (by decide) with
  | ⟨pd, fc, h1, h2, _, _, h5⟩ => ⟨pd, fc, h1, h2, fun live c2 now => (h5 live c2 now).1⟩

/-- The object the timer callback of `loadByCoords` renders is the object its assignment
leaves: every rendering event of the callback carries `afterRetry`. -/
theorem App.retryForecast_renders_afterRetry (P : Platform) (gss : Bool) (cfg : Option Config)
    (page : Page) (lat lon : ℚ) (w : Json) (o : FetchOutcome) :
    ∀ ev ∈ App.retryForecast P gss cfg page lat lon w o,
      (∃ e, ev = .core e) ∨ ev = .renderHourly (App.afterRetry P gss cfg lat lon w o) ∨
        ev = .renderDaily (App.afterRetry P gss cfg lat lon w o) := by
  intro ev hev
  unfold App.retryForecast at hev
  unfold App.afterRetry
  repeat' split at hev
  all_goals simp_all
  all_goals aesop

/-- When the forecast request of `getWeather(51, 0)` is answered 503, the call returns
`{ current, forecast: null, air: null }` and `loadByCoords` schedules its own forecast
request; answered 200, that request assigns its body to `forecast` of the returned object.
The air-quality response that arrives afterwards is then written and rendered with the
retried forecast, not with the `forecast` of the payload as it was returned. -/
theorem getWeather_air_success_carries_retried_forecast :
    (App.getWeather Ref.platform false (some ⟨some "k", none⟩) [] ⟨50, 60⟩
      ⟨.response 200 (some (.str "sunny")), .response 503 none,
        .response 200 (some (.num 2))⟩ 51 0).result =
      .ok (mkPayload (.str "sunny") .null .null) ∧
    (App.loadByCoords Ref.platform false (some ⟨some "k", none⟩)
      ⟨fun _ _ => true, fun _ => true, fun _ => true, fun _ => true⟩ [] ⟨50, 60⟩
      ⟨.response 200 (some (.str "sunny")), .response 503 none,
        .response 200 (some (.num 2))⟩ 51 0 none).retry =
      some (mkPayload (.str "sunny") .null .null) ∧
    App.afterRetry Ref.platform false (some ⟨some "k", none⟩) 51 0
      (mkPayload (.str "sunny") .null .null) (.response 200 (some (.str "rain"))) =
      mkPayload (.str "sunny") (.str "rain") .null ∧
    (App.getWeather Ref.platform false (some ⟨some "k", none⟩) [] ⟨50, 60⟩
      ⟨.response 200 (some (.str "sunny")), .response 503 none,
        .response 200 (some (.num 2))⟩ 51 0).pending.map
        (fun pd => (pd.settle (mkPayload (.str "sunny") (.str "rain") .null) [] 5060
          (.response 200 (some (.num 2)))).2) =
      some [.cacheSet "weather2:51.000,0.000"
          (mkPayload (.str "sunny") (.str "rain") (.num 2)) 180000,
        .renderAQI (mkPayload (.str "sunny") (.str "rain") (.num 2))] ∧
    mkPayload (.str "sunny") (.str "rain") (.num 2) ≠
      mkPayload (.str "sunny") .null (.num 2) :=
  ⟨rfl, rfl, rfl, rfl, by simp [mkPayload]⟩

/-- C7, as the code has it: when `getWeather` has resolved on a cache miss and the air-quality
request fails (a status outside 200 to 299, a body that is not JSON, a network error, a
timeout, or an error thrown by `owFetch` before the request), the callback it left behind
still runs: it writes the returned object as it is at that moment, `live`, with `air` set to
`null`, under the same key with a fresh TTL of 180000 ms, and calls `renderAQI` once with it.
What it writes has `air` `null`, and is the object unchanged as long as the object holds the
returned `current`, any `forecast` and the `air: null` it was returned with. -/
theorem getWeather_air_failure (P : Platform) (gss : Bool) (cfg : Option Config) (c : Cache)
    (clk : Clock) (net : Net) (lat lon : ℚ) (k : String) (u : URL) (status : Nat) (cur : Json)
    (hk : configKey cfg = some k) (hne : k ≠ "") (hph : k ≠ "YOUR_NEW_KEY_HERE")
    (hmiss : (c.get clk.atGet (App.weatherKey P lat lon)).1.filter Json.truthy = none)
    (hreq : (Api.owFetch P gss cfg "/data/2.5/weather" (App.coordParams P lat lon)
      (some 6000)).result = .ok u)
    (hcur : net.current = .response status (some cur))
    (hok : 200 ≤ status ∧ status ≤ 299)
    (hair : (∃ s b, net.air = .response s b ∧ ¬ (200 ≤ s ∧ s ≤ 299)) ∨
      (∃ s, net.air = .response s none) ∨
      net.air = .networkError ∨ net.air = .timeout ∨
      (∃ e, (Api.owFetch P gss cfg "/data/2.5/air_pollution" (App.coordParams P lat lon)
        (some 5000)).result = .error e)) :
    ∃ (pd : Pending) (fc : Json),
      (App.getWeather P gss cfg c clk net lat lon).result = .ok (mkPayload cur fc .null) ∧
      (App.getWeather P gss cfg c clk net lat lon).pending = some pd ∧
      pd.payload = mkPayload cur fc .null ∧
      ∀ (live : Json) (c2 : Cache) (now : Nat),
        (pd.settle live c2 now net.air).2 =
          [.cacheSet (App.weatherKey P lat lon) (live.spreadWith "air" .null) 180000,
            .renderAQI (live.spreadWith "air" .null)] ∧
        (pd.settle live c2 now net.air).1 =
          c2.set now (App.weatherKey P lat lon) (live.spreadWith "air" .null) 180000 ∧
        (live.spreadWith "air" .null).getField "air" = .null ∧
        ∀ f, live = mkPayload cur f .null → live.spreadWith "air" .null = live := by
  rw [App.getWeather_of_current_ok P gss cfg c clk net lat lon k u status cur hk hne hph hmiss
    hreq hcur hok]
  refine ⟨_, _, rfl, rfl, rfl, fun live c2 now => ?_⟩
  have hnull : optionalJson (Api.owFetch P gss cfg "/data/2.5/air_pollution"
      (App.coordParams P lat lon) (some 5000)) net.air = .null := by
    unfold optionalJson
    cases hr : (Api.owFetch P gss cfg "/data/2.5/air_pollution" (App.coordParams P lat lon)
      (some 5000)).result with
    | error e => rfl
    | ok v =>
      rcases hair with ⟨s, b, h, hs⟩ | ⟨s, h⟩ | h | h | ⟨e, h⟩
      · simp [h, FetchOutcome.settle, Response.ok, hs]
      · simp [h, FetchOutcome.settle, Response.parse]
      · simp [h, FetchOutcome.settle]
      · simp [h, FetchOutcome.settle]
      · rw [hr] at h
        cases h
  simp only [Pending.settle, hnull]
  refine ⟨trivial, trivial, Json.getField_spreadWith live "air" .null, ?_⟩
  rintro f rfl
  rfl

/-- A 500 from the air-quality request on the reference platform: the callback writes and
renders the object of that moment with `air` set to `null`. -/
theorem getWeather_air_failure_witness :
    ∃ (pd : Pending) (fc : Json),
      (App.getWeather Ref.platform false (some ⟨some "k", none⟩) [] ⟨50, 60⟩
        ⟨.response 200 (some (.str "sunny")), .timeout, .response 500 none⟩
        51 0).result = .ok (mkPayload (.str "sunny") fc .null) ∧
      (App.getWeather Ref.platform false (some ⟨some "k", none⟩) [] ⟨50, 60⟩
        ⟨.response 200 (some (.str "sunny")), .timeout, .response 500 none⟩
        51 0).pending = some pd ∧
      ∀ (live : Json) (c2 : Cache) (now : Nat),
        (pd.settle live c2 now (Net.air ⟨.response 200 (some (.str "sunny")), .timeout,
            .response 500 none⟩)).2 =
          [.cacheSet (App.weatherKey Ref.platform 51 0) (live.spreadWith "air" .null)
              180000,
            .renderAQI (live.spreadWith "air" .null)] :=
  match getWeather_air_failure Ref.platform false (some ⟨some "k", none⟩) [] ⟨50, 60⟩
    ⟨.response 200 (some (.str "sunny")), .timeout, .response 500 none⟩ 51 0
    "k" ⟨"https:", "", "", "api.openweathermap.org", "/data/2.5/weather",
      [("lat", "51"), ("lon", "0"), ("appid", "k")], ""⟩ 200 (.str "sunny")
    rfl (by decide) (by decide) rfl rfl rfl (by decide)
    (Or.inl ⟨500, none, rfl, by decide⟩) with
  | ⟨pd, fc, h1, h2, _, h4⟩ => ⟨pd, fc, h1, h2, fun live c2 now => (h4 live c2 now).1⟩

/-- After `getWeather(51, 0)` has returned on an empty cache and its air-quality request has
timed out, the callback, run on the returned payload untouched, performs a cache write for
the key and invokes `renderAQI`. -/
theorem getWeather_air_failure_still_writes_and_renders :
    (App.getWeather Ref.platform false (some ⟨some "k", none⟩) [] ⟨50, 60⟩
      ⟨.response 200 (some (.str "sunny")), .timeout, .timeout⟩ 51 0).pending.map
        (fun pd => (pd.settle pd.payload [] 5060 .timeout).2) =
      some [.cacheSet "weather2:51.000,0.000" (mkPayload (.str "sunny") .null .null) 180000,
        .renderAQI (mkPayload (.str "sunny") .null .null)] :=
  rfl

/-! ## Facts about `URLSearchParams.set` -/

/-- The pairs after `set(k1, v1)`: the pair set, and the pairs of every other name. -/
theorem SearchParams.mem_set (k1 v1 : String) (q : SearchParams) (k v : String) :
    (k, v) ∈ SearchParams.set k1 v1 q ↔ (k = k1 ∧ v = v1) ∨ (k ≠ k1 ∧ (k, v) ∈ q) := by
  induction q with
  | nil => simp [SearchParams.set]
  | cons p rest ih =>
    obtain ⟨a, b⟩ := p
    by_cases ha : a = k1
    · subst ha
      simp only [SearchParams.set, if_true, List.mem_cons, List.mem_filter, Prod.mk.injEq]
      constructor
      · rintro (h | ⟨h, hne⟩)
        · exact Or.inl h
        · exact Or.inr ⟨by simpa using hne, Or.inr h⟩
      · rintro (h | ⟨hne, h | h⟩)
        · exact Or.inl h
        · exact absurd h.1 hne
        · exact Or.inr ⟨h, by simpa using hne⟩
    · simp only [SearchParams.set, ha, if_false, List.mem_cons, Prod.mk.injEq, ih]
      constructor
      · rintro (h | h | h)
        · exact Or.inr ⟨fun e => ha (h.1 ▸ e), Or.inl h⟩
        · exact Or.inl h
        · exact Or.inr ⟨h.1, Or.inr h.2⟩
      · rintro (h | ⟨hne, h | h⟩)
        · exact Or.inr (Or.inl h)
        · exact Or.inl h
        · exact Or.inr (Or.inr ⟨hne, h⟩)

/-- The parameter loop of `owFetch` is a loop of `set` calls over the defined entries. -/
theorem Api.setParams_eq (params : List (String × Option String)) (q : SearchParams) :
    Api.setParams params q =
      (Api.definedParams params).foldl (fun acc p => SearchParams.set p.1 p.2 acc) q := by
  unfold Api.setParams Api.definedParams
  induction params generalizing q with
  | nil => rfl
  | cons p rest ih =>
    obtain ⟨a, b⟩ := p
    cases b with
    | none => simpa [List.filterMap_cons] using ih q
    | some v => simpa [List.filterMap_cons] using ih (SearchParams.set a v q)

/-- A name has no last value exactly when no pair carries it. -/
theorem SearchParams.lastValue_eq_none (k : String) (l : List (String × String)) :
    SearchParams.lastValue k l = none ↔ ∀ v, (k, v) ∉ l := by
  induction l with
  | nil => simp [SearchParams.lastValue]
  | cons p rest ih =>
    obtain ⟨a, b⟩ := p
    cases h : SearchParams.lastValue k rest with
    | some w =>
      have : ¬ ∀ v, (k, v) ∉ rest := fun hall => by
        rw [ih.mpr hall] at h
        cases h
      simp only [SearchParams.lastValue, h]
      constructor
      · intro e
        cases e
      · intro hall
        exact absurd (fun v hv => hall v (List.mem_cons_of_mem _ hv)) this
    | none =>
      have hrest := ih.mp h
      by_cases ha : a = k
      · subst ha
        simp only [SearchParams.lastValue, h, if_true]
        constructor
        · intro e
          cases e
        · intro hall
          exact absurd (List.mem_cons_self _ _) (hall b)
      · simp only [SearchParams.lastValue, h, ha, if_false, true_iff]
        intro v hv
        rcases List.mem_cons.mp hv with e | e
        · exact ha (Prod.mk.inj e).1.symm
        · exact hrest v e

/-- What a loop of `set` calls over the pairs `l` leaves in the parameters `q`: under a name
that occurs in `l` the last value given, under any other name what was there. -/
theorem SearchParams.mem_foldl_set (l : List (String × String)) (q : SearchParams)
    (k v : String) :
    (k, v) ∈ l.foldl (fun acc p => SearchParams.set p.1 p.2 acc) q ↔
      SearchParams.lastValue k l = some v ∨
        (SearchParams.lastValue k l = none ∧ (k, v) ∈ q) := by
  induction l generalizing q with
  | nil => simp [SearchParams.lastValue]
  | cons p rest ih =>
    obtain ⟨a, b⟩ := p
    rw [List.foldl_cons, ih, SearchParams.mem_set]
    cases h : SearchParams.lastValue k rest with
    | some w => simp [SearchParams.lastValue, h]
    | none =>
      by_cases ha : a = k
      · subst ha
        simp [SearchParams.lastValue, h, eq_comm]
      · have hk : ¬ k = a := fun e => ha e.symm
        simp [SearchParams.lastValue, h, ha, hk]

/-- The last value of a name comes from a pair of the list. -/
theorem SearchParams.lastValue_mem (k v : String) (l : List (String × String))
    (h : SearchParams.lastValue k l = some v) : (k, v) ∈ l := by
  induction l with
  | nil => simp [SearchParams.lastValue] at h
  | cons p rest ih =>
    obtain ⟨a, b⟩ := p
    cases hr : SearchParams.lastValue k rest with
    | some w =>
      simp only [SearchParams.lastValue, hr] at h
      exact List.mem_cons_of_mem _ (ih (hr.trans h))
    | none =>
      by_cases ha : a = k
      · simp only [SearchParams.lastValue, hr, ha, if_true, Option.some.injEq] at h
        rw [ha, h]
        exact List.mem_cons_self _ _
      · simp [SearchParams.lastValue, hr, ha] at h

/-- With distinct names, the last value of a name is the value of its only pair. -/
theorem SearchParams.lastValue_eq_some (k v : String) (l : List (String × String))
    (hl : (l.map Prod.fst).Nodup) : SearchParams.lastValue k l = some v ↔ (k, v) ∈ l := by
  refine ⟨SearchParams.lastValue_mem k v l, ?_⟩
  induction l with
  | nil => simp
  | cons p rest ih =>
    obtain ⟨a, b⟩ := p
    rw [List.map_cons, List.nodup_cons] at hl
    intro hm
    rcases List.mem_cons.mp hm with e | e
    · obtain ⟨hk, hv⟩ := Prod.mk.inj e
      have hnone : SearchParams.lastValue k rest = none := by
        rw [SearchParams.lastValue_eq_none]
        intro w hw
        exact hl.1 (List.mem_map.mpr ⟨(k, w), hw, hk⟩)
      subst hk hv
      simp [SearchParams.lastValue, hnone]
    · simp [SearchParams.lastValue, ih hl.2 e]

/-- With distinct names, `get` returns the value of the pair that carries the name. -/
theorem SearchParams.get_of_mem (k v : String) (q : SearchParams)
    (hq : (q.map Prod.fst).Nodup) (hm : (k, v) ∈ q) : SearchParams.get k q = some v := by
  unfold SearchParams.get
  induction q with
  | nil => simp at hm
  | cons p rest ih =>
    obtain ⟨a, b⟩ := p
    rw [List.map_cons, List.nodup_cons] at hq
    rcases List.mem_cons.mp hm with e | e
    · obtain ⟨hk, hv⟩ := Prod.mk.inj e
      simp [List.find?_cons, hk, hv]
    · have hne : ¬ a = k := fun h => hq.1 (List.mem_map.mpr ⟨(k, v), e, h.symm⟩)
      simp only [List.find?_cons, hne, decide_False]
      exact ih hq.2 e

/-- The method `set` keeps names distinct. -/
theorem SearchParams.nodup_set (k v : String) (q : SearchParams)
    (hq : (q.map Prod.fst).Nodup) : ((SearchParams.set k v q).map Prod.fst).Nodup := by
  induction q with
  | nil => simp [SearchParams.set]
  | cons p rest ih =>
    obtain ⟨a, b⟩ := p
    rw [List.map_cons, List.nodup_cons] at hq
    by_cases ha : a = k
    · simp only [SearchParams.set, ha, if_true, List.map_cons, List.nodup_cons]
      refine ⟨?_, (hq.2.sublist (List.Sublist.map _ (List.filter_sublist _)))⟩
      intro hmem
      obtain ⟨x, hx, hxk⟩ := List.mem_map.mp hmem
      have := (List.mem_filter.mp hx).2
      simp [hxk] at this
    · simp only [SearchParams.set, ha, if_false, List.map_cons, List.nodup_cons]
      refine ⟨?_, ih hq.2⟩
      intro hmem
      obtain ⟨x, hx, hxk⟩ := List.mem_map.mp hmem
      obtain ⟨x1, x2⟩ := x
      rcases (SearchParams.mem_set k v rest x1 x2).mp hx with h | h
      · exact ha (hxk.symm.trans h.1)
      · exact hq.1 (List.mem_map.mpr ⟨(x1, x2), h.2, hxk⟩)

/-- A loop of `set` calls keeps names distinct. -/
theorem SearchParams.nodup_foldl_set (l : List (String × String)) (q : SearchParams)
    (hq : (q.map Prod.fst).Nodup) :
    ((l.foldl (fun acc p => SearchParams.set p.1 p.2 acc) q).map Prod.fst).Nodup := by
  induction l generalizing q with
  | nil => exact hq
  | cons p rest ih => exact ih _ (SearchParams.nodup_set p.1 p.2 q hq)

/-- The defined entries are the entries with a value. -/
theorem Api.mem_definedParams (params : List (String × Option String)) (k v : String) :
    (k, v) ∈ Api.definedParams params ↔ (k, some v) ∈ params := by
  unfold Api.definedParams
  rw [List.mem_filterMap]
  constructor
  · rintro ⟨⟨a, b⟩, hm, hb⟩
    cases b with
    | none => simp at hb
    | some w =>
      simp only [Option.map_some', Option.some.injEq, Prod.mk.injEq] at hb
      rw [← hb.1, ← hb.2]
      exact hm
  · intro hm
    exact ⟨(k, some v), hm, rfl⟩

/-- A pair present after the parameter loop was given as a parameter or was there before. -/
theorem Api.mem_setParams (params : List (String × Option String)) (q : SearchParams)
    (k v : String) (h : (k, v) ∈ Api.setParams params q) :
    (k, some v) ∈ params ∨ (k, v) ∈ q := by
  rw [Api.setParams_eq, SearchParams.mem_foldl_set] at h
  rcases h with h | h
  · exact Or.inl ((Api.mem_definedParams params k v).mp (SearchParams.lastValue_mem k v _ h))
  · exact Or.inr h.2

/-! ## Properties of `owFetch`, the key check and the proxy -/

/-- C8, as the code has it: for every configuration, path and params, `owFetch` of `api.js`
rejects with `Missing API key` if and only if neither `OPENWEATHER_KEY` nor `PROXY_URL` is
configured (truthy), and then it has issued no request; when `PROXY_URL` is configured it
never rejects with this error, and the request it issues carries an `appid` parameter only
where `params` has a non-null `appid` entry of that value or the resolved `PROXY_URL` has one
in its own query: `owFetch` adds none. -/
theorem owFetch_missing_key_iff (P : Platform) (gss : Bool) (cfg : Option Config)
    (path : String) (params : List (String × Option String)) (options : Option Nat) :
    ((Api.owFetch P gss cfg path params options).result = .error missingKey ↔
      (truthyStr (configKey cfg) = false ∧ truthyStr (configProxy cfg) = false)) ∧
    ((Api.owFetch P gss cfg path params options).result = .error missingKey →
      ∀ ev ∈ (Api.owFetch P gss cfg path params options).events, ev.isFetch = false) ∧
    (truthyStr (configProxy cfg) = true →
      (Api.owFetch P gss cfg path params options).result ≠ .error missingKey ∧
      ∀ u t, Event.fetch u t ∈ (Api.owFetch P gss cfg path params options).events →
        ∀ v, ("appid", v) ∈ u.searchParams →
          ("appid", some v) ∈ params ∨
          ∃ pu, P.resolveURL ((configProxy cfg).getD "") P.locationOrigin = some pu ∧
            ("appid", v) ∈ pu.searchParams) := by
  refine ⟨?_, fun h => (Api.owFetch_events P gss cfg path params options).2 _ h, ?_⟩
  · unfold Api.owFetch
    by_cases hp : truthyStr (configProxy cfg) = true
    · simp only [hp, if_true]
      cases P.resolveURL ((configProxy cfg).getD "") P.locationOrigin with
      | none => simp [missingKey]
      | some pu => simp [Api.fetchWithTimeout]
    · simp only [hp]
      by_cases hk : truthyStr (configKey cfg) = true
      · have hg : Api.getKey gss cfg = ⟨.ok (configKey cfg), []⟩ := by
          simp [Api.getKey, hk]
        rw [hg]
        cases P.parseURL ("https://api.openweathermap.org" ++ path) with
        | none => simp [missingKey, hk]
        | some url => simp [Api.fetchWithTimeout, hk]
      · have hg : Api.getKey gss cfg =
            ⟨.error missingKey, if gss then [.setStatus missingKeyStatus "error"] else []⟩ := by
          simp [Api.getKey, hk, hp]
        rw [hg]
        simp [hk, hp]
  · intro hp
    unfold Api.owFetch
    simp only [hp, if_true]
    cases hr : P.resolveURL ((configProxy cfg).getD "") P.locationOrigin with
    | none => simp [missingKey]
    | some pu =>
      refine ⟨by simp [Api.fetchWithTimeout], ?_⟩
      intro u t hm v hv
      simp only [Api.fetchWithTimeout, List.mem_singleton, Event.fetch.injEq] at hm
      rw [hm.1] at hv
      rcases Api.mem_setParams params _ "appid" v hv with h | h
      · exact Or.inl h
      · rcases (SearchParams.mem_set "path" path pu.searchParams "appid" v).mp h with h2 | h2
        · exact absurd h2.1 (by decide)
        · exact Or.inr ⟨pu, rfl, h2.2⟩

/-- With `PROXY_URL` configured, a caller that passes `params = { appid: 'x' }` makes
`owFetch` issue a request that carries the parameter `appid=x`. -/
theorem owFetch_proxy_request_can_carry_appid :
    (Api.owFetch Ref.platform false (some ⟨none, some "/.netlify/functions/openweather-proxy"⟩)
      "/data/2.5/weather" [("appid", some "x")] none).result.toOption.map
        (fun u => SearchParams.get "appid" u.searchParams) = some (some "x") := by
  decide

/-- With a usable key the check of `api.js` passes like the check of `app.js`: without an
event, giving the key. -/
theorem Api.getKey_of_usable_key (gss : Bool) (cfg : Option Config) (k : String)
    (hk : configKey cfg = some k) (hne : k ≠ "") :
    Api.getKey gss cfg = ⟨.ok (some k), []⟩ := by
  simp [Api.getKey, hk, truthyStr, hne]

/-- With `PROXY_URL` set the check of `api.js` passes, with or without a key. -/
theorem Api.getKey_of_proxy (gss : Bool) (cfg : Option Config)
    (hp : truthyStr (configProxy cfg) = true) :
    Api.getKey gss cfg = ⟨.ok (configKey cfg), []⟩ := by
  simp [Api.getKey, hp]

/-- With the check of `app.js` in force, `PROXY_URL` set and no `OPENWEATHER_KEY`:
`getWeather` rejects with `Missing API key` after showing the missing-key status, without any
request, although `owFetch` under the same configuration issues its request through the
proxy. -/
theorem getWeather_missing_key_despite_proxy :
    (App.getWeather Ref.platform false
      (some ⟨none, some "/.netlify/functions/openweather-proxy"⟩) [] ⟨50, 60⟩
      ⟨.response 200 (some (.str "sunny")), .timeout, .timeout⟩ 51 0).result =
        .error (.error "Missing API key") ∧
    (App.getWeather Ref.platform false
      (some ⟨none, some "/.netlify/functions/openweather-proxy"⟩) [] ⟨50, 60⟩
      ⟨.response 200 (some (.str "sunny")), .timeout, .timeout⟩ 51 0).events =
        [.setStatus missingKeyStatus "error"] ∧
    (Api.owFetch Ref.platform false
      (some ⟨none, some "/.netlify/functions/openweather-proxy"⟩) "/data/2.5/weather"
      (App.coordParams Ref.platform 51 0) (some 6000)).result =
        .ok ⟨"https:", "", "", "weather.example", "/.netlify/functions/openweather-proxy",
          [("path", "/data/2.5/weather"), ("lat", "51"), ("lon", "0")], ""⟩ :=
  ⟨rfl, rfl, rfl⟩

/-- C10, as the code has it: let `PROXY_URL` resolve to a URL without query parameters of its
own, the path be non-empty, `params` have no key named `path`, and the server key equal the
non-empty client key. Then `owFetch` in proxy mode issues one request whose query has
distinct names; and for every object `qsp` holding exactly the entries of that query (in any
order), the URL the handler builds from `qsp` exists exactly when the URL of the direct call
does, and has the same origin, the same path, the same other components and the same set of
query parameters as the URL `owFetch` requests in direct mode. -/
theorem proxy_upstream_matches_direct (P : Platform) (gss : Bool) (cfgP cfgD : Option Config)
    (path : String) (params : List (String × Option String)) (options : Option Nat)
    (key : String) (pu : URL)
    (hproxy : truthyStr (configProxy cfgP) = true)
    (hpu : P.resolveURL ((configProxy cfgP).getD "") P.locationOrigin = some pu)
    (hpq : pu.searchParams = [])
    (hnoproxy : truthyStr (configProxy cfgD) = false)
    (hkey : configKey cfgD = some key) (hkne : key ≠ "")
    (hpath : path ≠ "")
    (hparams : ∀ p ∈ params, p.1 ≠ "path") :
    ∃ sent : URL,
      (Api.owFetch P gss cfgP path params options).events =
        [.fetch sent (some (Api.timeoutOf options))] ∧
      (sent.searchParams.map Prod.fst).Nodup ∧
      ∀ qsp : List (String × String), (qsp.map Prod.fst).Nodup →
        (∀ kv, kv ∈ qsp ↔ kv ∈ sent.searchParams) →
        (Proxy.upstreamURL P key (some qsp) = none →
          (Api.owFetch P gss cfgD path params options).result = .error .invalidURL) ∧
        (∀ up, Proxy.upstreamURL P key (some qsp) = some up →
          ∃ d, (Api.owFetch P gss cfgD path params options).events =
              [.fetch d (some (Api.timeoutOf options))] ∧
            up.origin = d.origin ∧ up.pathname = d.pathname ∧
            { up with searchParams := [] } = { d with searchParams := [] } ∧
            ∀ kv, kv ∈ up.searchParams ↔ kv ∈ d.searchParams) := by
  have hsent : Api.owFetch P gss cfgP path params options =
      ⟨.ok { pu with searchParams := Api.setParams params [("path", path)] },
        [.fetch { pu with searchParams := Api.setParams params [("path", path)] }
          (some (Api.timeoutOf options))]⟩ := by
    unfold Api.owFetch
    simp [hproxy, hpu, hpq, SearchParams.set, Api.fetchWithTimeout]
  have hg : Api.getKey gss cfgD = ⟨.ok (some key), []⟩ := by
    simp [Api.getKey, hkey, truthyStr, hkne]
  have hdnone : P.parseURL ("https://api.openweathermap.org" ++ path) = none →
      Api.owFetch P gss cfgD path params options = ⟨.error .invalidURL, []⟩ := by
    intro h
    unfold Api.owFetch
    simp only [hnoproxy, hg, h]
    rfl
  have hdsome : ∀ url, P.parseURL ("https://api.openweathermap.org" ++ path) = some url →
      Api.owFetch P gss cfgD path params options =
        Step.mk
          (.ok { url with
            searchParams := SearchParams.set "appid" key (Api.setParams params url.searchParams) })
          [Event.fetch
            { url with
              searchParams :=
                SearchParams.set "appid" key (Api.setParams params url.searchParams) }
            (some (Api.timeoutOf options))] := by
    intro url h
    unfold Api.owFetch
    simp only [hnoproxy, hg, h]
    simp [Api.fetchWithTimeout]
  have hnopath : SearchParams.lastValue "path" (Api.definedParams params) = none := by
    rw [SearchParams.lastValue_eq_none]
    intro v hv
    exact hparams _ ((Api.mem_definedParams params "path" v).mp hv) rfl
  refine ⟨_, congrArg Step.events hsent, ?_, ?_⟩
  · show ((Api.setParams params [("path", path)]).map Prod.fst).Nodup
    rw [Api.setParams_eq]
    exact SearchParams.nodup_foldl_set _ _ (by simp)
  · intro qsp hnd hmem
    have hmem2 : ∀ k v, (k, v) ∈ qsp ↔
        SearchParams.lastValue k (Api.definedParams params) = some v ∨
          (SearchParams.lastValue k (Api.definedParams params) = none ∧
            (k, v) ∈ [("path", path)]) := by
      intro k v
      rw [hmem (k, v)]
      show (k, v) ∈ Api.setParams params [("path", path)] ↔ _
      rw [Api.setParams_eq, SearchParams.mem_foldl_set]
    have hpathmem : ("path", path) ∈ qsp :=
      (hmem2 "path" path).mpr (Or.inr ⟨hnopath, List.mem_singleton.mpr rfl⟩)
    have hpathOf : Proxy.pathOf qsp = path := by
      simp [Proxy.pathOf, SearchParams.get_of_mem "path" path qsp hnd hpathmem, hpath]
    have hnd2 : ((SearchParams.delete "path" qsp).map Prod.fst).Nodup :=
      hnd.sublist (List.Sublist.map _ (List.filter_sublist _))
    have hlast : ∀ k, SearchParams.lastValue k (SearchParams.delete "path" qsp) =
        SearchParams.lastValue k (Api.definedParams params) := by
      intro k
      apply Option.ext
      intro v
      rw [Option.mem_def, Option.mem_def, SearchParams.lastValue_eq_some k v _ hnd2]
      unfold SearchParams.delete
      rw [List.mem_filter, hmem2 k v]
      constructor
      · rintro ⟨h | h, hne⟩
        · exact h
        · exfalso
          have hk : k = "path" := (Prod.mk.inj (List.mem_singleton.mp h.2)).1
          simp [hk] at hne
      · intro h
        refine ⟨Or.inl h, ?_⟩
        have hk : k ≠ "path" := fun e => by
          rw [e, hnopath] at h
          cases h
        simpa using hk
    have hup : Proxy.upstreamURL P key (some qsp) =
        match P.parseURL ("https://api.openweathermap.org" ++ path) with
        | none => none
        | some url =>
          some { url with
            searchParams := SearchParams.set "appid" key
              ((SearchParams.delete "path" qsp).foldl
                (fun acc p => SearchParams.set p.1 p.2 acc) url.searchParams) } := by
      unfold Proxy.upstreamURL
      simp only [Option.getD_some, hpathOf]
    rw [hup]
    cases hparse : P.parseURL ("https://api.openweathermap.org" ++ path) with
    | none =>
      refine ⟨fun _ => by rw [hdnone hparse], fun up hupe => ?_⟩
      cases hupe
    | some url =>
      rw [hdsome url hparse]
      refine ⟨fun h => (by cases h), ?_⟩
      intro up hupe
      simp only [Option.some.injEq] at hupe
      subst hupe
      refine ⟨_, rfl, rfl, rfl, rfl, ?_⟩
      rintro ⟨k, v⟩
      show (k, v) ∈ SearchParams.set "appid" key _ ↔ (k, v) ∈ SearchParams.set "appid" key _
      rw [SearchParams.mem_set, SearchParams.mem_set, SearchParams.mem_foldl_set, hlast,
        Api.setParams_eq, SearchParams.mem_foldl_set]

/-- The two routes for `owFetch('/data/2.5/weather', { lat: 51, lon: 0 })` on the reference
platform, the handler being handed the query as sent. -/
theorem proxy_upstream_matches_direct_witness :
    ∃ sent : URL,
      (Api.owFetch Ref.platform false
        (some ⟨none, some "/.netlify/functions/openweather-proxy"⟩) "/data/2.5/weather"
        [("lat", some "51"), ("lon", some "0")] none).events =
          [.fetch sent (some (Api.timeoutOf none))] ∧
      ∀ up, Proxy.upstreamURL Ref.platform "k" (some sent.searchParams) = some up →
        ∃ d, (Api.owFetch Ref.platform false (some ⟨some "k", none⟩) "/data/2.5/weather"
            [("lat", some "51"), ("lon", some "0")] none).events =
              [.fetch d (some (Api.timeoutOf none))] ∧
          up.origin = d.origin ∧ up.pathname = d.pathname ∧
          { up with searchParams := [] } = { d with searchParams := [] } ∧
          ∀ kv, kv ∈ up.searchParams ↔ kv ∈ d.searchParams :=
  match proxy_upstream_matches_direct Ref.platform false
    (some ⟨none, some "/.netlify/functions/openweather-proxy"⟩) (some ⟨some "k", none⟩)
    "/data/2.5/weather" [("lat", some "51"), ("lon", some "0")] none "k"
    ⟨"https:", "", "", "weather.example", "/.netlify/functions/openweather-proxy", [], ""⟩
    (by decide) (by decide) rfl (by decide) rfl (by decide) (by decide) (by decide) with
  | ⟨sent, hev, hnd, h⟩ => ⟨sent, hev, (h sent.searchParams hnd (fun _ => Iff.rfl)).2⟩

/-- With `PROXY_URL = '/.netlify/functions/openweather-proxy?units=metric'` the handler is
handed `units=metric` along with the path and the parameters, and the upstream URL it builds
carries a query parameter that the URL of the direct call does not have. -/
theorem proxy_forwards_query_of_proxy_url :
    ((Api.owFetch Ref.platform false
        (some ⟨none, some "/.netlify/functions/openweather-proxy?units=metric"⟩)
        "/data/2.5/weather" [("lat", some "51")] none).result.toOption.bind
      (fun sent => Proxy.upstreamURL Ref.platform "k" (some sent.searchParams))).map
        URL.searchParams = some [("units", "metric"), ("lat", "51"), ("appid", "k")] ∧
    (Api.owFetch Ref.platform false (some ⟨some "k", none⟩)
        "/data/2.5/weather" [("lat", some "51")] none).result.toOption.map
        URL.searchParams = some [("lat", "51"), ("appid", "k")] ∧
    ¬ (∀ kv : String × String,
        kv ∈ [("units", "metric"), ("lat", "51"), ("appid", "k")] ↔
          kv ∈ [("lat", "51"), ("appid", "k")]) :=
  ⟨by decide, by decide,
    fun h => absurd ((h ("units", "metric")).mp (by decide)) (by decide)⟩

/-! ## Properties of the proxy handler -/

/-- After `set(k, v)` exactly one pair is named `k`, and it carries `v`. -/
theorem SearchParams.filter_set (k v : String) (q : SearchParams) :
    (SearchParams.set k v q).filter (fun p => p.1 = k) = [(k, v)] := by
  induction q with
  | nil => simp [SearchParams.set]
  | cons p rest ih =>
    obtain ⟨a, b⟩ := p
    by_cases ha : a = k
    · subst ha
      simp only [SearchParams.set, if_true]
      rw [List.filter_cons_of_pos (by simp), List.filter_filter]
      simp
    · simp only [SearchParams.set, ha, if_false]
      rw [List.filter_cons_of_neg (by simpa using ha)]
      exact ih

/-- C11 at the failing input: for the incoming query `path=@evil.example/steal` the handler
fetches a URL whose host is `evil.example`, not `api.openweathermap.org`, and that URL
carries the server key as `appid`. -/
theorem handler_fetches_foreign_host :
    (Proxy.handler Ref.platform (some "SERVERKEY") (some [("path", "@evil.example/steal")])
      (.throws "unreachable")).events =
      [.fetch ⟨"https:", "api.openweathermap.org", "", "evil.example", "/steal",
        [("appid", "SERVERKEY")], ""⟩ none] ∧
    (Proxy.upstreamURL Ref.platform "SERVERKEY" (some [("path", "@evil.example/steal")])).map
      URL.host = some "evil.example" :=
  ⟨rfl, by decide⟩

/-- C12, as the code has it: for every incoming query, the URL the handler builds exists
exactly when `new URL` accepts the target, and then (1) exactly one of its parameters is named
`appid` and its value is the server key, whatever `appid` the client sent; (2) the incoming
`path` parameter is not copied by the loop: the URL has a parameter `path` with value `v`
exactly when `new URL` itself found that pair in the query of the target string; (3) every
incoming parameter named neither `path` nor `appid` is in the URL with its value (the incoming
parameters are the entries of an object, so their names are distinct). -/
theorem upstream_query_parameters (P : Platform) (key : String)
    (qsp : Option (List (String × String))) :
    (Proxy.upstreamURL P key qsp = none ↔
      P.parseURL ("https://api.openweathermap.org" ++ Proxy.pathOf (qsp.getD [])) = none) ∧
    ∀ up, Proxy.upstreamURL P key qsp = some up →
      up.searchParams.filter (fun p => p.1 = "appid") = [("appid", key)] ∧
      (∀ v, ("path", v) ∈ up.searchParams ↔
        ∃ url, P.parseURL ("https://api.openweathermap.org" ++ Proxy.pathOf (qsp.getD [])) =
          some url ∧ ("path", v) ∈ url.searchParams) ∧
      (((qsp.getD []).map Prod.fst).Nodup →
        ∀ k v, (k, v) ∈ qsp.getD [] → k ≠ "path" → k ≠ "appid" → (k, v) ∈ up.searchParams) := by
  unfold Proxy.upstreamURL
  cases hparse : P.parseURL ("https://api.openweathermap.org" ++ Proxy.pathOf (qsp.getD [])) with
  | none => simp [hparse]
  | some url =>
    simp only [hparse]
    refine ⟨by simp, ?_⟩
    intro up hup
    simp only [Option.some.injEq] at hup
    subst hup
    refine ⟨SearchParams.filter_set _ _ _, ?_, ?_⟩
    · intro v
      constructor
      · intro hv
        refine ⟨url, rfl, ?_⟩
        have h1 := (SearchParams.mem_set "appid" key _ "path" v).mp hv
        rcases h1 with h1 | h1
        · exact absurd h1.1 (by decide)
        · rcases (SearchParams.mem_foldl_set _ _ "path" v).mp h1.2 with h2 | h2
          · have h3 := SearchParams.lastValue_mem "path" v _ h2
            unfold SearchParams.delete at h3
            have h4 := (List.mem_filter.mp h3).2
            simp at h4
          · exact h2.2
      · rintro ⟨url2, hurl2, hv⟩
        simp only [Option.some.injEq] at hurl2
        subst hurl2
        apply (SearchParams.mem_set "appid" key _ "path" v).mpr
        refine Or.inr ⟨by decide, ?_⟩
        apply (SearchParams.mem_foldl_set _ _ "path" v).mpr
        refine Or.inr ⟨?_, hv⟩
        rw [SearchParams.lastValue_eq_none]
        intro v2 hm
        unfold SearchParams.delete at hm
        have h4 := (List.mem_filter.mp hm).2
        simp at h4
    · intro hnd k v hm hk1 hk2
      apply (SearchParams.mem_set "appid" key _ k v).mpr
      refine Or.inr ⟨hk2, ?_⟩
      apply (SearchParams.mem_foldl_set _ _ k v).mpr
      left
      have hnd2 : ((SearchParams.delete "path" (qsp.getD [])).map Prod.fst).Nodup :=
        hnd.sublist (List.Sublist.map _ (List.filter_sublist _))
      rw [SearchParams.lastValue_eq_some k v _ hnd2]
      unfold SearchParams.delete
      exact List.mem_filter.mpr ⟨hm, by simpa using hk1⟩

/-- A request for London with an `appid` of the client, on the reference platform: the
upstream URL has the server key as its only `appid` and carries `q`. -/
theorem upstream_query_parameters_witness :
    (Proxy.upstreamURL Ref.platform "SERVERKEY"
      (some [("path", "/geo/1.0/direct"), ("appid", "mine"), ("q", "London")])).map
        (fun up => up.searchParams.filter (fun p => p.1 = "appid")) =
      some [("appid", "SERVERKEY")] ∧
    ("q", "London") ∈ (⟨"https:", "", "", "api.openweathermap.org", "/geo/1.0/direct",
      [("appid", "SERVERKEY"), ("q", "London")], ""⟩ : URL).searchParams :=
  ⟨congrArg some
      ((upstream_query_parameters Ref.platform "SERVERKEY"
        (some [("path", "/geo/1.0/direct"), ("appid", "mine"), ("q", "London")])).2
        ⟨"https:", "", "", "api.openweathermap.org", "/geo/1.0/direct",
          [("appid", "SERVERKEY"), ("q", "London")], ""⟩ rfl).1,
    ((upstream_query_parameters Ref.platform "SERVERKEY"
      (some [("path", "/geo/1.0/direct"), ("appid", "mine"), ("q", "London")])).2
      ⟨"https:", "", "", "api.openweathermap.org", "/geo/1.0/direct",
        [("appid", "SERVERKEY"), ("q", "London")], ""⟩ rfl).2.2 (by decide)
      "q" "London" (by decide) (by decide) (by decide)⟩

/-- A target that brings its own query: for the incoming parameters
`path=/data/2.5/weather?path=/etc&lat=1` and `lon=2` the upstream URL carries a query
parameter named `path`, with the value `/etc`. -/
theorem upstream_carries_path_parameter :
    (Proxy.upstreamURL Ref.platform "SERVERKEY"
      (some [("path", "/data/2.5/weather?path=/etc&lat=1"), ("lon", "2")])).map
        URL.searchParams =
      some [("path", "/etc"), ("lat", "1"), ("lon", "2"), ("appid", "SERVERKEY")] ∧
    (Proxy.handler Ref.platform (some "SERVERKEY")
      (some [("path", "/data/2.5/weather?path=/etc&lat=1"), ("lon", "2")])
      (.response 200 none "")).events =
      [.fetch ⟨"https:", "", "", "api.openweathermap.org", "/data/2.5/weather",
        [("path", "/etc"), ("lat", "1"), ("lon", "2"), ("appid", "SERVERKEY")], ""⟩ none] :=
  ⟨by decide, rfl⟩

/-- C17, as the code has it: without a server key the handler replies 500 with the
missing-key body and makes no request, and that reply occurs in no other case; with a key,
when `new URL` rejects the target the handler throws before any request and gives no reply;
otherwise it makes exactly one request and replies 502 with the `Bad gateway` body when the
fetch throws, and with the upstream status code (whatever it is) and the upstream text
unchanged when there is a response. -/
theorem handler_reply_classified (P : Platform) (envKey : Option String)
    (qsp : Option (List (String × String))) (up : Proxy.Upstream) :
    ((Proxy.handler P envKey qsp up).result =
        .ok ⟨500, none, .json [("error", "Server missing OPENWEATHER_KEY")]⟩ ↔
      truthyStr envKey = false) ∧
    (truthyStr envKey = false → (Proxy.handler P envKey qsp up).events = []) ∧
    (truthyStr envKey = true → Proxy.upstreamURL P (envKey.getD "") qsp = none →
      Proxy.handler P envKey qsp up = ⟨.error .invalidURL, []⟩) ∧
    (truthyStr envKey = true → ∀ url, Proxy.upstreamURL P (envKey.getD "") qsp = some url →
      (Proxy.handler P envKey qsp up).events = [.fetch url none] ∧
      (∀ err, up = .throws err →
        (Proxy.handler P envKey qsp up).result =
          .ok ⟨502, none, .json [("error", "Bad gateway"), ("detail", err)]⟩) ∧
      (∀ status contentType text, up = .response status contentType text →
        ∃ ct, (Proxy.handler P envKey qsp up).result = .ok ⟨status, some ct, .text text⟩)) := by
  unfold Proxy.handler
  by_cases hk : truthyStr envKey = true
  · simp only [hk, Bool.not_true, Bool.false_eq_true, if_false]
    refine ⟨?_, by simp, ?_, ?_⟩
    · cases Proxy.upstreamURL P (envKey.getD "") qsp with
      | none => simp
      | some url => cases up <;> simp
    · intro _ h
      simp [h]
    · intro _ url h
      simp only [h]
      cases up with
      | response status contentType text =>
        refine ⟨rfl, fun err he => (by cases he), fun s c t he => ?_⟩
        cases he
        exact ⟨_, rfl⟩
      | throws err =>
        refine ⟨rfl, fun e he => ?_, fun s c t he => (by cases he)⟩
        cases he
        rfl
  · simp only [Bool.not_eq_true] at hk
    simp [hk]

/-- With the server key present, an upstream answer of status 500 or 502 makes the handler
reply 500 or 502; and for the target `@`, which `new URL` rejects, the handler throws and
replies nothing. -/
theorem handler_status_overlaps_and_can_throw :
    (Proxy.handler Ref.platform (some "SERVERKEY") none
      (.response 500 (some "text/plain") "upstream down")).result =
        .ok ⟨500, some "text/plain", .text "upstream down"⟩ ∧
    (Proxy.handler Ref.platform (some "SERVERKEY") none
      (.response 502 none "bad gateway upstream")).result =
        .ok ⟨502, some "application/json", .text "bad gateway upstream"⟩ ∧
    (Proxy.handler Ref.platform (some "SERVERKEY") (some [("path", "@")])
      (.response 200 none "ok")).result = .error .invalidURL :=
  ⟨rfl, rfl, rfl⟩

/-! ## Properties of `geocode` and of the cache keys -/

/-- C15: on a cache miss of `geocode(city)` whose request is answered (with a JSON body when
the status is a success), an error is raised if and only if the status is outside 200 to 299;
it is then `Geocoding error` and nothing is cached. For a success status the parsed body is
returned unchanged, an empty list like any other, and is cached for 86400000 ms under
`'geocode:' + city`, the input string exactly as given. -/
theorem geocode_miss (P : Platform) (gss : Bool) (cfg : Option Config) (c : Cache)
    (clk : Clock) (city : String) (u : URL) (status : Nat) (body : Option Json) (data : Json)
    (hmiss : (c.get clk.atGet (App.geocodeKey city)).1.filter Json.truthy = none)
    (hreq : (Api.owFetch P gss cfg "/geo/1.0/direct" (App.geocodeParams P city)
      none).result = .ok u)
    (hbody : 200 ≤ status ∧ status ≤ 299 → body = some data) :
    ((∃ e, (App.geocode P gss cfg c clk (.response status body) city).result = .error e) ↔
      ¬ (200 ≤ status ∧ status ≤ 299)) ∧
    (¬ (200 ≤ status ∧ status ≤ 299) →
      (App.geocode P gss cfg c clk (.response status body) city).result =
        .error (.error "Geocoding error") ∧
      (App.geocode P gss cfg c clk (.response status body) city).events.filter
        Event.isCacheSet = []) ∧
    (200 ≤ status ∧ status ≤ 299 →
      (App.geocode P gss cfg c clk (.response status body) city).result = .ok data ∧
      Event.cacheSet ("geocode:" ++ city) data 86400000 ∈
        (App.geocode P gss cfg c clk (.response status body) city).events ∧
      (App.geocode P gss cfg c clk (.response status body) city).cache.entry
        ("geocode:" ++ city) = some ⟨data, clk.atSet + 86400000⟩) := by
  have hev := (Api.owFetch_events P gss cfg "/geo/1.0/direct" (App.geocodeParams P city)
    none).1 u hreq
  by_cases hok : 200 ≤ status ∧ status ≤ 299
  · have hrun : App.geocode P gss cfg c clk (.response status body) city =
        ⟨.ok data, (c.get clk.atGet (App.geocodeKey city)).2.set clk.atSet
            (App.geocodeKey city) data (24 * 60 * 60 * 1000),
          [.fetch u (some (Api.timeoutOf none))] ++
            [.cacheSet (App.geocodeKey city) data (24 * 60 * 60 * 1000)], none⟩ := by
      unfold App.geocode
      simp only [hmiss, hreq, hev, hbody hok, FetchOutcome.settle, Response.ok, Response.parse,
        hok]
      simp
    rw [hrun]
    refine ⟨?_, fun h => absurd hok h, fun _ => ⟨rfl, ?_, ?_⟩⟩
    · constructor
      · rintro ⟨e, he⟩
        cases he
      · intro h
        exact absurd hok h
    · simp [App.geocodeKey]
    · exact Cache.entry_set _ _ _ _ _
  · have hrun : App.geocode P gss cfg c clk (.response status body) city =
        ⟨.error (.error "Geocoding error"), (c.get clk.atGet (App.geocodeKey city)).2,
          [.fetch u (some (Api.timeoutOf none))], none⟩ := by
      unfold App.geocode
      simp only [hmiss, hreq, hev, FetchOutcome.settle, Response.ok, hok]
      simp
    rw [hrun]
    refine ⟨⟨fun _ => hok, fun _ => ⟨_, rfl⟩⟩, fun _ => ⟨rfl, ?_⟩, fun h => absurd h hok⟩
    simp [Event.isCacheSet]

/-- A search for `' Nowhere'` answered with an empty list, on the reference platform. -/
theorem geocode_miss_witness :
    (App.geocode Ref.platform false (some ⟨some "k", none⟩) [] ⟨50, 60⟩
      (.response 200 (some (.arr []))) " Nowhere").result = .ok (.arr []) ∧
    (App.geocode Ref.platform false (some ⟨some "k", none⟩) [] ⟨50, 60⟩
      (.response 200 (some (.arr []))) " Nowhere").cache.entry ("geocode:" ++ " Nowhere") =
        some ⟨.arr [], 60 + 86400000⟩ :=
  match (geocode_miss Ref.platform false (some ⟨some "k", none⟩) [] ⟨50, 60⟩ " Nowhere"
    ⟨"https:", "", "", "api.openweathermap.org", "/geo/1.0/direct",
      [("q", " Nowhere"), ("limit", "5"), ("appid", "k")], ""⟩ 200 (some (.arr [])) (.arr [])
    rfl rfl (fun _ => rfl)).2.2 (by decide) with
  | ⟨h1, _, h3⟩ => ⟨h1, h3⟩

/-- No digit character is a comma. -/
theorem digitChar_ne_comma (n : Nat) : Nat.digitChar n ≠ ',' := by
  by_cases h : n < 16
  · interval_cases n <;> decide
  · unfold Nat.digitChar
    rw [if_neg (by omega), if_neg (by omega), if_neg (by omega), if_neg (by omega),
      if_neg (by omega), if_neg (by omega), if_neg (by omega), if_neg (by omega),
      if_neg (by omega), if_neg (by omega), if_neg (by omega), if_neg (by omega),
      if_neg (by omega), if_neg (by omega), if_neg (by omega), if_neg (by omega)]
    decide

/-- Printing digits in front of a text without comma gives a text without comma. -/
theorem toDigitsCore_no_comma (f : Nat) : ∀ (n : Nat) (l : List Char), ',' ∉ l →
    ',' ∉ Nat.toDigitsCore 10 f n l := by
  induction f with
  | zero =>
    intro n l h
    simpa [Nat.toDigitsCore] using h
  | succ f ih =>
    intro n l h
    simp only [Nat.toDigitsCore]
    split
    · intro hm
      rcases List.mem_cons.mp hm with e | e
      · exact digitChar_ne_comma _ e.symm
      · exact h e
    · apply ih
      intro hm
      rcases List.mem_cons.mp hm with e | e
      · exact digitChar_ne_comma _ e.symm
      · exact h e

/-- The decimal numeral of a natural number has no comma. -/
theorem repr_no_comma (n : Nat) : ',' ∉ (Nat.repr n).data := by
  simp only [Nat.repr, Nat.toDigits, List.asString]
  exact toDigitsCore_no_comma _ _ _ (by simp)

/-- Three padded digits have no comma. -/
theorem pad3_no_comma (r : Nat) : ',' ∉ (pad3 r).data := by
  have h := repr_no_comma r
  unfold pad3
  split
  · simpa [String.data_append] using h
  · split
    · simpa [String.data_append] using h
    · exact h

/-- On a platform whose `String(x)` never prints a comma, `toFixed(3)` prints none. -/
theorem toFixed3_no_comma (P : Platform) (hP : ∀ x, ',' ∉ (P.numToString x).data) (x : ℚ) :
    ',' ∉ (toFixed3 P x).data := by
  have h1 := hP |x|
  have h2 := repr_no_comma ((2000 * x.num.natAbs + x.den) / (2 * x.den) / 1000)
  have h3 := pad3_no_comma ((2000 * x.num.natAbs + x.den) / (2 * x.den) % 1000)
  unfold toFixed3
  dsimp only
  split_ifs <;> simp [String.data_append, h1, h2, h3]

/-- Two texts without comma, each followed by a comma and a rest, agree only when the texts
and the rests agree. -/
theorem append_comma_inj : ∀ (a a2 b b2 : List Char), ',' ∉ a → ',' ∉ a2 →
    a ++ ',' :: b = a2 ++ ',' :: b2 → a = a2 ∧ b = b2 := by
  intro a
  induction a with
  | nil =>
    intro a2 b b2 _ h2 h
    cases a2 with
    | nil => simpa using h
    | cons c r =>
      simp only [List.nil_append, List.cons_append, List.cons.injEq] at h
      exact absurd (List.mem_cons.mpr (Or.inl h.1)) h2
  | cons x xs ih =>
    intro a2 b b2 h1 h2 h
    cases a2 with
    | nil =>
      simp only [List.nil_append, List.cons_append, List.cons.injEq] at h
      exact absurd (List.mem_cons.mpr (Or.inl h.1.symm)) h1
    | cons c r =>
      simp only [List.cons_append, List.cons.injEq] at h
      have := ih r b b2 (fun hm => h1 (List.mem_cons_of_mem _ hm))
        (fun hm => h2 (List.mem_cons_of_mem _ hm)) h.2
      exact ⟨by rw [h.1, this.1], this.2⟩

/-- The fractional digits printed by the reference platform have no comma. -/
theorem Ref.fracDigits_no_comma (fuel : Nat) : ∀ r den : Nat,
    ',' ∉ Ref.fracDigits fuel r den := by
  induction fuel with
  | zero =>
    intro r den
    simp [Ref.fracDigits]
  | succ fuel ih =>
    intro r den
    unfold Ref.fracDigits
    split
    · simp
    · intro hm
      rcases List.mem_cons.mp hm with e | e
      · exact digitChar_ne_comma _ e.symm
      · exact ih _ _ e

/-- The reference platform never prints a comma in a number. -/
theorem Ref.numToString_no_comma (x : ℚ) : ',' ∉ (Ref.platform.numToString x).data := by
  have h1 := Ref.fracDigits_no_comma 20 (x.num.natAbs % x.den) x.den
  have h2 := repr_no_comma (x.num.natAbs / x.den)
  show ',' ∉ (Ref.numToString x).data
  unfold Ref.numToString
  by_cases hs : x.num < 0 <;>
    by_cases hf : Ref.fracDigits 20 (x.num.natAbs % x.den) x.den = [] <;>
    simp [hs, hf, String.data_append, h1, h2]

/-- The character of a decimal digit has that digit as its value. -/
theorem digitChar_value (k : Nat) (h : k < 10) : (Nat.digitChar k).toNat - 48 = k := by
  interval_cases k <;> rfl

/-- No decimal digit is a point. -/
theorem digitChar_ne_point (k : Nat) (h : k < 10) : Nat.digitChar k ≠ '.' := by
  interval_cases k <;> decide

/-- No decimal digit is a minus sign. -/
theorem digitChar_ne_minus (k : Nat) (h : k < 10) : Nat.digitChar k ≠ '-' := by
  interval_cases k <;> decide

/-- Printing `n` in front of a text prints a text that denotes `n` shifted past it. -/
theorem decimalValue_toDigitsCore (fuel : Nat) : ∀ (n : Nat) (ds : List Char), n < fuel →
    decimalValue (Nat.toDigitsCore 10 fuel n ds) = n * 10 ^ ds.length + decimalValue ds := by
  induction fuel with
  | zero =>
    intro n ds h
    omega
  | succ fuel ih =>
    intro n ds h
    simp only [Nat.toDigitsCore]
    split
    · rename_i h0
      have hn : n % 10 = n := Nat.mod_eq_of_lt (by omega)
      rw [hn]
      simp only [decimalValue, digitChar_value n (by omega)]
    · rename_i h0
      have hlt : n / 10 < fuel := by omega
      rw [ih (n / 10) _ hlt]
      simp only [decimalValue, List.length_cons,
        digitChar_value (n % 10) (Nat.mod_lt _ (by decide))]
      have hn : n = 10 * (n / 10) + n % 10 := (Nat.div_add_mod n 10).symm
      rw [pow_succ]
      nth_rewrite 3 [hn]
      ring

/-- The decimal numeral of a natural number denotes it. -/
theorem decimalValue_repr (n : Nat) : decimalValue (Nat.repr n).data = n := by
  simp only [Nat.repr, Nat.toDigits, List.asString]
  rw [decimalValue_toDigitsCore (n + 1) n [] (by omega)]
  simp [decimalValue]

/-- Different natural numbers have different numerals. -/
theorem repr_injective (a b : Nat) (h : Nat.repr a = Nat.repr b) : a = b := by
  rw [← decimalValue_repr a, ← decimalValue_repr b, h]

/-- Three padded digits denote the number padded. -/
theorem decimalValue_pad3 (r : Nat) : decimalValue (pad3 r).data = r := by
  have h := decimalValue_repr r
  unfold pad3
  split
  · simpa [String.data_append, decimalValue] using h
  · split
    · simpa [String.data_append, decimalValue] using h
    · exact h

/-- Printing digits in front of a text adds no character that is not a digit. -/
theorem toDigitsCore_avoids (q : Char) (hq : ∀ k, k < 10 → Nat.digitChar k ≠ q) (fuel : Nat) :
    ∀ (n : Nat) (l : List Char), q ∉ l → q ∉ Nat.toDigitsCore 10 fuel n l := by
  induction fuel with
  | zero =>
    intro n l h
    simpa [Nat.toDigitsCore] using h
  | succ fuel ih =>
    intro n l h
    have hd : ¬ q ∈ Nat.digitChar (n % 10) :: l := by
      intro hm
      rcases List.mem_cons.mp hm with e | e
      · exact hq _ (Nat.mod_lt _ (by decide)) e.symm
      · exact h e
    simp only [Nat.toDigitsCore]
    split
    · exact hd
    · exact ih _ _ hd

/-- A numeral holds no character that is not a digit. -/
theorem repr_avoids (q : Char) (hq : ∀ k, k < 10 → Nat.digitChar k ≠ q) (n : Nat) :
    q ∉ (Nat.repr n).data := by
  simp only [Nat.repr, Nat.toDigits, List.asString]
  exact toDigitsCore_avoids q hq _ _ _ (by simp)

/-- Two texts without a separator, each followed by the separator and a rest, agree only
when the texts and the rests agree. -/
theorem append_sep_inj (sep : Char) : ∀ (a a2 b b2 : List Char), sep ∉ a → sep ∉ a2 →
    a ++ sep :: b = a2 ++ sep :: b2 → a = a2 ∧ b = b2 := by
  intro a
  induction a with
  | nil =>
    intro a2 b b2 _ h2 h
    cases a2 with
    | nil => simpa using h
    | cons c r =>
      simp only [List.nil_append, List.cons_append, List.cons.injEq] at h
      exact absurd (List.mem_cons.mpr (Or.inl h.1)) h2
  | cons x xs ih =>
    intro a2 b b2 h1 h2 h
    cases a2 with
    | nil =>
      simp only [List.nil_append, List.cons_append, List.cons.injEq] at h
      exact absurd (List.mem_cons.mpr (Or.inl h.1.symm)) h1
    | cons c r =>
      simp only [List.cons_append, List.cons.injEq] at h
      have := ih r b b2 (fun hm => h1 (List.mem_cons_of_mem _ hm))
        (fun hm => h2 (List.mem_cons_of_mem _ hm)) h.2
      exact ⟨by rw [h.1, this.1], this.2⟩

/-- A sign, a numeral, a point and three padded digits determine the sign and the number. -/
theorem fixed_inj (neg neg2 : Bool) (n n2 : Nat)
    (h : (if neg then "-" else "") ++ Nat.repr (n / 1000) ++ "." ++ pad3 (n % 1000) =
      (if neg2 then "-" else "") ++ Nat.repr (n2 / 1000) ++ "." ++ pad3 (n2 % 1000)) :
    neg = neg2 ∧ n = n2 := by
  have hd0 := congrArg String.data h
  have hd : ((if neg then "-" else "").data ++ (Nat.repr (n / 1000)).data) ++
      '.' :: (pad3 (n % 1000)).data =
      ((if neg2 then "-" else "").data ++ (Nat.repr (n2 / 1000)).data) ++
        '.' :: (pad3 (n2 % 1000)).data := by
    simpa [String.data_append] using hd0
  have hpt : ∀ (b : Bool) (m : Nat), '.' ∉ (if b then "-" else "").data ++ (Nat.repr m).data := by
    intro b m hm
    rcases List.mem_append.mp hm with e | e
    · cases b <;> simp at e
    · exact repr_avoids '.' digitChar_ne_point m e
  have hsplit := append_sep_inj '.' _ _ _ _ (hpt neg (n / 1000)) (hpt neg2 (n2 / 1000)) hd
  have hfrac : n % 1000 = n2 % 1000 := by
    rw [← decimalValue_pad3 (n % 1000), ← decimalValue_pad3 (n2 % 1000), hsplit.2]
  have hminus : ∀ m, '-' ∉ (Nat.repr m).data := repr_avoids '-' digitChar_ne_minus
  have hhead := hsplit.1
  have hint : neg = neg2 ∧ n / 1000 = n2 / 1000 := by
    cases neg <;> cases neg2
    · simp only [Bool.false_eq_true, if_false] at hhead
      have : (Nat.repr (n / 1000)).data = (Nat.repr (n2 / 1000)).data := by simpa using hhead
      exact ⟨rfl, repr_injective _ _ (String.ext this)⟩
    · simp only [Bool.false_eq_true, if_false, if_true] at hhead
      have : (Nat.repr (n / 1000)).data = '-' :: (Nat.repr (n2 / 1000)).data := by
        simpa using hhead
      exact absurd (this ▸ List.mem_cons_self _ _) (hminus _)
    · simp only [Bool.false_eq_true, if_false, if_true] at hhead
      have : '-' :: (Nat.repr (n / 1000)).data = (Nat.repr (n2 / 1000)).data := by
        simpa using hhead
      exact absurd (this ▸ List.mem_cons_self _ _) (hminus _)
    · simp only [if_true] at hhead
      have : (Nat.repr (n / 1000)).data = (Nat.repr (n2 / 1000)).data := by simpa using hhead
      exact ⟨rfl, repr_injective _ _ (String.ext this)⟩
  refine ⟨hint.1, ?_⟩
  rw [← Nat.div_add_mod n 1000, ← Nat.div_add_mod n2 1000, hint.2, hfrac]

/-- The integer `toFixed(3)` prints is the number of thousandths nearest to `|x|`. -/
theorem thousandths_eq (x : ℚ) :
    thousandths x = (2000 * x.num.natAbs + x.den) / (2 * x.den) := by
  unfold thousandths
  have hden : (0 : ℚ) < x.den := by exact_mod_cast x.den_pos
  have habs : |x| = (x.num.natAbs : ℚ) / x.den := by
    rw [Rat.abs_def, Rat.divInt_eq_div]
    push_cast
    rw [Nat.cast_natAbs, Int.cast_abs]
  have : |x| * 1000 + 1 / 2 = (((2000 * x.num.natAbs + x.den : ℕ)) : ℚ) / ((2 * x.den : ℕ) : ℚ) := by
    rw [habs]
    push_cast
    field_simp
    ring
  rw [this, Nat.floor_div_eq_div]

/-- The test of `toFixed` for the magnitude `10^21`. -/
theorem abs_lt_fixed_range (x : ℚ) : |x| < 10 ^ 21 ↔ ¬ 10 ^ 21 * x.den ≤ x.num.natAbs := by
  have hden : (0 : ℚ) < x.den := by exact_mod_cast x.den_pos
  have habs : |x| = (x.num.natAbs : ℚ) / x.den := by
    rw [Rat.abs_def, Rat.divInt_eq_div]
    push_cast
    rw [Nat.cast_natAbs, Int.cast_abs]
  rw [habs, div_lt_iff₀ hden, not_le]
  exact_mod_cast Iff.rfl

/-- In the range where `toFixed` prints fixed notation, two numbers print alike exactly when
they agree in being negative and in their number of thousandths. -/
theorem toFixed3_eq_iff (P : Platform) (x y : ℚ) (hx : |x| < 10 ^ 21) (hy : |y| < 10 ^ 21) :
    toFixed3 P x = toFixed3 P y ↔ ((x < 0 ↔ y < 0) ∧ thousandths x = thousandths y) := by
  have hx2 := (abs_lt_fixed_range x).mp hx
  have hy2 := (abs_lt_fixed_range y).mp hy
  have ex : toFixed3 P x = (if decide (x < 0) then "-" else "") ++
      Nat.repr (thousandths x / 1000) ++ "." ++ pad3 (thousandths x % 1000) := by
    rw [thousandths_eq]
    unfold toFixed3
    simp only [hx2, if_false, Rat.num_neg, decide_eq_true_eq]
  have ey : toFixed3 P y = (if decide (y < 0) then "-" else "") ++
      Nat.repr (thousandths y / 1000) ++ "." ++ pad3 (thousandths y % 1000) := by
    rw [thousandths_eq]
    unfold toFixed3
    simp only [hy2, if_false, Rat.num_neg, decide_eq_true_eq]
  rw [ex, ey]
  constructor
  · intro h
    have := fixed_inj _ _ _ _ h
    exact ⟨by simpa using this.1, this.2⟩
  · rintro ⟨hs, hn⟩
    rw [hn]
    have : decide (x < 0) = decide (y < 0) := by simp [hs]
    rw [this]

/-- C16: on a platform whose `String(x)` never prints a comma (as no JavaScript engine does),
the cache keys of `getWeather` for `(lat, lon)` and `(lat2, lon2)` are equal if and only if
`lat.toFixed(3)` equals `lat2.toFixed(3)` and `lon.toFixed(3)` equals `lon2.toFixed(3)`; no
key of `getWeather` equals a key of `geocode`; for coordinates of magnitude below `10^21`
(every latitude and longitude) the keys are equal if and only if the two latitudes, and
likewise the two longitudes, agree in being negative and in their value rounded to thousandths
(ties away from zero); and `toFixed(3)` prints that rounded value: the sign of `x`, the
thousandths divided by 1000, a point, and the remainder in three digits. -/
theorem weatherKey_eq_iff (P : Platform) (hP : ∀ x, ',' ∉ (P.numToString x).data)
    (lat lon lat2 lon2 : ℚ) :
    (App.weatherKey P lat lon = App.weatherKey P lat2 lon2 ↔
      toFixed3 P lat = toFixed3 P lat2 ∧ toFixed3 P lon = toFixed3 P lon2) ∧
    (∀ city : String, App.weatherKey P lat lon ≠ App.geocodeKey city) ∧
    (|lat| < 10 ^ 21 → |lon| < 10 ^ 21 → |lat2| < 10 ^ 21 → |lon2| < 10 ^ 21 →
      (App.weatherKey P lat lon = App.weatherKey P lat2 lon2 ↔
        ((lat < 0 ↔ lat2 < 0) ∧ thousandths lat = thousandths lat2) ∧
        ((lon < 0 ↔ lon2 < 0) ∧ thousandths lon = thousandths lon2))) ∧
    (∀ x : ℚ, |x| < 10 ^ 21 →
      toFixed3 P x = (if x < 0 then "-" else "") ++ Nat.repr (thousandths x / 1000) ++ "." ++
        pad3 (thousandths x % 1000)) := by
  have hkeys : App.weatherKey P lat lon = App.weatherKey P lat2 lon2 ↔
      toFixed3 P lat = toFixed3 P lat2 ∧ toFixed3 P lon = toFixed3 P lon2 := by
    constructor
    · intro h
      have hd := congrArg String.data h
      simp only [App.weatherKey, String.data_append, List.append_assoc] at hd
      have hd2 := List.append_cancel_left hd
      have hd3 := append_comma_inj _ _ _ _ (toFixed3_no_comma P hP lat)
        (toFixed3_no_comma P hP lat2) hd2
      exact ⟨String.ext hd3.1, String.ext hd3.2⟩
    · rintro ⟨h1, h2⟩
      simp [App.weatherKey, h1, h2]
  refine ⟨hkeys, ?_, ?_, ?_⟩
  · intro city h
    have hd := congrArg String.data h
    simp only [App.weatherKey, App.geocodeKey, String.data_append, List.append_assoc] at hd
    simp only [List.cons_append, List.cons.injEq] at hd
    exact absurd hd.1 (by decide)
  · intro h1 h2 h3 h4
    rw [hkeys, toFixed3_eq_iff P lat lat2 h1 h3, toFixed3_eq_iff P lon lon2 h2 h4]
  · intro x hx
    have hx2 := (abs_lt_fixed_range x).mp hx
    rw [thousandths_eq]
    unfold toFixed3
    simp only [hx2, if_false, Rat.num_neg]

/-- The keys for `(51.5074, 0)` and `(51.5071, 0)` on the reference platform are equal, and
the two latitudes have the same number of thousandths. -/
theorem weatherKey_eq_iff_witness :
    App.weatherKey Ref.platform (Rat.divInt 515074 10000) 0 =
      App.weatherKey Ref.platform (Rat.divInt 515071 10000) 0 ∧
    thousandths (Rat.divInt 515074 10000) = thousandths (Rat.divInt 515071 10000) :=
  ⟨((weatherKey_eq_iff Ref.platform Ref.numToString_no_comma (Rat.divInt 515074 10000) 0
      (Rat.divInt 515071 10000) 0).1).mpr ⟨by decide, by decide⟩,
    (((weatherKey_eq_iff Ref.platform Ref.numToString_no_comma (Rat.divInt 515074 10000) 0
      (Rat.divInt 515071 10000) 0).2.2.1 ((abs_lt_fixed_range _).mpr (by decide)) (by simp)
      ((abs_lt_fixed_range _).mpr (by decide)) (by simp)).mp
      (((weatherKey_eq_iff Ref.platform Ref.numToString_no_comma (Rat.divInt 515074 10000) 0
        (Rat.divInt 515071 10000) 0).1).mpr ⟨by decide, by decide⟩)).1.2⟩

/-! ## Properties of `loadByCoords` -/

/-- C13 at the failing input: after `loadByCoords` on a 401 from the current-conditions
request, the status element shows the generic failure message, the very message it shows
after a 500; the message about the unauthorized key was set by `getWeather` and then
overwritten by the `catch` block of `loadByCoords`. -/
theorem loadByCoords_unauthorized_message_overwritten :
    statusAfter (some ⟨"", none⟩)
      (App.loadByCoords Ref.platform false (some ⟨some "k", none⟩)
        ⟨fun _ _ => true, fun _ => true, fun _ => true, fun _ => true⟩ [] ⟨50, 60⟩
        ⟨.response 401 none, .timeout, .timeout⟩ 51 0 none).events =
      some ⟨"Failed to retrieve data. Check API key or network.", some "status error"⟩ ∧
    statusAfter (some ⟨"", none⟩)
      (App.loadByCoords Ref.platform false (some ⟨some "k", none⟩)
        ⟨fun _ _ => true, fun _ => true, fun _ => true, fun _ => true⟩ [] ⟨50, 60⟩
        ⟨.response 500 none, .timeout, .timeout⟩ 51 0 none).events =
      some ⟨"Failed to retrieve data. Check API key or network.", some "status error"⟩ ∧
    ((App.loadByCoords Ref.platform false (some ⟨some "k", none⟩)
        ⟨fun _ _ => true, fun _ => true, fun _ => true, fun _ => true⟩ [] ⟨50, 60⟩
        ⟨.response 401 none, .timeout, .timeout⟩ 51 0 none).events.drop 2) =
      [.core (.setStatus "OpenWeather API key invalid or unauthorized" "error"),
        .consoleError (some (.error "Weather API (current)")),
        .core (.setStatus "Failed to retrieve data. Check API key or network." "error")] :=
  ⟨by decide, by decide, rfl⟩

/-- The requests of `getWeather` are, in this order and each at most once, those of its three
`owFetch` calls. -/
theorem App.getWeather_requests (P : Platform) (gss : Bool) (cfg : Option Config) (c : Cache)
    (clk : Clock) (net : Net) (lat lon : ℚ) :
    ((App.getWeather P gss cfg c clk net lat lon).events.filter Event.isFetch).Sublist
      ((Api.owFetch P gss cfg "/data/2.5/weather" (App.coordParams P lat lon)
          (some 6000)).events.filter Event.isFetch ++
        (Api.owFetch P gss cfg "/data/2.5/forecast" (App.coordParams P lat lon)
          (some 8000)).events.filter Event.isFetch ++
        (Api.owFetch P gss cfg "/data/2.5/air_pollution" (App.coordParams P lat lon)
          (some 5000)).events.filter Event.isFetch) := by
  unfold App.getWeather App.getKey
  dsimp only
  repeat' split
  all_goals simp [List.filter_append, Event.isFetch, Event.isCacheSet]

/-- One call of `owFetch` issues at most one request. -/
theorem Api.owFetch_requests_le_one (P : Platform) (gss : Bool) (cfg : Option Config)
    (path : String) (params : List (String × Option String)) (options : Option Nat) :
    ((Api.owFetch P gss cfg path params options).events.filter Event.isFetch).length ≤ 1 := by
  have h := Api.owFetch_events P gss cfg path params options
  cases hr : (Api.owFetch P gss cfg path params options).result with
  | ok u => simp [h.1 u hr, Event.isFetch]
  | error e =>
    have h2 := h.2 e hr
    rw [List.filter_eq_nil_iff.mpr (fun ev hev => by simp [h2 ev hev])]
    simp

/-- The requests among the events of `getWeather`, seen as page events. -/
theorem requestsOf_map_core (l : List Event) :
    requestsOf (l.map PageEvent.core) = l.filter Event.isFetch := by
  unfold requestsOf
  rw [List.filterMap_map]
  have : (PageEvent.core? ∘ PageEvent.core) = some := rfl
  rw [this, List.filterMap_some]

/-- The requests of two stretches of events. -/
theorem requestsOf_append (a b : List PageEvent) :
    requestsOf (a ++ b) = requestsOf a ++ requestsOf b := by
  simp [requestsOf, List.filterMap_append, List.filter_append]

/-- The statements of `loadByCoords` after `getWeather` issue no request. -/
theorem App.requestsOf_renderLoaded (page : Page) (place : Option String) (w : Json) :
    requestsOf (App.renderLoaded page place w).1 = [] := by
  unfold App.renderLoaded
  split_ifs <;> simp [requestsOf, PageEvent.core?, App.loadFailed, Event.isFetch]

/-- The requests of `loadByCoords` before its timer callback are those of `getWeather`. -/
theorem App.requestsOf_loadByCoords (P : Platform) (gss : Bool) (cfg : Option Config)
    (page : Page) (c : Cache) (clk : Clock) (net : Net) (lat lon : ℚ) (place : Option String) :
    requestsOf (App.loadByCoords P gss cfg page c clk net lat lon place).events =
      (App.getWeather P gss cfg c clk net lat lon).events.filter Event.isFetch := by
  unfold App.loadByCoords
  dsimp only
  split
  · simp only [requestsOf_append, requestsOf_map_core]
    simp [requestsOf, PageEvent.core?, App.loadFailed, Event.isFetch]
  · rw [requestsOf_append, requestsOf_append, requestsOf_map_core,
      App.requestsOf_renderLoaded]
    simp [requestsOf, PageEvent.core?, Event.isFetch]

/-- The timer callback issues exactly the requests of its one `owFetch` call. -/
theorem App.requestsOf_retryForecast (P : Platform) (gss : Bool) (cfg : Option Config)
    (page : Page) (lat lon : ℚ) (w : Json) (o : FetchOutcome) :
    requestsOf (App.retryForecast P gss cfg page lat lon w o) =
      (Api.owFetch P gss cfg "/data/2.5/forecast" (App.coordParams P lat lon)
        (some 8000)).events.filter Event.isFetch := by
  unfold App.retryForecast
  dsimp only
  repeat' split
  all_goals simp only [requestsOf_append, requestsOf_map_core]
  all_goals simp [requestsOf, PageEvent.core?]

/-- C14, as the code has it: the requests of one `loadByCoords(lat, lon)` call, its timer
callback included, are, in order and each at most once, the current-conditions, forecast and
air-quality requests of `getWeather` and then one more forecast request, made by the timer
callback of `loadByCoords`; that second forecast request occurs only when `getWeather`
resolved to a payload whose `forecast` is falsy. So current conditions and air quality are
requested at most once, the forecast at most twice. -/
theorem loadByCoords_requests (P : Platform) (gss : Bool) (cfg : Option Config) (page : Page)
    (c : Cache) (clk : Clock) (net : Net) (lat lon : ℚ) (place : Option String)
    (o : FetchOutcome) :
    (requestsOf ((App.loadByCoords P gss cfg page c clk net lat lon place).events ++
        App.timerEvents P gss cfg page lat lon
          (App.loadByCoords P gss cfg page c clk net lat lon place) o)).Sublist
      ((Api.owFetch P gss cfg "/data/2.5/weather" (App.coordParams P lat lon)
          (some 6000)).events.filter Event.isFetch ++
        (Api.owFetch P gss cfg "/data/2.5/forecast" (App.coordParams P lat lon)
          (some 8000)).events.filter Event.isFetch ++
        (Api.owFetch P gss cfg "/data/2.5/air_pollution" (App.coordParams P lat lon)
          (some 5000)).events.filter Event.isFetch ++
        (Api.owFetch P gss cfg "/data/2.5/forecast" (App.coordParams P lat lon)
          (some 8000)).events.filter Event.isFetch) ∧
    ((Api.owFetch P gss cfg "/data/2.5/weather" (App.coordParams P lat lon)
      (some 6000)).events.filter Event.isFetch).length ≤ 1 ∧
    ((Api.owFetch P gss cfg "/data/2.5/forecast" (App.coordParams P lat lon)
      (some 8000)).events.filter Event.isFetch).length ≤ 1 ∧
    ((Api.owFetch P gss cfg "/data/2.5/air_pollution" (App.coordParams P lat lon)
      (some 5000)).events.filter Event.isFetch).length ≤ 1 ∧
    (requestsOf (App.timerEvents P gss cfg page lat lon
        (App.loadByCoords P gss cfg page c clk net lat lon place) o) ≠ [] →
      ∃ w, (App.getWeather P gss cfg c clk net lat lon).result = .ok w ∧
        (w.getField "forecast").truthy = false) := by
  refine ⟨?_, Api.owFetch_requests_le_one _ _ _ _ _ _, Api.owFetch_requests_le_one _ _ _ _ _ _,
    Api.owFetch_requests_le_one _ _ _ _ _ _, ?_⟩
  · rw [requestsOf_append, App.requestsOf_loadByCoords]
    refine List.Sublist.append (App.getWeather_requests P gss cfg c clk net lat lon) ?_
    unfold App.timerEvents
    split
    · exact List.nil_sublist _
    · rw [App.requestsOf_retryForecast]
  · intro h
    unfold App.timerEvents at h
    split at h
    · exact absurd rfl h
    · rename_i w hw
      unfold App.loadByCoords at hw
      dsimp only at hw
      split at hw
      · cases hw
      · rename_i w2 hres
        refine ⟨w2, hres, ?_⟩
        dsimp only at hw
        unfold App.renderLoaded at hw
        by_cases hf : (w2.getField "forecast").truthy = true
        · exfalso
          split_ifs at hw
        · simpa using hf

/-- When the forecast request of `getWeather` times out, `loadByCoords(51, 0)` requests the
forecast a second time: the paths it fetches are current conditions, forecast, air quality
and forecast again. -/
theorem loadByCoords_requests_forecast_twice :
    (requestsOf ((App.loadByCoords Ref.platform false (some ⟨some "k", none⟩)
        ⟨fun _ _ => true, fun _ => true, fun _ => true, fun _ => true⟩ [] ⟨50, 60⟩
        ⟨.response 200 (some (.str "sunny")), .timeout, .timeout⟩ 51 0 none).events ++
      App.timerEvents Ref.platform false (some ⟨some "k", none⟩)
        ⟨fun _ _ => true, fun _ => true, fun _ => true, fun _ => true⟩ 51 0
        (App.loadByCoords Ref.platform false (some ⟨some "k", none⟩)
          ⟨fun _ _ => true, fun _ => true, fun _ => true, fun _ => true⟩ [] ⟨50, 60⟩
          ⟨.response 200 (some (.str "sunny")), .timeout, .timeout⟩ 51 0 none)
        .timeout)).filterMap Event.fetchedPath? =
      ["/data/2.5/weather", "/data/2.5/forecast", "/data/2.5/air_pollution",
        "/data/2.5/forecast"] := by
  decide

/-! ## Properties of `renderAQI` and of the avatar upload -/

/-- C19: on a page that has the element `#aqi` whenever it has the weather widgets,
`renderAQI` does not throw for a payload whose index `w?.air?.list?.[0]?.main?.aqi` is one of
the numbers 1 to 5, and on a weather page it shows the index with the label and class of its
row (1 Good/good, 2 Moderate/moderate, 3 Unhealthy (sensitive)/unhealthy, 4
Unhealthy/unhealthy, 5 Very unhealthy/unhealthy); for a payload without `air`, or whose
chain ends in no index, it does not throw and on a weather page shows `No data`. -/
theorem renderAQI_table (hasWeatherUI aqiBox : Bool) (w : Json)
    (hbox : hasWeatherUI = true → aqiBox = true) :
    (aqiOf w = .num 1 → hasWeatherUI = true →
      renderAQI hasWeatherUI aqiBox w = .shown (.badge (.num 1) "Good" "good")) ∧
    (aqiOf w = .num 2 → hasWeatherUI = true →
      renderAQI hasWeatherUI aqiBox w = .shown (.badge (.num 2) "Moderate" "moderate")) ∧
    (aqiOf w = .num 3 → hasWeatherUI = true →
      renderAQI hasWeatherUI aqiBox w =
        .shown (.badge (.num 3) "Unhealthy (sensitive)" "unhealthy")) ∧
    (aqiOf w = .num 4 → hasWeatherUI = true →
      renderAQI hasWeatherUI aqiBox w = .shown (.badge (.num 4) "Unhealthy" "unhealthy")) ∧
    (aqiOf w = .num 5 → hasWeatherUI = true →
      renderAQI hasWeatherUI aqiBox w =
        .shown (.badge (.num 5) "Very unhealthy" "unhealthy")) ∧
    (w.getField "air" = .null → aqiOf w = .null) ∧
    (aqiOf w = .null → hasWeatherUI = true →
      renderAQI hasWeatherUI aqiBox w = .shown .noData) ∧
    ((aqiOf w = .null ∨ aqiOf w = .num 1 ∨ aqiOf w = .num 2 ∨ aqiOf w = .num 3 ∨
        aqiOf w = .num 4 ∨ aqiOf w = .num 5) →
      renderAQI hasWeatherUI aqiBox w ≠ .threw) := by
  have key : ∀ (n : ℚ) (label cls : String), aqiRow (.num n) = some (label, cls) →
      n ≠ 0 → aqiOf w = .num n → hasWeatherUI = true →
      renderAQI hasWeatherUI aqiBox w = .shown (.badge (.num n) label cls) := by
    intro n label cls hrow hn ha hui
    unfold renderAQI
    simp [hui, hbox hui, ha, Json.truthy, hn, hrow]
  have hnull : aqiOf w = .null → hasWeatherUI = true →
      renderAQI hasWeatherUI aqiBox w = .shown .noData := by
    intro ha hui
    unfold renderAQI
    simp [hui, hbox hui, ha, Json.truthy]
  have hskip : hasWeatherUI = false → renderAQI hasWeatherUI aqiBox w = .skipped := by
    intro hui
    unfold renderAQI
    simp [hui]
  have h1 := key 1 "Good" "good" (by simp [aqiRow, aqiTable]) (by norm_num)
  have h2 := key 2 "Moderate" "moderate" (by simp [aqiRow, aqiTable]) (by norm_num)
  have h3 := key 3 "Unhealthy (sensitive)" "unhealthy" (by simp [aqiRow, aqiTable])
    (by norm_num)
  have h4 := key 4 "Unhealthy" "unhealthy" (by simp [aqiRow, aqiTable]) (by norm_num)
  have h5 := key 5 "Very unhealthy" "unhealthy" (by simp [aqiRow, aqiTable]) (by norm_num)
  refine ⟨h1, h2, h3, h4, h5, ?_, hnull, ?_⟩
  · intro ha
    unfold aqiOf
    rw [ha]
    rfl
  · intro h
    cases hui : hasWeatherUI with
    | false =>
      subst hui
      rw [hskip rfl]
      intro e
      cases e
    | true =>
      subst hui
      rcases h with h | h | h | h | h | h
      · rw [hnull h rfl]
        intro e
        cases e
      · rw [h1 h rfl]
        intro e
        cases e
      · rw [h2 h rfl]
        intro e
        cases e
      · rw [h3 h rfl]
        intro e
        cases e
      · rw [h4 h rfl]
        intro e
        cases e
      · rw [h5 h rfl]
        intro e
        cases e

/-- A payload with air-quality index 2 on a weather page. -/
theorem renderAQI_table_witness :
    renderAQI true true (mkPayload (.str "sunny") .null
      (.obj [("list", .arr [.obj [("main", .obj [("aqi", .num 2)])]])])) =
      .shown (.badge (.num 2) "Moderate" "moderate") :=
  (renderAQI_table true true (mkPayload (.str "sunny") .null
    (.obj [("list", .arr [.obj [("main", .obj [("aqi", .num 2)])]])])) (fun _ => rfl)).2.1
    rfl rfl

/-- The number of characters of the resized data URL of the example. -/
theorem Ref.largeResized_length : Ref.largeResized.length = 500000 := by
  have h0 : "data:image/jpeg;base64,".length = 23 := by decide
  have h1 : (String.mk (List.replicate 499977 'A')).length = 499977 := by
    rw [String.length_mk]
    exact List.length_replicate _ _
  unfold Ref.largeResized
  rw [String.length_append, h0, h1]

/-- The number of characters of the original data URL of the example. -/
theorem Ref.largeOriginal_length : Ref.largeOriginal.length = 2000000 := by
  have h0 : "data:image/png;base64,".length = 22 := by decide
  have h1 : (String.mk (List.replicate 1999978 'A')).length = 1999978 := by
    rw [String.length_mk]
    exact List.length_replicate _ _
  unfold Ref.largeOriginal
  rw [String.length_append, h0, h1]

/-- An image above the 300 KB mark whose resize succeeds is stored in its resized form as
soon as that form passes the final guard of 600 * 1024 bytes; here for a user without a
stored record. -/
theorem avatarUpload_resized (curEmail original resized : String)
    (h1 : 4 * (300 * 1024) < original.length * 3)
    (h2 : approxBytesFromDataUrl resized ≤ 600 * 1024) :
    avatarUpload [] curEmail (some ⟨true, some original, some resized⟩) =
      ([[("email", .str curEmail), ("avatar", .str resized)]], .saved resized) := by
  unfold avatarUpload
  simp [h1, not_lt.mpr h2, loadUser, saveUser, Json.setField]

/-- The approximate size of a data URL of 500000 characters. -/
theorem approxBytes_of_length (dataUrl : String) (h : dataUrl.length = 500000) :
    approxBytesFromDataUrl dataUrl = 375000 ∧ 300 * 1024 < approxBytesFromDataUrl dataUrl ∧
      approxBytesFromDataUrl dataUrl ≤ 600 * 1024 := by
  unfold approxBytesFromDataUrl
  rw [h]
  decide

/-- A data URL of 2000000 characters is above the mark that triggers the resize. -/
theorem above_resize_mark (dataUrl : String) (h : dataUrl.length = 2000000) :
    4 * (300 * 1024) < dataUrl.length * 3 := by
  rw [h]
  decide

/-- C20 at the failing input: for an image whose data URL has 2000000 characters and whose
resize gives a data URL of 500000 characters, the handler stores the resized data URL in the
user record, although its approximate size, 375000 bytes, is above 300 * 1024 = 307200. -/
theorem avatarUpload_stores_over_300KB :
    avatarUpload [] "ann@example.org"
      (some ⟨true, some Ref.largeOriginal, some Ref.largeResized⟩) =
        ([[("email", .str "ann@example.org"), ("avatar", .str Ref.largeResized)]],
          .saved Ref.largeResized) ∧
    approxBytesFromDataUrl Ref.largeResized = 375000 ∧
    300 * 1024 < approxBytesFromDataUrl Ref.largeResized :=
  ⟨avatarUpload_resized "ann@example.org" Ref.largeOriginal Ref.largeResized
      (above_resize_mark Ref.largeOriginal Ref.largeOriginal_length)
      (approxBytes_of_length Ref.largeResized Ref.largeResized_length).2.2,
    (approxBytes_of_length Ref.largeResized Ref.largeResized_length).1,
    (approxBytes_of_length Ref.largeResized Ref.largeResized_length).2.1⟩

/-! ## Properties of `renderDaily` -/

/-- A key without entry is a key that is not in the map. -/
theorem DayMap.get_eq_none (key : String) (m : DayMap) :
    DayMap.get key m = none ↔ key ∉ m.map Prod.fst := by
  unfold DayMap.get
  induction m with
  | nil => simp
  | cons q rest ih =>
    by_cases hq : q.1 = key
    · simp [List.find?_cons, hq]
    · have hk : ¬ key = q.1 := fun e => hq e.symm
      simp only [List.find?_cons, hq, decide_False, List.map_cons, List.mem_cons, hk, false_or]
      exact ih

/-- The entry read under a key is in the map. -/
theorem DayMap.mem_of_get (key : String) (p : DayPick) (m : DayMap)
    (h : DayMap.get key m = some p) : (key, p) ∈ m := by
  unfold DayMap.get at h
  cases hf : m.find? (fun q => q.1 = key) with
  | none => simp [hf] at h
  | some q =>
    rw [hf] at h
    simp only [Option.map_some', Option.some.injEq] at h
    have h1 := List.find?_some hf
    have h2 := List.mem_of_find?_eq_some hf
    simp only [decide_eq_true_eq] at h1
    obtain ⟨a, b⟩ := q
    simp only at h1 h
    rw [← h1, ← h]
    exact h2

/-- In a map with distinct keys, an entry of the map is the one read under its key. -/
theorem DayMap.get_eq_some_of_mem (key : String) (p : DayPick) (m : DayMap)
    (hm : (m.map Prod.fst).Nodup) (h : (key, p) ∈ m) : DayMap.get key m = some p := by
  unfold DayMap.get
  induction m with
  | nil => simp at h
  | cons q rest ih =>
    obtain ⟨a, b⟩ := q
    rw [List.map_cons, List.nodup_cons] at hm
    rcases List.mem_cons.mp h with e | e
    · obtain ⟨hk, hv⟩ := Prod.mk.inj e
      simp [List.find?_cons, hk, hv]
    · have hne : ¬ a = key := fun h2 => hm.1 (List.mem_map.mpr ⟨(key, p), e, h2.symm⟩)
      simp only [List.find?_cons, hne, decide_False]
      exact ih hm.2 e

/-- Setting a key that is not in the map appends the entry. -/
theorem DayMap.set_of_not_mem (key : String) (v : DayPick) (m : DayMap)
    (h : key ∉ m.map Prod.fst) : DayMap.set key v m = m ++ [(key, v)] := by
  induction m with
  | nil => rfl
  | cons q rest ih =>
    obtain ⟨a, b⟩ := q
    simp only [List.map_cons, List.mem_cons, not_or] at h
    have ha : ¬ a = key := fun e => h.1 e.symm
    simp only [DayMap.set, ha, if_false, List.cons_append, ih h.2]

/-- Setting a key that is in the map leaves the keys as they are. -/
theorem DayMap.keys_set_of_mem (key : String) (v : DayPick) (m : DayMap)
    (h : key ∈ m.map Prod.fst) : (DayMap.set key v m).map Prod.fst = m.map Prod.fst := by
  induction m with
  | nil => simp at h
  | cons q rest ih =>
    obtain ⟨a, b⟩ := q
    by_cases ha : a = key
    · simp [DayMap.set, ha]
    · simp only [List.map_cons, List.mem_cons] at h
      rcases h with h | h
      · exact absurd h.symm ha
      · simp only [DayMap.set, ha, if_false, List.map_cons, ih h]

/-- In a map with distinct keys, an entry present after `set` is the entry set or an entry
of another key that was there before. -/
theorem DayMap.mem_of_mem_set (key : String) (v : DayPick) (m : DayMap)
    (hm : (m.map Prod.fst).Nodup) (k : String) (p : DayPick)
    (h : (k, p) ∈ DayMap.set key v m) : (k = key ∧ p = v) ∨ (k ≠ key ∧ (k, p) ∈ m) := by
  induction m with
  | nil =>
    simp only [DayMap.set, List.mem_singleton, Prod.mk.injEq] at h
    exact Or.inl h
  | cons q rest ih =>
    obtain ⟨a, b⟩ := q
    rw [List.map_cons, List.nodup_cons] at hm
    by_cases ha : a = key
    · simp only [DayMap.set, ha, if_true, List.mem_cons, Prod.mk.injEq] at h
      rcases h with h | h
      · exact Or.inl h
      · refine Or.inr ⟨?_, List.mem_cons_of_mem _ h⟩
        intro e
        exact hm.1 (List.mem_map.mpr ⟨(k, p), h, by rw [ha]; exact e⟩)
    · simp only [DayMap.set, ha, if_false, List.mem_cons, Prod.mk.injEq] at h
      rcases h with h | h
      · refine Or.inr ⟨fun e => ha (h.1 ▸ e), ?_⟩
        rw [h.1, h.2]
        exact List.mem_cons_self _ _
      · rcases ih hm.2 h with h2 | h2
        · exact Or.inl h2
        · exact Or.inr ⟨h2.1, List.mem_cons_of_mem _ h2.2⟩

/-- A date is among the distinct dates of a list exactly when it is in the list. -/
theorem Midday.mem_dates (x : String) (l : List String) : x ∈ Midday.dates l ↔ x ∈ l := by
  induction l with
  | nil => simp [Midday.dates]
  | cons d rest ih =>
    simp only [Midday.dates, List.mem_cons, List.mem_filter, ih, decide_eq_true_eq]
    constructor
    · rintro (h | h)
      · exact Or.inl h
      · exact Or.inr h.1
    · rintro (h | h)
      · exact Or.inl h
      · by_cases hx : x = d
        · exact Or.inl hx
        · exact Or.inr ⟨h, hx⟩

/-- The distinct dates of a list are distinct. -/
theorem Midday.nodup_dates (l : List String) : (Midday.dates l).Nodup := by
  induction l with
  | nil => simp [Midday.dates]
  | cons d rest ih =>
    simp only [Midday.dates, List.nodup_cons, List.mem_filter, decide_eq_true_eq]
    exact ⟨fun h => h.2 rfl, ih.sublist (List.filter_sublist _)⟩

/-- The distinct dates after one more sample: a new date comes last. -/
theorem Midday.dates_snoc (l : List String) (d : String) :
    Midday.dates (l ++ [d]) = if d ∈ l then Midday.dates l else Midday.dates l ++ [d] := by
  induction l with
  | nil => simp [Midday.dates]
  | cons a rest ih =>
    rw [List.cons_append]
    unfold Midday.dates
    rw [ih]
    by_cases hd : d ∈ rest
    · simp [hd]
    · by_cases ha : d = a
      · subst ha
        simp [hd, List.filter_append]
      · simp [hd, ha, List.filter_append]

/-- The first element that passes a test also is the first that passes a stricter test which
it passes. -/
theorem find?_stricter {α : Type} (p p2 q : α → Bool) (hp : ∀ s, p2 s = (p s && q s))
    (l : List α) (r : α) (h : l.find? p = some r) (hq : q r = true) :
    l.find? p2 = some r := by
  induction l with
  | nil => simp at h
  | cons a rest ih =>
    by_cases ha : p a = true
    · have hr : a = r := by simpa [List.find?_cons, ha] using h
      subst hr
      simp [List.find?_cons, hp, ha, hq]
    · have h2 : rest.find? p = some r := by simpa [List.find?_cons, ha] using h
      have ha2 : p2 a = false := by simp [hp, ha]
      simp only [List.find?_cons, ha2]
      exact ih h2

/-- A sample of another date does not change the representative of a date. -/
theorem Midday.representative_snoc_other (C : Calendar) (k : String) (l : List Json)
    (x : Json) (hne : Midday.dateOf C x ≠ k) :
    Midday.representative C k (l ++ [x]) = Midday.representative C k l := by
  unfold Midday.representative
  simp [List.filter_append, hne]

/-- The first sample of a date is its representative. -/
theorem Midday.representative_snoc_first (C : Calendar) (l : List Json) (x : Json)
    (h : ∀ s ∈ l, Midday.dateOf C s ≠ Midday.dateOf C x) :
    Midday.representative C (Midday.dateOf C x) (l ++ [x]) = some x := by
  have hnil : l.filter (fun s => Midday.dateOf C s = Midday.dateOf C x) = [] := by
    rw [List.filter_eq_nil_iff]
    intro s hs
    simpa using h s hs
  unfold Midday.representative
  simp [List.filter_append, hnil]

/-- A later sample that is not closer to 13 h leaves the representative of its date. -/
theorem Midday.representative_snoc_keep (C : Calendar) (l : List Json) (x r : Json)
    (hr : Midday.representative C (Midday.dateOf C x) l = some r)
    (hle : Midday.gapOf C r ≤ Midday.gapOf C x) :
    Midday.representative C (Midday.dateOf C x) (l ++ [x]) = some r := by
  unfold Midday.representative at hr ⊢
  have hf : List.filter (fun s => decide (Midday.dateOf C s = Midday.dateOf C x)) (l ++ [x]) =
      List.filter (fun s => decide (Midday.dateOf C s = Midday.dateOf C x)) l ++ [x] := by
    simp [List.filter_append]
  rw [hf, List.find?_append]
  have h2 := find?_stricter
    (fun s => (List.filter (fun t => decide (Midday.dateOf C t = Midday.dateOf C x)) l).all
      (fun t => decide (Midday.gapOf C s ≤ Midday.gapOf C t)))
    (fun s => (List.filter (fun t => decide (Midday.dateOf C t = Midday.dateOf C x)) l ++
      [x]).all (fun t => decide (Midday.gapOf C s ≤ Midday.gapOf C t)))
    (fun s => decide (Midday.gapOf C s ≤ Midday.gapOf C x))
    (fun s => by simp [List.all_append])
    _ r hr (by simpa using hle)
  rw [h2]
  rfl

/-- A later sample that is closer to 13 h becomes the representative of its date. -/
theorem Midday.representative_snoc_better (C : Calendar) (l : List Json) (x r : Json)
    (hr : Midday.representative C (Midday.dateOf C x) l = some r)
    (hlt : Midday.gapOf C x < Midday.gapOf C r) :
    Midday.representative C (Midday.dateOf C x) (l ++ [x]) = some x := by
  unfold Midday.representative at hr ⊢
  have hf : List.filter (fun s => decide (Midday.dateOf C s = Midday.dateOf C x)) (l ++ [x]) =
      List.filter (fun s => decide (Midday.dateOf C s = Midday.dateOf C x)) l ++ [x] := by
    simp [List.filter_append]
  have hmin := List.find?_some hr
  rw [List.all_eq_true] at hmin
  have hmin2 : ∀ t ∈ List.filter (fun s => decide (Midday.dateOf C s = Midday.dateOf C x)) l,
      Midday.gapOf C r ≤ Midday.gapOf C t := fun t ht => by simpa using hmin t ht
  rw [hf, List.find?_append]
  have hnone : (List.filter (fun s => decide (Midday.dateOf C s = Midday.dateOf C x)) l).find?
      (fun s => (List.filter (fun t => decide (Midday.dateOf C t = Midday.dateOf C x)) l ++
        [x]).all (fun t => decide (Midday.gapOf C s ≤ Midday.gapOf C t))) = none := by
    rw [List.find?_eq_none]
    intro s hs
    have h1 := hmin2 s hs
    simp only [List.all_append, List.all_cons, List.all_nil, Bool.and_true, Bool.and_eq_true,
      decide_eq_true_eq, not_and, not_le]
    intro _
    omega
  rw [hnone, Option.none_or]
  have hx : (List.filter (fun t => decide (Midday.dateOf C t = Midday.dateOf C x)) l ++
      [x]).all (fun t => decide (Midday.gapOf C x ≤ Midday.gapOf C t)) = true := by
    rw [List.all_eq_true]
    intro t ht
    rcases List.mem_append.mp ht with h | h
    · have := hmin2 t h
      simp only [decide_eq_true_eq]
      omega
    · rw [List.mem_singleton.mp h]
      simp
  exact List.find?_cons_of_pos _ hx

/-- The loop over a list and one more item is the loop over the list, then the body. -/
theorem groupAll_snoc (C : Calendar) (l : List Json) (x : Json) : ∀ m : DayMap,
    groupAll C m (l ++ [x]) =
      match groupAll C m l with
      | none => none
      | some m2 => groupStep C m2 x := by
  induction l with
  | nil =>
    intro m
    simp only [List.nil_append, groupAll]
    cases groupStep C m x <;> rfl
  | cons a rest ih =>
    intro m
    simp only [List.cons_append, groupAll]
    cases groupStep C m a with
    | none => rfl
    | some m2 => exact ih m2

/-- The loop of `renderDaily` over a list of samples with valid times ends with a map whose
keys are the distinct dates in order of first appearance and whose entry under each date
holds the representative of the date and its hour. -/
theorem groupAll_spec (C : Calendar) (l : List Json)
    (hv : ∀ x ∈ l, timeValue C x ≠ none) :
    ∃ m : DayMap, groupAll C [] l = some m ∧
      m.map Prod.fst = Midday.dates (l.map (Midday.dateOf C)) ∧
      ∀ k p, (k, p) ∈ m →
        Midday.representative C k l = some p.item ∧
          hourGap p.hour = Midday.gapOf C p.item := by
  induction l using List.reverseRecOn with
  | nil => exact ⟨[], rfl, rfl, by simp⟩
  | append_singleton l x ih =>
    obtain ⟨m, hm, hkeys, hrep⟩ := ih (fun y hy => hv y (List.mem_append_left _ hy))
    have hx := hv x (by simp)
    obtain ⟨ms, hms⟩ := Option.ne_none_iff_exists'.mp hx
    have hdate : C.isoDate ms = Midday.dateOf C x := by simp [Midday.dateOf, hms]
    have hgap : hourGap (utcHours ms) = Midday.gapOf C x := by simp [Midday.gapOf, hms]
    have hnd : (m.map Prod.fst).Nodup := by
      rw [hkeys]
      exact Midday.nodup_dates _
    have hstep : groupStep C m x =
        match DayMap.get (Midday.dateOf C x) m with
        | none => some (DayMap.set (Midday.dateOf C x) ⟨utcHours ms, x⟩ m)
        | some prev =>
          if Midday.gapOf C x < hourGap prev.hour then
            some (DayMap.set (Midday.dateOf C x) ⟨utcHours ms, x⟩ m)
          else some m := by
      unfold groupStep
      simp only [hms, hdate, hgap]
    rw [groupAll_snoc, hm]
    simp only
    rw [hstep]
    cases hget : DayMap.get (Midday.dateOf C x) m with
    | none =>
      have hnotin : Midday.dateOf C x ∉ m.map Prod.fst := (DayMap.get_eq_none _ _).mp hget
      have hnotin2 : Midday.dateOf C x ∉ l.map (Midday.dateOf C) := by
        rw [hkeys, Midday.mem_dates] at hnotin
        exact hnotin
      refine ⟨_, rfl, ?_, ?_⟩
      · rw [DayMap.set_of_not_mem _ _ _ hnotin]
        simp only [List.map_append, List.map_cons, List.map_nil, Midday.dates_snoc, hkeys,
          hnotin2, if_false]
      · intro k p hmem
        rw [DayMap.set_of_not_mem _ _ _ hnotin] at hmem
        rcases List.mem_append.mp hmem with h | h
        · have hk : Midday.dateOf C x ≠ k := fun e =>
            hnotin (List.mem_map.mpr ⟨(k, p), h, e.symm⟩)
          rw [Midday.representative_snoc_other C k l x hk]
          exact hrep k p h
        · obtain ⟨hk, hp⟩ := Prod.mk.inj (List.mem_singleton.mp h)
          subst hk hp
          refine ⟨Midday.representative_snoc_first C l x ?_, hgap⟩
          intro s hs e
          exact hnotin2 (List.mem_map.mpr ⟨s, hs, e⟩)
    | some prev =>
      have hprev := DayMap.mem_of_get _ _ _ hget
      have hin : Midday.dateOf C x ∈ m.map Prod.fst :=
        List.mem_map.mpr ⟨_, hprev, rfl⟩
      have hin2 : Midday.dateOf C x ∈ l.map (Midday.dateOf C) := by
        rw [hkeys, Midday.mem_dates] at hin
        exact hin
      obtain ⟨hr, hg⟩ := hrep _ _ hprev
      by_cases hlt : Midday.gapOf C x < hourGap prev.hour
      · simp only [hlt, if_true]
        refine ⟨_, rfl, ?_, ?_⟩
        · rw [DayMap.keys_set_of_mem _ _ _ hin]
          simp only [List.map_append, List.map_cons, List.map_nil, Midday.dates_snoc, hkeys,
            hin2, if_true]
        · intro k p hmem
          rcases DayMap.mem_of_mem_set _ _ _ hnd k p hmem with ⟨hk, hp⟩ | ⟨hk, hold⟩
          · subst hk hp
            exact ⟨Midday.representative_snoc_better C l x prev.item hr (hg ▸ hlt), hgap⟩
          · rw [Midday.representative_snoc_other C k l x (fun e => hk e.symm)]
            exact hrep k p hold
      · simp only [hlt, if_false]
        refine ⟨_, rfl, ?_, ?_⟩
        · simp only [List.map_append, List.map_cons, List.map_nil, Midday.dates_snoc, hkeys,
            hin2, if_true]
        · intro k p hmem
          by_cases hk : k = Midday.dateOf C x
          · subst hk
            have hp : some p = some prev := by
              rw [← DayMap.get_eq_some_of_mem _ _ _ hnd hmem, hget]
            cases hp
            exact ⟨Midday.representative_snoc_keep C l x prev.item hr
              (by rw [← hg]; exact Nat.le_of_not_lt hlt), hg⟩
          · rw [Midday.representative_snoc_other C k l x (fun e => hk e.symm)]
            exact hrep k p hmem

/-- Where every date has its representative, mapping the dates to representatives gives
the items of the entries. -/
theorem filterMap_representative (C : Calendar) (list : List Json) : ∀ m : DayMap,
    (∀ k p, (k, p) ∈ m → Midday.representative C k list = some p.item) →
    (m.map Prod.fst).filterMap (fun d => Midday.representative C d list) =
      m.map (fun q => q.2.item) := by
  intro m
  induction m with
  | nil => intro _; rfl
  | cons q rest ih =>
    intro h
    obtain ⟨k, p⟩ := q
    have h1 := h k p (List.mem_cons_self _ _)
    have h2 := ih (fun k2 p2 hm => h k2 p2 (List.mem_cons_of_mem _ hm))
    simp only [List.map_cons, List.filterMap_cons, h1, h2]

/-- C18: for a payload whose forecast list holds samples with valid times, on a weather page
with the element `#daily`, the samples `renderDaily` renders are the representatives of the
first seven distinct dates in order of first appearance, the representative of a date being
the first sample in list order that attains the minimum of `|UTC hour - 13|` among the
samples of that date; a representative is a sample of its date and no sample of the date is
closer to 13 h. The date of a sample is the first ten characters of its ISO timestamp. -/
theorem renderDaily_midday (C : Calendar) (w : Json) (list : List Json)
    (hlist : forecastItems w = some list)
    (hv : ∀ x ∈ list, timeValue C x ≠ none) :
    renderDaily C true true w = .tiles (Midday.rendered C list) ∧
    (Midday.rendered C list).length ≤ 7 ∧
    ∀ d r, Midday.representative C d list = some r →
      r ∈ list ∧ Midday.dateOf C r = d ∧
        ∀ t ∈ list, Midday.dateOf C t = d → Midday.gapOf C r ≤ Midday.gapOf C t := by
  obtain ⟨m, hm, hkeys, hrep⟩ := groupAll_spec C list hv
  refine ⟨?_, ?_, ?_⟩
  · unfold renderDaily
    simp only [Bool.not_true, Bool.false_eq_true, if_false, hlist, hm]
    congr 1
    unfold Midday.rendered
    rw [← hkeys, ← List.map_take, ← List.map_take]
    exact (filterMap_representative C list (m.take 7)
      (fun k p h => (hrep k p (List.mem_of_mem_take h)).1)).symm
  · unfold Midday.rendered
    exact le_trans (List.length_filterMap_le _ _) (List.length_take_le _ _)
  · intro d r hr
    unfold Midday.representative at hr
    have h1 := List.mem_of_find?_eq_some hr
    have h2 := List.find?_some hr
    rw [List.mem_filter] at h1
    rw [List.all_eq_true] at h2
    refine ⟨h1.1, by simpa using h1.2, ?_⟩
    intro t ht hd
    have := h2 t (List.mem_filter.mpr ⟨ht, by simpa using hd⟩)
    simpa using this

/-- Four samples on the reference calendar, at 22:13 and 23:13 UTC of 14 November 2023 and
at 12:06 and 13:06 UTC of the next day: the tiles are the first and the last. -/
theorem renderDaily_midday_witness :
    renderDaily Ref.calendar true true
      (mkPayload .null (.obj [("list", .arr [.obj [("dt", .num 1700000000)],
        .obj [("dt", .num 1700003600)], .obj [("dt", .num 1700050000)],
        .obj [("dt", .num 1700053600)]])]) .null) =
      .tiles [.obj [("dt", .num 1700000000)], .obj [("dt", .num 1700053600)]] :=
  (renderDaily_midday Ref.calendar
    (mkPayload .null (.obj [("list", .arr [.obj [("dt", .num 1700000000)],
      .obj [("dt", .num 1700003600)], .obj [("dt", .num 1700050000)],
      .obj [("dt", .num 1700053600)]])]) .null)
    [.obj [("dt", .num 1700000000)], .obj [("dt", .num 1700003600)],
      .obj [("dt", .num 1700050000)], .obj [("dt", .num 1700053600)]]
    rfl (by decide)).1.trans rfl

/-! ## Facts about user records -/

theorem Json.strictEq_eq {a b : Json} (h : a.strictEq b = true) : a = b := by
  cases a <;> cases b <;> simp_all [Json.strictEq]

theorem Json.strictEq_str (a : Json) (s : String) :
    a.strictEq (.str s) = true ↔ a = .str s := by
  constructor
  · exact Json.strictEq_eq
  · rintro rfl
    simp [Json.strictEq]

theorem User.field_nil (k : String) : User.field [] k = .null := rfl

theorem User.field_cons (k0 : String) (v0 : Json) (rest : User) (k : String) :
    User.field ((k0, v0) :: rest) k = if k = k0 then v0 else User.field rest k := by
  unfold User.field
  by_cases h : k = k0
  · have hb : (k == k0) = true := by simpa using h
    simp [List.lookup, hb, h]
  · have hb : (k == k0) = false := by simpa using h
    simp [List.lookup, hb, h]

theorem User.field_setField (u : User) (k k' : String) (v : Json) :
    User.field (Json.setField k v u) k' = if k' = k then v else u.field k' := by
  induction u with
  | nil => simp [Json.setField, User.field_cons, User.field_nil]
  | cons p rest ih =>
    obtain ⟨k0, v0⟩ := p
    by_cases h0 : k0 = k
    · subst h0
      by_cases h1 : k' = k0 <;> simp [Json.setField, User.field_cons, h1]
    · simp only [Json.setField, h0, if_false, User.field_cons, ih]
      by_cases h1 : k' = k0
      · have : ¬ k' = k := fun h => h0 (h1.symm.trans h)
        simp [h1, this, h0]
      · simp [h1]

theorem User.keys_setField (u : User) (k : String) (v : Json) :
    (Json.setField k v u).map Prod.fst =
      if k ∈ u.map Prod.fst then u.map Prod.fst else u.map Prod.fst ++ [k] := by
  induction u with
  | nil => simp [Json.setField]
  | cons p rest ih =>
    obtain ⟨k0, v0⟩ := p
    by_cases h0 : k0 = k
    · subst h0
      simp [Json.setField]
    · have h0' : ¬ k = k0 := fun h => h0 h.symm
      simp only [Json.setField, h0, if_false, List.map_cons, ih, List.mem_cons, h0', false_or]
      split_ifs <;> simp

theorem User.nodup_setField (u : User) (k : String) (v : Json)
    (h : (u.map Prod.fst).Nodup) : ((Json.setField k v u).map Prod.fst).Nodup := by
  rw [User.keys_setField]
  split_ifs with hk
  · exact h
  · exact List.Nodup.append h (List.nodup_singleton k) (by simpa using hk)

theorem User.field_merge_of_not_mem (b a : User) (k : String)
    (hk : k ∉ b.map Prod.fst) : (a.merge b).field k = a.field k := by
  induction b generalizing a with
  | nil => rfl
  | cons p rest ih =>
    simp only [List.map_cons, List.mem_cons, not_or] at hk
    have := ih (Json.setField p.1 p.2 a) hk.2
    unfold User.merge at this ⊢
    rw [List.foldl_cons, this, User.field_setField, if_neg hk.1]

theorem User.field_merge_of_mem (b a : User) (k : String) (v : Json)
    (hb : (b.map Prod.fst).Nodup) (hk : (k, v) ∈ b) : (a.merge b).field k = v := by
  induction b generalizing a with
  | nil => cases hk
  | cons p rest ih =>
    rw [List.map_cons, List.nodup_cons] at hb
    rcases List.mem_cons.mp hk with h | h
    · subst h
      have := User.field_merge_of_not_mem rest (Json.setField k v a) k hb.1
      unfold User.merge at this ⊢
      rw [List.foldl_cons, this, User.field_setField, if_pos rfl]
    · have := ih (Json.setField p.1 p.2 a) hb.2 h
      unfold User.merge at this ⊢
      rw [List.foldl_cons, this]

theorem User.field_of_mem (u : User) (k : String) (v : Json)
    (hu : (u.map Prod.fst).Nodup) (hk : (k, v) ∈ u) : u.field k = v := by
  induction u with
  | nil => cases hk
  | cons p rest ih =>
    obtain ⟨k0, v0⟩ := p
    rw [List.map_cons, List.nodup_cons] at hu
    rw [User.field_cons]
    rcases List.mem_cons.mp hk with h | h
    · cases h
      simp
    · have hne : ¬ k = k0 := by
        intro hkk
        rw [hkk] at h
        exact hu.1 (List.mem_map.mpr ⟨(k0, v), h, rfl⟩)
      rw [if_neg hne]
      exact ih hu.2 h

/-- Merging `b` over `a` gives `b` the say on every field of `b`. -/
theorem User.field_merge (a b : User) (k : String) (hb : (b.map Prod.fst).Nodup) :
    (a.merge b).field k = if k ∈ b.map Prod.fst then b.field k else a.field k := by
  split_ifs with hk
  · obtain ⟨p, hp, rfl⟩ := List.mem_map.mp hk
    rw [User.field_merge_of_mem b a p.1 p.2 hb hp, User.field_of_mem b p.1 p.2 hb hp]
  · exact User.field_merge_of_not_mem b a k hk

theorem modify_at_length {α : Type} (f : α → α) (pre : List α) (x : α) (post : List α) :
    (pre ++ x :: post).modify f pre.length = pre ++ f x :: post := by
  induction pre with
  | nil => simp
  | cons a pre ih => simp [ih]

/-- The array after `saveUser(updated)` when `x` is the first record with the email of `updated`. -/
theorem saveUser_of_stored (pre post : List User) (x updated : User)
    (hpre : ∀ u ∈ pre, (u.field "email").strictEq (updated.field "email") = false)
    (hx : (x.field "email").strictEq (updated.field "email") = true) :
    saveUser (pre ++ x :: post) updated = pre ++ x.merge updated :: post := by
  have hnone : pre.findIdx? (fun u => (u.field "email").strictEq (updated.field "email")) = none :=
    List.findIdx?_eq_none_iff.mpr hpre
  unfold saveUser
  rw [List.findIdx?_append, hnone, List.findIdx?_cons, if_pos hx]
  simp only [Option.map_some', Option.or, Nat.zero_add]
  exact modify_at_length _ pre x post

/-- The array after `saveUser(updated)` when no record has the email of `updated`. -/
theorem saveUser_of_not_stored (users : List User) (updated : User)
    (h : ∀ u ∈ users, (u.field "email").strictEq (updated.field "email") = false) :
    saveUser users updated = users ++ [updated] := by
  unfold saveUser
  rw [List.findIdx?_eq_none_iff.mpr h]

theorem User.mem_keys_setField (u : User) (k k' : String) (v : Json) :
    k' ∈ (Json.setField k v u).map Prod.fst ↔ k' = k ∨ k' ∈ u.map Prod.fst := by
  rw [User.keys_setField]
  split_ifs with hk
  · constructor
    · exact Or.inr
    · rintro (rfl | h)
      · exact hk
      · exact h
  · simp [or_comm]

/-- Replacing one record by a record with the same email keeps the emails distinct. -/
theorem emailsDistinct_replace (pre post : List User) (x y : User)
    (hy : y.field "email" = x.field "email") (h : emailsDistinct (pre ++ x :: post)) :
    emailsDistinct (pre ++ y :: post) := by
  unfold emailsDistinct at h ⊢
  simp only [List.pairwise_append, List.pairwise_cons, List.mem_cons, forall_eq_or_imp, hy]
    at h ⊢
  exact h

/-- A run of the `submit` handler on fields that pass its checks. -/
theorem saveProfileHandler_of_valid (b : Builtins) (st : Storage)
    (curEmail nameValue emailValue : String)
    (hname : 2 ≤ jsLength (trim nameValue))
    (hemail : emailPattern (b.toLowerCase (trim emailValue)) = true) :
    saveProfileHandler b st curEmail nameValue emailValue =
      (⟨saveUser st.users
          (Json.setField "email" (.str (b.toLowerCase (trim emailValue)))
            (Json.setField "name" (.str (trim nameValue))
              ((loadUser st.users curEmail).getD
                [("email", .str (b.toLowerCase (trim emailValue)))]))),
        some [("email", .str (b.toLowerCase (trim emailValue))),
          ("name", .str (trim nameValue))]⟩, true) := by
  unfold saveProfileHandler
  have hcond : (decide (jsLength (trim nameValue) < 2) ||
      !emailPattern (b.toLowerCase (trim emailValue))) = false := by
    rw [hemail]
    simpa using hname
  simp only [hcond]
  rfl

/-! ## Properties of the stored accounts -/

/-- C21: `Auth.register` (whether it succeeds or rejects) and `saveUser(updated)`, for any
record `updated`, keep the emails of the stored records distinct; `Auth.register` rejects
with `User already exists` exactly when a stored record has the trimmed, lower-cased email,
and then the users list and the session are as before; otherwise it appends the new record
and writes the session. -/
theorem register_and_saveUser_keep_emails_distinct (b : Builtins) (now : Nat) (st : Storage)
    (name email password : String) (updated : User) :
    (emailsDistinct st.users →
      emailsDistinct (Auth.register b now st name email password).1.users) ∧
    (emailsDistinct st.users → (updated.map Prod.fst).Nodup →
      emailsDistinct (saveUser st.users updated)) ∧
    ((Auth.register b now st name email password).2 = some (.error "User already exists") ↔
      ∃ u ∈ st.users, u.field "email" = .str (b.toLowerCase (trim email))) ∧
    ((Auth.register b now st name email password).2 = some (.error "User already exists") →
      (Auth.register b now st name email password).1 = st) ∧
    ((Auth.register b now st name email password).2 ≠ some (.error "User already exists") →
      Auth.register b now st name email password =
        (⟨st.users ++ [[("name", .str name), ("email", .str (b.toLowerCase (trim email))),
            ("hash", .str (sha256 b password)), ("createdAt", .num now)]],
          some [("email", .str (b.toLowerCase (trim email))), ("name", .str name)]⟩, none)) := by
  have hsave : emailsDistinct st.users → (updated.map Prod.fst).Nodup →
      emailsDistinct (saveUser st.users updated) := by
    intro h hkeys
    cases hfind : st.users.find?
        (fun u => (u.field "email").strictEq (updated.field "email")) with
    | none =>
      have hno : ∀ u ∈ st.users,
          (u.field "email").strictEq (updated.field "email") = false := by
        intro u hu
        have := List.find?_eq_none.mp hfind u hu
        simpa using this
      rw [saveUser_of_not_stored st.users updated hno]
      unfold emailsDistinct at h ⊢
      refine List.pairwise_append.mpr ⟨h, List.pairwise_singleton _ _, ?_⟩
      intro u hu v hv
      rw [List.mem_singleton] at hv
      subst hv
      exact hno u hu
    | some x =>
      obtain ⟨hx, pre, post, hsplit, hpre⟩ := List.find?_eq_some.mp hfind
      have hpre' : ∀ u ∈ pre,
          (u.field "email").strictEq (updated.field "email") = false := by
        intro u hu
        simpa using hpre u hu
      rw [hsplit] at h ⊢
      rw [saveUser_of_stored pre post x updated hpre' hx]
      refine emailsDistinct_replace pre post x _ ?_ h
      rw [User.field_merge x updated "email" hkeys]
      split_ifs
      · exact (Json.strictEq_eq hx).symm
      · rfl
  by_cases hany : st.users.any
      (fun u => (u.field "email").strictEq (.str (b.toLowerCase (trim email)))) = true
  · have hreg : Auth.register b now st name email password = (st, some userExists) := by
      unfold Auth.register
      simp only [hany, if_true]
    have hstored : ∃ u ∈ st.users, u.field "email" = .str (b.toLowerCase (trim email)) := by
      obtain ⟨u, hu, hp⟩ := List.any_eq_true.mp hany
      exact ⟨u, hu, Json.strictEq_eq hp⟩
    refine ⟨fun h => ?_, ?_, ?_, ?_, ?_⟩
    · rw [hreg]
      exact h
    · exact hsave
    · rw [hreg]
      exact ⟨fun _ => hstored, fun _ => rfl⟩
    · intro _
      rw [hreg]
    · intro h
      rw [hreg] at h
      exact absurd rfl h
  · have hreg : Auth.register b now st name email password =
        (⟨st.users ++ [[("name", .str name), ("email", .str (b.toLowerCase (trim email))),
            ("hash", .str (sha256 b password)), ("createdAt", .num now)]],
          some [("email", .str (b.toLowerCase (trim email))), ("name", .str name)]⟩, none) := by
      unfold Auth.register
      simp only [hany]
      rfl
    have hfresh : ∀ u ∈ st.users,
        (u.field "email").strictEq (.str (b.toLowerCase (trim email))) = false := by
      intro u hu
      by_contra hp
      exact hany (List.any_eq_true.mpr ⟨u, hu, by simpa using hp⟩)
    refine ⟨fun h => ?_, ?_, ?_, ?_, ?_⟩
    · rw [hreg]
      unfold emailsDistinct at h ⊢
      refine List.pairwise_append.mpr ⟨h, List.pairwise_singleton _ _, ?_⟩
      intro u hu v hv
      rw [List.mem_singleton] at hv
      subst hv
      exact hfresh u hu
    · exact hsave
    · rw [hreg]
      constructor
      · intro h
        cases h
      · rintro ⟨u, hu, hp⟩
        have := hfresh u hu
        rw [hp] at this
        simp [Json.strictEq] at this
    · intro h
      rw [hreg] at h
      cases h
    · intro _
      exact hreg

/-- C22: a save of the profile form by the user stored under `e1`, with fields that pass
the checks and a new email `e2 ≠ e1`, switches the session to `e2` and leaves the record
under `e1` as it was. When `e2` belongs to a stored record, that record (the first with
this email) is replaced by the merge of the current user's record over it: its name is the
name typed, its email stays `e2`, every other field the current user's record has (the
password hash among them) takes the current user's value, and no other record changes.
When `e2` is not stored, the current user's record with the new name and email is
appended. -/
theorem saveProfile_with_changed_email (b : Builtins) (st : Storage)
    (e1 nameValue emailValue : String) (cur : User)
    (hname : 2 ≤ jsLength (trim nameValue))
    (hemail : emailPattern (b.toLowerCase (trim emailValue)) = true)
    (hcur : loadUser st.users e1 = some cur)
    (hkeys : (cur.map Prod.fst).Nodup)
    (hne : b.toLowerCase (trim emailValue) ≠ e1) :
    let name := trim nameValue
    let e2 := b.toLowerCase (trim emailValue)
    let user : User := Json.setField "email" (.str e2) (Json.setField "name" (.str name) cur)
    let out := saveProfileHandler b st e1 nameValue emailValue
    out.2 = true ∧
    out.1.session = some [("email", .str e2), ("name", .str name)] ∧
    loadUser out.1.users e1 = some cur ∧
    (∀ other, loadUser st.users e2 = some other →
      ∃ pre post, st.users = pre ++ other :: post ∧
        (∀ u ∈ pre, u.field "email" ≠ .str e2) ∧
        out.1.users = pre ++ other.merge user :: post ∧
        (other.merge user).field "name" = .str name ∧
        (other.merge user).field "email" = .str e2 ∧
        (∀ k ∈ cur.map Prod.fst, k ≠ "name" → k ≠ "email" →
          (other.merge user).field k = cur.field k) ∧
        (∀ k, k ∉ cur.map Prod.fst → k ≠ "name" → k ≠ "email" →
          (other.merge user).field k = other.field k)) ∧
    (loadUser st.users e2 = none → out.1.users = st.users ++ [user]) := by
  intro name e2 user out
  have hout : out = (⟨saveUser st.users user,
      some [("email", .str e2), ("name", .str name)]⟩, true) := by
    have := saveProfileHandler_of_valid b st e1 nameValue emailValue hname hemail
    rw [hcur] at this
    exact this
  have huserEmail : user.field "email" = .str e2 := by
    show User.field (Json.setField "email" _ _) "email" = _
    rw [User.field_setField, if_pos rfl]
  have huserName : user.field "name" = .str name := by
    show User.field (Json.setField "email" _ (Json.setField "name" _ _)) "name" = _
    rw [User.field_setField, if_neg (by decide), User.field_setField, if_pos rfl]
  have huserKeys : (user.map Prod.fst).Nodup :=
    User.nodup_setField _ _ _ (User.nodup_setField _ _ _ hkeys)
  have hmemKeys : ∀ k, k ∈ user.map Prod.fst ↔ k = "email" ∨ k = "name" ∨ k ∈ cur.map Prod.fst := by
    intro k
    show k ∈ (Json.setField "email" _ (Json.setField "name" _ cur)).map Prod.fst ↔ _
    rw [User.mem_keys_setField, User.mem_keys_setField]
  have hne1 : ((Json.str e2).strictEq (.str e1)) = false := by
    simpa [Json.strictEq] using hne
  rw [hout]
  refine ⟨rfl, rfl, ?_, ?_, ?_⟩
  · show loadUser (saveUser st.users user) e1 = some cur
    cases hfind : st.users.find? (fun u => (u.field "email").strictEq (.str e2)) with
    | none =>
      have hno : ∀ u ∈ st.users,
          (u.field "email").strictEq (user.field "email") = false := by
        intro u hu
        rw [huserEmail]
        simpa using List.find?_eq_none.mp hfind u hu
      rw [saveUser_of_not_stored st.users user hno]
      unfold loadUser at hcur ⊢
      rw [List.find?_append, hcur]
      rfl
    | some other =>
      obtain ⟨hx, pre, post, hsplit, hpre⟩ := List.find?_eq_some.mp hfind
      have hpre' : ∀ u ∈ pre, (u.field "email").strictEq (user.field "email") = false := by
        intro u hu
        rw [huserEmail]
        simpa using hpre u hu
      have hx' : (other.field "email").strictEq (user.field "email") = true := by
        rw [huserEmail]
        exact hx
      rw [hsplit] at hcur ⊢
      rw [saveUser_of_stored pre post other user hpre' hx']
      unfold loadUser at hcur ⊢
      have h1 : ((other.field "email").strictEq (.str e1)) = false := by
        rw [Json.strictEq_eq hx]
        exact hne1
      have h2 : (((other.merge user).field "email").strictEq (.str e1)) = false := by
        rw [User.field_merge other user "email" huserKeys,
          if_pos ((hmemKeys "email").mpr (Or.inl rfl)), huserEmail]
        exact hne1
      rw [List.find?_append, List.find?_cons_of_neg _ (by simpa using h1)] at hcur
      rw [List.find?_append, List.find?_cons_of_neg _ (by simpa using h2)]
      exact hcur
  · intro other hother
    obtain ⟨hx, pre, post, hsplit, hpre⟩ := List.find?_eq_some.mp hother
    have hpre' : ∀ u ∈ pre, (u.field "email").strictEq (user.field "email") = false := by
      intro u hu
      rw [huserEmail]
      simpa using hpre u hu
    have hx' : (other.field "email").strictEq (user.field "email") = true := by
      rw [huserEmail]
      exact hx
    refine ⟨pre, post, hsplit, ?_, ?_, ?_, ?_, ?_, ?_⟩
    · intro u hu hu2
      have := hpre u hu
      rw [hu2] at this
      simp [Json.strictEq] at this
    · show saveUser st.users user = _
      rw [hsplit, saveUser_of_stored pre post other user hpre' hx']
    · rw [User.field_merge other user "name" huserKeys,
        if_pos ((hmemKeys "name").mpr (Or.inr (Or.inl rfl))), huserName]
    · rw [User.field_merge other user "email" huserKeys,
        if_pos ((hmemKeys "email").mpr (Or.inl rfl)), huserEmail]
    · intro k hk hkn hke
      rw [User.field_merge other user k huserKeys,
        if_pos ((hmemKeys k).mpr (Or.inr (Or.inr hk)))]
      show User.field (Json.setField "email" _ (Json.setField "name" _ cur)) k = _
      rw [User.field_setField, if_neg hke, User.field_setField, if_neg hkn]
    · intro k hk hkn hke
      rw [User.field_merge other user k huserKeys, if_neg]
      rw [hmemKeys]
      rintro (h | h | h)
      · exact hke h
      · exact hkn h
      · exact hk h
  · intro hnone
    have hno : ∀ u ∈ st.users,
        (u.field "email").strictEq (user.field "email") = false := by
      intro u hu
      rw [huserEmail]
      simpa using List.find?_eq_none.mp hnone u hu
    show saveUser st.users user = _
    exact saveUser_of_not_stored st.users user hno

/-- On the two reference accounts: a registration under Ann's email in other letter case
and with blanks around it, and a save of a record with Bob's email, leave two records with
distinct emails. -/
theorem register_and_saveUser_keep_emails_distinct_witness :
    emailsDistinct Ref.accounts.users ∧
    emailsDistinct
      (Auth.register Ref.builtins 3 Ref.accounts "Eve" " Ann@X.org " "e").1.users ∧
    emailsDistinct
      (saveUser Ref.accounts.users [("email", .str "bob@x.org"), ("name", .str "Rob")]) :=
  ⟨by decide,
    (register_and_saveUser_keep_emails_distinct Ref.builtins 3 Ref.accounts "Eve"
      " Ann@X.org " "e" [("email", .str "bob@x.org"), ("name", .str "Rob")]).1 (by decide),
    (register_and_saveUser_keep_emails_distinct Ref.builtins 3 Ref.accounts "Eve"
      " Ann@X.org " "e" [("email", .str "bob@x.org"), ("name", .str "Rob")]).2.1
      (by decide) (by decide)⟩

/-- On the two reference accounts, Ann saves the profile form with Bob's email: the session
names Bob's email, Ann's record is found as before, and Bob's record now holds Ann's
password hash. -/
theorem saveProfile_with_changed_email_witness :
    loadUser Ref.accounts.users "ann@x.org" =
      some [("name", .str "Ann"), ("email", .str "ann@x.org"), ("hash", .str "plain:a"),
        ("createdAt", .num 1)] ∧
    (saveProfileHandler Ref.builtins Ref.accounts "ann@x.org" " Ann B " "Bob@X.org").1.session =
      some [("email", .str "bob@x.org"), ("name", .str "Ann B")] ∧
    loadUser
      (saveProfileHandler Ref.builtins Ref.accounts "ann@x.org" " Ann B " "Bob@X.org").1.users
      "ann@x.org" =
      some [("name", .str "Ann"), ("email", .str "ann@x.org"), ("hash", .str "plain:a"),
        ("createdAt", .num 1)] ∧
    (saveProfileHandler Ref.builtins Ref.accounts "ann@x.org" " Ann B " "Bob@X.org").1.users =
      [[("name", .str "Ann"), ("email", .str "ann@x.org"), ("hash", .str "plain:a"),
        ("createdAt", .num 1)],
      [("name", .str "Ann B"), ("email", .str "bob@x.org"), ("hash", .str "plain:a"),
        ("createdAt", .num 1)]] :=
  ⟨rfl,
    (saveProfile_with_changed_email Ref.builtins Ref.accounts "ann@x.org" " Ann B "
      "Bob@X.org" [("name", .str "Ann"), ("email", .str "ann@x.org"),
        ("hash", .str "plain:a"), ("createdAt", .num 1)]
      (by decide) (by decide) rfl (by decide) (by decide)).2.1,
    (saveProfile_with_changed_email Ref.builtins Ref.accounts "ann@x.org" " Ann B "
      "Bob@X.org" [("name", .str "Ann"), ("email", .str "ann@x.org"),
        ("hash", .str "plain:a"), ("createdAt", .num 1)]
      (by decide) (by decide) rfl (by decide) (by decide)).2.2.1,
    rfl⟩

end Weather
